import Mathlib

/-!
# SAGE forest ingestion and galaxy persistence: a verification development

Shallow embedding of

* `src/io/read_tree_binary.c`  (`setup_forests_io_lht_binary`, `load_forest_lht_binary`),
* `src/core_save.c`            (`generate_galaxy_indices`),

Conventions of the embedding.

* C integers are `Int`.  Where the C arithmetic can leave the range of its type the
  reduction is written out (`wrap64`, `toInt64`, `toUInt32`).  Forest counts are sums of at
  most `2^31` header counts below `2^31`, so the `int64_t` forest arithmetic cannot wrap and
  is written without a reduction.
* C arrays are total functions `Int → Int`; a store `a[i] = v` is `Function.update a i v`.
* `for` loops with a known trip count are structural recursions on that count.
* `ABORT(code)`, a failed `XASSERT(.., code, ..)` (the checks are compiled in) and `return code`
  with a non-zero code end the function with `Except.error code`; what the function had
  written before is dropped with it.
* Allocation is assumed to succeed.
* The declarations of `core_allvars.h` are read off their uses: structures carry the fields
  the functions use, `sizeof(struct halo_data)` is a parameter, status codes are symbolic.
-/

namespace Sage

/-! ## Status codes -/

/-- The non-zero statuses the embedded functions can end with.  `MINUS_ONE` is the literal
`return -1`; `SIGFPE` stands for an integer division by zero, which ends the process instead
of returning. -/
inductive Status where
  | EXIT_FAILURE
  | MINUS_ONE
  | MALLOC_FAILURE
  | FILE_NOT_FOUND
  | INVALID_OPTION_IN_PARAMS
  | INVALID_MEMORY_ACCESS_REQUESTED
  | INVALID_FILE_POINTER
  | FILE_READ_ERROR
  | SIGFPE
  deriving DecidableEq, Repr

/-! ## Machine arithmetic -/

/-- Reduction of an integer to `uint64_t` / `size_t`. -/
def wrap64 (x : Int) : Int := x % 2 ^ 64

/-- Reduction of an integer to `int64_t` / `off_t` (two's complement). -/
def toInt64 (x : Int) : Int :=
  if x % 2 ^ 64 < 2 ^ 63 then x % 2 ^ 64 else x % 2 ^ 64 - 2 ^ 64

/-- Reduction of an integer to `uint32_t`. -/
def toUInt32 (x : Int) : Int := x % 2 ^ 32

/-! ## `setup_forests_io_lht_binary`: the partition of forests over tasks
(`read_tree_binary.c`, lines 53-71) -/

/-- Line 55: `nforests_per_cpu = totnforests / NTasks` (C division truncates). -/
def nforests_per_cpu (totnforests NTasks : Int) : Int := Int.tdiv totnforests NTasks

/-- Line 56: `rem_nforests = totnforests % NTasks`. -/
def rem_nforests (totnforests NTasks : Int) : Int := Int.tmod totnforests NTasks

/-- Lines 57-60. -/
def nforests_this_task (totnforests ThisTask NTasks : Int) : Int :=
  if ThisTask < rem_nforests totnforests NTasks then nforests_per_cpu totnforests NTasks + 1
  else nforests_per_cpu totnforests NTasks

/-- Lines 62-69. -/
def start_forestnum (totnforests ThisTask NTasks : Int) : Int :=
  if ThisTask < rem_nforests totnforests NTasks then
    nforests_per_cpu totnforests NTasks * ThisTask + ThisTask
  else
    nforests_per_cpu totnforests NTasks * ThisTask + rem_nforests totnforests NTasks

/-- Line 71 (not inclusive). -/
def end_forestnum (totnforests ThisTask NTasks : Int) : Int :=
  start_forestnum totnforests ThisTask NTasks + nforests_this_task totnforests ThisTask NTasks


/-! ## Input files and the per-task forest table -/

/-- One LHaloTree binary file as the reader sees it: the descriptor `open` hands out when the
file is opened to stay open (line 169), the `int32_t` forest count stored at byte 0 (read at
line 46; any value, also a negative one), and the `int32_t` words stored from byte 8 on, which
hold the table of per-forest halo counts (a word past the end of the list reads as 0). -/
structure LHaloFile where
  fd : Int
  totnforests : Int
  nhalos_per_forest : List Int

/-- A value of the C type `double`: a finite value, carried as an exact rational, an infinity
or a NaN. -/
inductive CDouble where
  | val (q : Rat)
  | pinf
  | ninf
  | nan

/-- The C comparison `x <= 0.0`; it is false when `x` is a NaN. -/
def CDouble.le_zero : CDouble → Prop
  | .val q => q ≤ 0
  | .pinf => False
  | .ninf => True
  | .nan => False

/-- The C comparison `x > 0.0`; it is false when `x` is a NaN. -/
def CDouble.gt_zero : CDouble → Prop
  | .val q => 0 < q
  | .pinf => True
  | .ninf => False
  | .nan => False

instance (x : CDouble) : Decidable x.le_zero := by
  cases x <;> simp only [CDouble.le_zero] <;> infer_instance

instance (x : CDouble) : Decidable x.gt_zero := by
  cases x <;> simp only [CDouble.gt_zero] <;> infer_instance

/-- The fields of `struct lhalotree_info` the binary reader uses. -/
structure lhalotree_info where
  nforests : Int
  nhalos_per_forest : Int → Int
  bytes_offset_for_forest : Int → Int
  fd : Int → Int
  numfiles : Int
  open_fds : Int → Int

/-- The fields of `struct forest_info` used by the reader, the router and the writer.
`frac_volume_processed` is a C `double`; the arithmetic of the binary reader on it (line 218,
in `float`) is carried out on exact rationals. -/
structure forest_info where
  totnforests : Int
  nforests_this_task : Int
  frac_volume_processed : CDouble
  lht : lhalotree_info
  FileNr : Int → Int
  original_treenr : Int → Int

/-! ## `setup_forests_io_lht_binary` -/

/-- Lines 36-50: open every file `filenr, filenr+1, ..` (`n` of them), read the forest count
at byte 0 into `totnforests_per_file[filenr]` and add it to `totnforests`. -/
def count_forests (files : Int → Option LHaloFile) :
    Nat → Int → (Int → Int) → Int → Except Status ((Int → Int) × Int)
  | 0, _, totnforests_per_file, totnforests => .ok (totnforests_per_file, totnforests)
  | n + 1, filenr, totnforests_per_file, totnforests =>
    match files filenr with
    | none => .error .FILE_NOT_FOUND
    | some f =>
      count_forests files n (filenr + 1)
        (Function.update totnforests_per_file filenr f.totnforests)
        (totnforests + f.totnforests)

/-- The variables of the loop of lines 96-131. -/
structure FileScan where
  start_filenum : Int
  end_filenum : Int
  nforests_so_far : Int
  start_forestnum_to_process_per_file : Int → Int
  num_forests_to_process_per_file : Int → Int

/-- Lines 99-130: the body of the loop that locates the first and last file of the task. -/
def scan_file (totnforests_per_file : Int → Int)
    (start_forestnum end_forestnum nforests_this_task : Int)
    (s : FileScan) (filenr : Int) : FileScan :=
  let nforests_this_file := totnforests_per_file filenr
  let end_forestnum_this_file := s.nforests_so_far + nforests_this_file
  let s1 : FileScan :=
    { s with
      start_forestnum_to_process_per_file :=
        Function.update s.start_forestnum_to_process_per_file filenr 0
      num_forests_to_process_per_file :=
        Function.update s.num_forests_to_process_per_file filenr nforests_this_file }
  let s2 : FileScan :=
    if start_forestnum ≥ s.nforests_so_far ∧ start_forestnum < end_forestnum_this_file then
      { s1 with
        start_filenum := filenr
        start_forestnum_to_process_per_file :=
          Function.update s1.start_forestnum_to_process_per_file filenr
            (start_forestnum - s.nforests_so_far)
        num_forests_to_process_per_file :=
          Function.update s1.num_forests_to_process_per_file filenr
            (nforests_this_file - (start_forestnum - s.nforests_so_far)) }
    else s1
  let s3 : FileScan :=
    if end_forestnum ≥ s.nforests_so_far ∧ end_forestnum ≤ end_forestnum_this_file then
      { s2 with
        end_filenum := filenr
        num_forests_to_process_per_file :=
          Function.update s2.num_forests_to_process_per_file filenr
            (if filenr = s2.start_filenum then nforests_this_task
             else end_forestnum - s.nforests_so_far) }
    else s2
  { s3 with nforests_so_far := s.nforests_so_far + nforests_this_file }

/-- Lines 98-131: the loop over `n` files from `filenr` on. -/
def scan_files (totnforests_per_file : Int → Int)
    (start_forestnum end_forestnum nforests_this_task : Int) :
    Nat → Int → FileScan → FileScan
  | 0, _, s => s
  | n + 1, filenr, s =>
    scan_files totnforests_per_file start_forestnum end_forestnum nforests_this_task n
      (filenr + 1)
      (scan_file totnforests_per_file start_forestnum end_forestnum nforests_this_task s filenr)

/-- Lines 191-194 and 209: the value of `byte_offset_to_halos` after the halos of the first
`i` forests of the table were added to the initial value `b` (`size_t` arithmetic). -/
def byte_offset_after (sizeof_halo_data : Int) (nhalos_per_forest : List Int) (b : Int) :
    Nat → Int
  | 0 => b
  | i + 1 =>
    wrap64 (byte_offset_after sizeof_halo_data nhalos_per_forest b i
      + wrap64 (nhalos_per_forest.getD i 0 * sizeof_halo_data))

/-- Lines 204-210: the loop that stores offset and descriptor of `n` more forests, from loop
index `i` on.  The state is `(bytes_offset_for_forest, fd, byte_offset_to_halos, offset_stores,
fd_stores)`; the last two components are no variables of the program: they list, in order,
the indices at which the stores of line 205 and of line 208 were made.  `forestnhalos i` is
`forestnhalos[i]`.  The `XASSERT` of line 206 sits between the two stores; when it fails the
stores are dropped with the rest of the state. -/
def assign_offsets (sizeof_halo_data nforests_so_far lht_nforests fd : Int)
    (forestnhalos : Int → Int) :
    Nat → Int → (Int → Int) × (Int → Int) × Int × List Int × List Int →
      Except Status ((Int → Int) × (Int → Int) × Int × List Int × List Int)
  | 0, _, st => .ok st
  | n + 1, i, (bytes_offset_for_forest, fds, byte_offset_to_halos, offset_stores, fd_stores) =>
    if ¬ (i + nforests_so_far < lht_nforests) then .error .EXIT_FAILURE
    else
      assign_offsets sizeof_halo_data nforests_so_far lht_nforests fd forestnhalos n (i + 1)
        (Function.update bytes_offset_for_forest (i + nforests_so_far)
            (toInt64 byte_offset_to_halos),
         Function.update fds (i + nforests_so_far) fd,
         wrap64 (byte_offset_to_halos + wrap64 (forestnhalos i * sizeof_halo_data)),
         offset_stores ++ [i + nforests_so_far],
         fd_stores ++ [i + nforests_so_far])

/-- The variables of the loop of lines 151-212; `forestnhalos` is the distance
`forestnhalos - lht->nhalos_per_forest` of the write pointer from the start of the array.
The last three fields are no variables of the program: they list, in the order of the
stores, the indices of `nhalos_per_forest` (the `memcpy` of line 188),
`bytes_offset_for_forest` (line 205) and `fd` (line 208) that were stored to so far. -/
structure FileLoop where
  nhalos_per_forest : Int → Int
  bytes_offset_for_forest : Int → Int
  fd : Int → Int
  open_fds : Int → Int
  forestnhalos : Int
  nhalos_stores : List Int
  offset_stores : List Int
  fd_stores : List Int

/-- Lines 152-211: the body of the loop over the files of the task. -/
def process_file (sizeof_halo_data : Int) (files : Int → Option LHaloFile)
    (totnforests_per_file : Int → Int) (scan : FileScan) (lht_nforests : Int)
    (s : FileLoop) (filenr : Int) : Except Status FileLoop :=
  if ¬ (scan.start_forestnum_to_process_per_file filenr ≥ 0
        ∧ scan.start_forestnum_to_process_per_file filenr < totnforests_per_file filenr) then
    .error .EXIT_FAILURE
  else if ¬ (scan.num_forests_to_process_per_file filenr ≥ 0
        ∧ scan.num_forests_to_process_per_file filenr ≤ totnforests_per_file filenr) then
    .error .EXIT_FAILURE
  else
    let file_index := filenr - scan.start_filenum
    match files filenr with
    | none => .error .FILE_NOT_FOUND
    | some f =>
      if f.fd < 0 then .error .FILE_NOT_FOUND
      else
        let open_fds := Function.update s.open_fds file_index f.fd
        let nforests := scan.num_forests_to_process_per_file filenr
        let nbytes := wrap64 (totnforests_per_file filenr * 4)
        let start := scan.start_forestnum_to_process_per_file filenr
        -- line 188, memcpy of `nforests` table entries from position `start` on
        let nhalos_per_forest : Int → Int := fun k =>
          if s.forestnhalos ≤ k ∧ k < s.forestnhalos + nforests then
            f.nhalos_per_forest.getD (start + (k - s.forestnhalos)).toNat 0
          else s.nhalos_per_forest k
        let byte_offset_to_halos :=
          byte_offset_after sizeof_halo_data f.nhalos_per_forest (wrap64 (4 + 4 + nbytes))
            start.toNat
        let nforests_so_far := s.forestnhalos
        if filenr = scan.start_filenum ∧ ¬ (nforests_so_far = 0) then .error .EXIT_FAILURE
        else
          match assign_offsets sizeof_halo_data nforests_so_far lht_nforests f.fd
              (fun i => nhalos_per_forest (s.forestnhalos + i)) nforests.toNat 0
              (s.bytes_offset_for_forest, s.fd, byte_offset_to_halos, s.offset_stores,
                s.fd_stores) with
          | .error e => .error e
          | .ok (bytes_offset_for_forest, fds, _, offset_stores, fd_stores) =>
            .ok { nhalos_per_forest := nhalos_per_forest
                  bytes_offset_for_forest := bytes_offset_for_forest
                  fd := fds
                  open_fds := open_fds
                  forestnhalos := s.forestnhalos + nforests
                  nhalos_stores :=
                    s.nhalos_stores
                      ++ (List.range nforests.toNat).map (fun i : Nat => s.forestnhalos + (i : Int))
                  offset_stores := offset_stores
                  fd_stores := fd_stores }

/-- Lines 151-212: the loop over `n` files from `filenr` on. -/
def process_files (sizeof_halo_data : Int) (files : Int → Option LHaloFile)
    (totnforests_per_file : Int → Int) (scan : FileScan) (lht_nforests : Int) :
    Nat → Int → FileLoop → Except Status FileLoop
  | 0, _, s => .ok s
  | n + 1, filenr, s =>
    match process_file sizeof_halo_data files totnforests_per_file scan lht_nforests s filenr with
    | .error e => .error e
    | .ok s1 =>
      process_files sizeof_halo_data files totnforests_per_file scan lht_nforests n
        (filenr + 1) s1

/-- Lines 215-219: the sum over `n` files from `filenr` on of the share of the file's forests
that the task processes. -/
def sum_frac_volume (num_forests_to_process_per_file totnforests_per_file : Int → Int) :
    Nat → Int → Rat → Rat
  | 0, _, frac => frac
  | n + 1, filenr, frac =>
    sum_frac_volume num_forests_to_process_per_file totnforests_per_file n (filenr + 1)
      (frac + (num_forests_to_process_per_file filenr : Rat) / (totnforests_per_file filenr : Rat))

/-- The function `setup_forests_io_lht_binary` (lines 19-226).  `files filenr` is the file
that `get_forests_filename_lht_binary` names for `filenr` (`none`: it cannot be opened);
`sizeof_halo_data` is `sizeof(struct halo_data)`.  The arrays obtained from `mymalloc` start
with the contents found in `forests_info`.  `run_params` is only used to name the files. -/
def setup_forests_io_lht_binary (sizeof_halo_data : Int) (files : Int → Option LHaloFile)
    (forests_info : forest_info) (firstfile lastfile ThisTask NTasks : Int) :
    Except Status forest_info :=
  let numfiles := lastfile - firstfile + 1
  if numfiles ≤ 0 then .error .MINUS_ONE
  else
    match count_forests files numfiles.toNat firstfile (fun _ => 0) 0 with
    | .error e => .error e
    | .ok (totnforests_per_file, totnforests) =>
      if NTasks = 0 then .error .SIGFPE
      else
        let nforests_this_task := Sage.nforests_this_task totnforests ThisTask NTasks
        let start_forestnum := Sage.start_forestnum totnforests ThisTask NTasks
        let end_forestnum := Sage.end_forestnum totnforests ThisTask NTasks
        let scan :=
          scan_files totnforests_per_file start_forestnum end_forestnum nforests_this_task
            numfiles.toNat firstfile
            { start_filenum := -1
              end_filenum := -1
              nforests_so_far := 0
              start_forestnum_to_process_per_file := fun _ => -1
              num_forests_to_process_per_file := fun _ => 0 }
        if scan.start_filenum = -1 ∨ scan.end_filenum = -1 then .error .MINUS_ONE
        else
          let lht_numfiles := scan.end_filenum - scan.start_filenum + 1
          match process_files sizeof_halo_data files totnforests_per_file scan
              nforests_this_task lht_numfiles.toNat scan.start_filenum
              { nhalos_per_forest := forests_info.lht.nhalos_per_forest
                bytes_offset_for_forest := forests_info.lht.bytes_offset_for_forest
                fd := forests_info.lht.fd
                open_fds := forests_info.lht.open_fds
                forestnhalos := 0
                nhalos_stores := []
                offset_stores := []
                fd_stores := [] } with
          | .error e => .error e
          | .ok fl =>
            .ok { forests_info with
                  totnforests := totnforests
                  nforests_this_task := nforests_this_task
                  frac_volume_processed :=
                    .val (sum_frac_volume scan.num_forests_to_process_per_file
                      totnforests_per_file lht_numfiles.toNat scan.start_filenum 0)
                  lht :=
                    { nforests := nforests_this_task
                      nhalos_per_forest := fl.nhalos_per_forest
                      bytes_offset_for_forest := fl.bytes_offset_for_forest
                      fd := fl.fd
                      numfiles := lht_numfiles
                      open_fds := fl.open_fds } }

/-! ### Global forest numbers -/

/-- The forest count the header of file `filenr` declares (`0` for a file that is missing). -/
def nforests_in_file (files : Int → Option LHaloFile) (filenr : Int) : Int :=
  match files filenr with
  | some f => f.totnforests
  | none => 0

/-- The sum of `count` over the `i` files `firstfile, firstfile + 1, ..`.  With the header
counts for `count` this is the global number of the first forest of the `i`-th file of the
run, the files being laid end to end. -/
def forests_in_files (count : Int → Int) (firstfile : Int) : Nat → Int
  | 0 => 0
  | i + 1 =>
    forests_in_files count firstfile i + count (firstfile + i)

/-! ## `load_forest_lht_binary` -/

/-- One positioned read `mypread(fd, buf, nbytes, offset)`. -/
structure ReadRequest where
  fd : Int
  nbytes : Int
  offset : Int
  deriving DecidableEq, Repr

/-- What one call of `load_forest_lht_binary` does: the returned value (the halo count, or the
status of the `ABORT`), the indices at which the per-forest arrays of `forests_info->lht` were
read, in program order, the positioned reads issued, the records handed back through `*halos`,
and `forests_info` after the call. -/
structure LoadOutcome (β : Type) where
  status : Except Status Int
  indexed : List Int
  reads : List ReadRequest
  halos : Option β
  forests_info : forest_info

/-- The function `load_forest_lht_binary` (lines 228-263).  `mypread fd nbytes offset` is the
content of the open file `fd` at `offset`, `nbytes` long. -/
def load_forest_lht_binary {β : Type} (sizeof_halo_data : Int) (mypread : Int → Int → Int → β)
    (forestnr : Int) (forests_info : forest_info) : LoadOutcome β :=
  -- line 230: the halo count is fetched first
  let nhalos := forests_info.lht.nhalos_per_forest forestnr
  if forestnr ≥ forests_info.lht.nforests then
    { status := .error .INVALID_MEMORY_ACCESS_REQUESTED
      indexed := [forestnr]
      reads := []
      halos := none
      forests_info := forests_info }
  else
    let fd := forests_info.lht.fd forestnr
    if fd ≤ 0 then
      { status := .error .INVALID_FILE_POINTER
        indexed := [forestnr, forestnr]
        reads := []
        halos := none
        forests_info := forests_info }
    else
      let offset := forests_info.lht.bytes_offset_for_forest forestnr
      if offset < 0 then
        { status := .error .FILE_READ_ERROR
          indexed := [forestnr, forestnr, forestnr]
          reads := []
          halos := none
          forests_info := forests_info }
      else
        { status := .ok nhalos
          indexed := [forestnr, forestnr, forestnr]
          reads := [⟨fd, wrap64 (sizeof_halo_data * nhalos), offset⟩]
          halos := some (mypread fd (wrap64 (sizeof_halo_data * nhalos)) offset)
          forests_info := forests_info }

/-- A run of `load_forest_lht_binary` calls, one per listed forest number, each on the
`forests_info` the previous call left. -/
def load_forests {β : Type} (sizeof_halo_data : Int) (mypread : Int → Int → Int → β) :
    List Int → forest_info → forest_info
  | [], forests_info => forests_info
  | forestnr :: rest, forests_info =>
    load_forests sizeof_halo_data mypread rest
      (load_forest_lht_binary sizeof_halo_data mypread forestnr forests_info).forests_info

/-! ## `generate_galaxy_indices` -/

/-- The field of `struct halo_data` the index generator reads. -/
structure halo_data where
  FirstHaloInFOFgroup : Int

/-- The fields of `struct halo_aux_data` used by the writer. -/
structure halo_aux_data where
  FirstGalaxy : Int
  output_snap_n : Int

/-- The fields of `struct GALAXY` used by the writer.  `GalaxyIndex` and `CentralGalaxyIndex`
are unsigned 64-bit. -/
structure GALAXY where
  SnapNum : Int
  GalaxyNr : Int
  HaloNr : Int
  mergeIntoID : Int
  GalaxyIndex : Int
  CentralGalaxyIndex : Int

/-- Line 208: the local `uint32_t GalaxyNr` of galaxy `gal_idx`. -/
def GalaxyNr_of (halogal : Int → GALAXY) (gal_idx : Int) : Int :=
  toUInt32 (halogal gal_idx).GalaxyNr

/-- Line 209: the local `uint32_t CentralGalaxyNr` of galaxy `gal_idx`. -/
def CentralGalaxyNr_of (halos : Int → halo_data) (haloaux : Int → halo_aux_data)
    (halogal : Int → GALAXY) (gal_idx : Int) : Int :=
  toUInt32
    (halogal (haloaux (halos (halogal gal_idx).HaloNr).FirstHaloInFOFgroup).FirstGalaxy).GalaxyNr

/-- Lines 206-251: the body of the loop over the galaxies.  The signed products are reduced to
`int64_t`; a division by a zero multiplier ends the call with `SIGFPE`.  The `||` of line 222
does not evaluate its right operand when the left one holds. -/
def generate_galaxy_index (halos : Int → halo_data) (haloaux : Int → halo_aux_data)
    (forestnr filenr filenr_mulfac forestnr_mulfac : Int)
    (halogal : Int → GALAXY) (gal_idx : Int) : Except Status (Int → GALAXY) :=
  let this_gal := halogal gal_idx
  let GalaxyNr := GalaxyNr_of halogal gal_idx
  let CentralGalaxyNr := CentralGalaxyNr_of halos haloaux halogal gal_idx
  if GalaxyNr > forestnr_mulfac
      ∨ (filenr_mulfac > 0 ∧ toInt64 (forestnr * forestnr_mulfac) > filenr_mulfac) then
    .error .EXIT_FAILURE
  else if forestnr > 0 ∧ wrap64 forestnr_mulfac = 0 then .error .SIGFPE
  else if forestnr > 0 ∧ wrap64 forestnr > (2 ^ 64 - 1) / wrap64 forestnr_mulfac then
    .error .EXIT_FAILURE
  else if filenr > 0 ∧ wrap64 filenr_mulfac = 0 then .error .SIGFPE
  else if filenr > 0 ∧ wrap64 filenr > (2 ^ 64 - 1) / wrap64 filenr_mulfac then
    .error .EXIT_FAILURE
  else
    let id_from_forestnr := wrap64 (toInt64 (forestnr_mulfac * forestnr))
    let id_from_filenr := wrap64 (toInt64 (filenr_mulfac * filenr))
    if id_from_forestnr > 2 ^ 64 - 1 - id_from_filenr then .error .EXIT_FAILURE
    else
      let id_from_forest_and_file := wrap64 (id_from_forestnr + id_from_filenr)
      if GalaxyNr > 2 ^ 64 - 1 - id_from_forest_and_file
          ∨ CentralGalaxyNr > 2 ^ 64 - 1 - id_from_forest_and_file then
        .error .EXIT_FAILURE
      else
        .ok (Function.update halogal gal_idx
          { this_gal with
            GalaxyIndex := wrap64 (GalaxyNr + id_from_forest_and_file)
            CentralGalaxyIndex := wrap64 (CentralGalaxyNr + id_from_forest_and_file) })

/-- Lines 205-252: the loop over `n` galaxies from `gal_idx` on. -/
def generate_galaxy_indices_loop (halos : Int → halo_data) (haloaux : Int → halo_aux_data)
    (forestnr filenr filenr_mulfac forestnr_mulfac : Int) :
    Nat → Int → (Int → GALAXY) → Except Status (Int → GALAXY)
  | 0, _, halogal => .ok halogal
  | n + 1, gal_idx, halogal =>
    match generate_galaxy_index halos haloaux forestnr filenr filenr_mulfac forestnr_mulfac
        halogal gal_idx with
    | .error e => .error e
    | .ok halogal1 =>
      generate_galaxy_indices_loop halos haloaux forestnr filenr filenr_mulfac forestnr_mulfac
        n (gal_idx + 1) halogal1

/-- The function `generate_galaxy_indices` (lines 198-256): `.ok` carries the galaxy array
after a return of `EXIT_SUCCESS`. -/
def generate_galaxy_indices (halos : Int → halo_data) (haloaux : Int → halo_aux_data)
    (halogal : Int → GALAXY) (numgals forestnr filenr filenr_mulfac forestnr_mulfac : Int) :
    Except Status (Int → GALAXY) :=
  generate_galaxy_indices_loop halos haloaux forestnr filenr filenr_mulfac forestnr_mulfac
    numgals.toNat 0 halogal

/-! ## Concrete inputs used in the evaluations below -/

/-- The state carried by a successful result, `d` otherwise. -/
def forest_info_of (r : Except Status forest_info) (d : forest_info) : forest_info :=
  match r with
  | .ok st => st
  | .error _ => d

/-- The galaxy array carried by a successful result, `d` otherwise. -/
def galaxies_of (r : Except Status (Int → GALAXY)) (d : Int → GALAXY) : Int → GALAXY :=
  match r with
  | .ok halogal => halogal
  | .error _ => d

/-- Two input files: file 0 declares 5 forests, file 1 declares 3 forests. -/
def two_files : Int → Option LHaloFile
  | 0 => some ⟨3, 5, [2, 1, 4, 1, 3]⟩
  | 1 => some ⟨4, 3, [5, 6, 7]⟩
  | _ => none

/-- A `forest_info` whose arrays hold zeros. -/
def blank_info : forest_info :=
  { totnforests := 0
    nforests_this_task := 0
    frac_volume_processed := .val 0
    lht :=
      { nforests := 0
        nhalos_per_forest := fun _ => 0
        bytes_offset_for_forest := fun _ => 0
        fd := fun _ => 0
        numfiles := 0
        open_fds := fun _ => 0 }
    FileNr := fun _ => 0
    original_treenr := fun _ => 0 }

/-- A forest of one halo that is its own FOF group. -/
def one_halo : Int → halo_data := fun _ => ⟨0⟩

/-- The first galaxy of every halo is galaxy 0. -/
def one_haloaux : Int → halo_aux_data := fun _ => ⟨0, -1⟩

/-- A galaxy array whose entries all carry the local number `nr` and sit in halo 0. -/
def galaxies_nr (nr : Int) : Int → GALAXY := fun _ => ⟨0, nr, 0, -1, 0, 0⟩

/-- A galaxy array in which galaxy 1 carries the local number 1 and every other galaxy the
local number 0. -/
def galaxies_zero_one : Int → GALAXY := fun k =>
  if k = 1 then ⟨0, 1, 0, -1, 0, 0⟩ else ⟨0, 0, 0, -1, 0, 0⟩

/-! ### Closed forms of what the file scan stores -/

/-- The test of line 108 on the `i`-th file of the run: the first forest of the task lies in
that file. -/
def start_test (tot : Int → Int) (f0 S : Int) (i : Nat) : Prop :=
  forests_in_files tot f0 i ≤ S ∧ S < forests_in_files tot f0 (i + 1)

/-- The test of line 118 on the `i`-th file of the run. -/
def end_test (tot : Int → Int) (f0 E : Int) (i : Nat) : Prop :=
  forests_in_files tot f0 i ≤ E ∧ E ≤ forests_in_files tot f0 (i + 1)

instance (tot : Int → Int) (f0 S : Int) (i : Nat) : Decidable (start_test tot f0 S i) := by
  unfold start_test
  infer_instance

instance (tot : Int → Int) (f0 E : Int) (i : Nat) : Decidable (end_test tot f0 E i) := by
  unfold end_test
  infer_instance

/-- The value the scan leaves in `start_forestnum_to_process_per_file` for the `i`-th file. -/
def start_in_file (tot : Int → Int) (f0 S : Int) (i : Nat) : Int :=
  if start_test tot f0 S i then S - forests_in_files tot f0 i else 0

/-- The value the scan leaves in `num_forests_to_process_per_file` for the `i`-th file. -/
def num_in_file (tot : Int → Int) (f0 S E N : Int) (i : Nat) : Int :=
  if end_test tot f0 E i then
    (if start_test tot f0 S i then N else E - forests_in_files tot f0 i)
  else if start_test tot f0 S i then
    tot (f0 + i) - (S - forests_in_files tot f0 i)
  else tot (f0 + i)

/-- The scan variables before the first file (lines 81-97). -/
def scan_init : FileScan :=
  { start_filenum := -1
    end_filenum := -1
    nforests_so_far := 0
    start_forestnum_to_process_per_file := fun _ => -1
    num_forests_to_process_per_file := fun _ => 0 }

/-- The total forest count of the files `firstfile .. lastfile`, as their headers declare it. -/
def total_forests (files : Int → Option LHaloFile) (firstfile lastfile : Int) : Int :=
  forests_in_files (nforests_in_file files) firstfile (lastfile - firstfile + 1).toNat

/-- The value the per-file pass stores in `bytes_offset_for_forest` for the forest at position
`j` of a file with the header count `totnforests` and the halo-count table `table` (lines
177, 191-194, 205 and 209): the `size_t` running sum, stored into an `off_t`. -/
def stored_offset (sizeof_halo_data totnforests : Int) (table : List Int) (j : Nat) : Int :=
  toInt64 (byte_offset_after sizeof_halo_data table
    (wrap64 (4 + 4 + wrap64 (totnforests * 4))) j)

/-- The scan variables after the loop of lines 96-131, for the header table `tot` with total
`T`, on task `t` of `NT`. -/
def scan_result (tot : Int → Int) (T t NT : Int) (n : Nat) (f0 : Int) : FileScan :=
  scan_files tot (start_forestnum T t NT) (end_forestnum T t NT) (nforests_this_task T t NT)
    n f0 scan_init

/-- The header table of a file: the halo counts of the forests its header declares, which are
the first `totnforests` words stored from byte 8 on. -/
def header_table (f : LHaloFile) : List Int :=
  (List.range f.totnforests.toNat).map (fun j : Nat => f.nhalos_per_forest.getD j 0)

/-- The halo counts of all forests of the first `n` files of the run, in global forest order:
the header tables of the files `firstfile, firstfile + 1, ..` laid end to end. -/
def all_nhalos (files : Int → Option LHaloFile) (firstfile : Int) : Nat → List Int
  | 0 => []
  | n + 1 =>
    all_nhalos files firstfile n ++
      (match files (firstfile + n) with
        | some f => header_table f
        | none => [])

/-! ### The tests of the index generator -/

/-- The value of `id_from_forest_and_file` (lines 232, 233 and 241). -/
def id_from_forest_and_file (forestnr filenr filenr_mulfac forestnr_mulfac : Int) : Int :=
  wrap64 (wrap64 (toInt64 (forestnr_mulfac * forestnr))
    + wrap64 (toInt64 (filenr_mulfac * filenr)))

/-- All tests of lines 212-247 let a galaxy with the local numbers `GalaxyNr` and
`CentralGalaxyNr` through, and no division by zero occurs. -/
def index_checks_pass (GalaxyNr CentralGalaxyNr forestnr filenr filenr_mulfac forestnr_mulfac :
    Int) : Prop :=
  GalaxyNr ≤ forestnr_mulfac ∧
  (filenr_mulfac > 0 → toInt64 (forestnr * forestnr_mulfac) ≤ filenr_mulfac) ∧
  (forestnr > 0 →
    wrap64 forestnr_mulfac ≠ 0 ∧ wrap64 forestnr ≤ (2 ^ 64 - 1) / wrap64 forestnr_mulfac) ∧
  (filenr > 0 →
    wrap64 filenr_mulfac ≠ 0 ∧ wrap64 filenr ≤ (2 ^ 64 - 1) / wrap64 filenr_mulfac) ∧
  wrap64 (toInt64 (forestnr_mulfac * forestnr))
    ≤ 2 ^ 64 - 1 - wrap64 (toInt64 (filenr_mulfac * filenr)) ∧
  GalaxyNr ≤ 2 ^ 64 - 1 - id_from_forest_and_file forestnr filenr filenr_mulfac forestnr_mulfac ∧
  CentralGalaxyNr
    ≤ 2 ^ 64 - 1 - id_from_forest_and_file forestnr filenr filenr_mulfac forestnr_mulfac

/-- A `forest_info` of two forests whose arrays hold the same entry at every index, also
outside the two allocated ones: one halo per forest, descriptor 3, offset 16. -/
def uniform_info : forest_info :=
  { totnforests := 2
    nforests_this_task := 2
    frac_volume_processed := .val 1
    lht :=
      { nforests := 2
        nhalos_per_forest := fun _ => 1
        bytes_offset_for_forest := fun _ => 16
        fd := fun _ => 3
        numfiles := 1
        open_fds := fun _ => 3 }
    FileNr := fun _ => 0
    original_treenr := fun _ => 0 }

/-! ## `setup_forests_io` (`core_io_tree.c`) -/

/-- The tree types named in `core_io_tree.c`; `other_tree_type` is any other value of
`run_params->TreeType`. -/
inductive Valid_TreeTypes where
  | lhalo_binary
  | illustris_lhalo_hdf5
  | genesis_standard_hdf5
  | consistent_trees_ascii
  | other_tree_type
  deriving DecidableEq, Repr

/-- The output formats named in `core_save.c`; `other_format` is any other value of
`run_params->OutputFormat`. -/
inductive Valid_OutputFormats where
  | sage_binary
  | sage_hdf5
  | other_format
  deriving DecidableEq, Repr

/-- The fields of `struct params` used by the router and the writer. -/
structure params where
  FirstFile : Int
  LastFile : Int
  TreeType : Valid_TreeTypes
  FileNr_Mulfac : Int
  ForestNr_Mulfac : Int
  MAXSNAPS : Int
  NOUT : Int
  ListOutputSnaps : Int → Int
  OutputFormat : Valid_OutputFormats

/-- The setup functions of the two readers whose sources are not embedded, taken as they are
called in `setup_forests_io`: each returns its status and leaves `forests_info` and
`run_params` in some state. -/
structure TreeReaders where
  setup_forests_io_lht_hdf5 :
    forest_info → Int → Int → Int → Int → params → Except Status (forest_info × params)
  setup_forests_io_ctrees :
    forest_info → Int → Int → params → Except Status (forest_info × params)

/-- Lines 38-64 of `setup_forests_io`: the `switch` on the tree type.  `none` is the
`default` branch, in which no reader is called; `some r` is what the reader that was called
did.  `HDF5` tells whether the `#ifdef HDF5` branches are compiled.  The binary reader takes
`run_params` as a pointer to `const` and its body never assigns through it. -/
def dispatch_setup (HDF5 : Bool) (readers : TreeReaders) (sizeof_halo_data : Int)
    (files : Int → Option LHaloFile) (run_params : params) (forests_info : forest_info)
    (firstfile lastfile ThisTask NTasks : Int) :
    Option (Except Status (forest_info × params)) :=
  match run_params.TreeType with
  | .illustris_lhalo_hdf5 =>
    if HDF5 then
      some (readers.setup_forests_io_lht_hdf5 forests_info firstfile lastfile ThisTask NTasks
        run_params)
    else none
  | .lhalo_binary =>
    some
      (match setup_forests_io_lht_binary sizeof_halo_data files forests_info firstfile lastfile
          ThisTask NTasks with
        | .error e => .error e
        | .ok fi => .ok (fi, run_params))
  | .consistent_trees_ascii =>
    some (readers.setup_forests_io_ctrees forests_info ThisTask NTasks run_params)
  | _ => none

/-- Lines 34-35 of `setup_forests_io`: both multipliers are set to `-1` before the reader is
called. -/
def reset_multipliers (run_params : params) : params :=
  { run_params with FileNr_Mulfac := -1, ForestNr_Mulfac := -1 }

/-- Line 36 of `setup_forests_io`: the fraction is set to `-1.0` before the reader is called. -/
def reset_fraction (forests_info : forest_info) : forest_info :=
  { forests_info with frac_volume_processed := .val (-1) }

/-- The function `setup_forests_io` (lines 23-88); `.ok` is the return of `EXIT_SUCCESS`, with
`run_params` and `forests_info` as the call leaves them. -/
def setup_forests_io (HDF5 : Bool) (readers : TreeReaders) (sizeof_halo_data : Int)
    (files : Int → Option LHaloFile) (run_params : params) (forests_info : forest_info)
    (ThisTask NTasks : Int) : Except Status (params × forest_info) :=
  let firstfile := run_params.FirstFile
  let lastfile := run_params.LastFile
  match dispatch_setup HDF5 readers sizeof_halo_data files (reset_multipliers run_params)
      (reset_fraction forests_info) firstfile lastfile ThisTask NTasks with
  | none => .error .INVALID_OPTION_IN_PARAMS
  | some (.error status) => .error status
  | some (.ok (forests_info2, run_params2)) =>
    if run_params2.FileNr_Mulfac < 0 ∨ run_params2.ForestNr_Mulfac < 0 then
      .error .EXIT_FAILURE
    else if forests_info2.frac_volume_processed.le_zero then .error .EXIT_FAILURE
    else .ok (run_params2, forests_info2)

/-! ## `save_galaxies` (`core_save.c`) -/

/-- The arrays the ordering pass of `save_galaxies` works on. -/
structure OutputOrder where
  OutputGalCount : Int → Int
  OutputGalOrder : Int → Int
  haloaux : Int → halo_aux_data

/-- Lines 79-81: `OutputGalCount` after `n` rounds of the loop that zeroes it. -/
def zero_output_count (OutputGalCount : Int → Int) : Nat → Int → Int
  | 0 => OutputGalCount
  | n + 1 => Function.update (zero_output_count OutputGalCount n) (n : Int) 0

/-- Lines 90-93: the arrays after `n` rounds of the loop that marks every galaxy as not
written. -/
def reset_output_order (s : OutputOrder) : Nat → OutputOrder
  | 0 => s
  | n + 1 =>
    { OutputGalCount := (reset_output_order s n).OutputGalCount
      OutputGalOrder := Function.update (reset_output_order s n).OutputGalOrder (n : Int) (-1)
      haloaux :=
        Function.update (reset_output_order s n).haloaux (n : Int)
          { (reset_output_order s n).haloaux (n : Int) with output_snap_n := -1 } }

/-- Lines 98-102: the body of the inner loop, for output slot `snap_idx` and galaxy
`gal_idx`. -/
def order_galaxy (halogal : Int → GALAXY) (ListOutputSnaps : Int → Int) (snap_idx : Int)
    (s : OutputOrder) (gal_idx : Int) : OutputOrder :=
  if (halogal gal_idx).SnapNum = ListOutputSnaps snap_idx then
    { OutputGalOrder := Function.update s.OutputGalOrder gal_idx (s.OutputGalCount snap_idx)
      OutputGalCount :=
        Function.update s.OutputGalCount snap_idx (s.OutputGalCount snap_idx + 1)
      haloaux :=
        Function.update s.haloaux gal_idx { s.haloaux gal_idx with output_snap_n := snap_idx } }
  else s

/-- Lines 97-103: the arrays after `n` rounds of the inner loop for slot `snap_idx`. -/
def order_snapshot (halogal : Int → GALAXY) (ListOutputSnaps : Int → Int) (snap_idx : Int)
    (s : OutputOrder) : Nat → OutputOrder
  | 0 => s
  | n + 1 =>
    order_galaxy halogal ListOutputSnaps snap_idx
      (order_snapshot halogal ListOutputSnaps snap_idx s n) (n : Int)

/-- Lines 96-104: the arrays after `k` rounds of the outer loop over the output slots. -/
def order_snapshots (halogal : Int → GALAXY) (ListOutputSnaps : Int → Int) (numgals : Nat)
    (s : OutputOrder) : Nat → OutputOrder
  | 0 => s
  | k + 1 =>
    order_snapshot halogal ListOutputSnaps (k : Int)
      (order_snapshots halogal ListOutputSnaps numgals s k) numgals

/-- Lines 77-104: the ordering pass.  `stack` is what the automatic array `OutputGalCount`
holds before it is zeroed; `OutputGalOrder` comes from `calloc`. -/
def output_order (run_params : params) (stack : Int → Int) (numgals : Int)
    (halogal : Int → GALAXY) (haloaux : Int → halo_aux_data) : OutputOrder :=
  order_snapshots halogal run_params.ListOutputSnaps numgals.toNat
    (reset_output_order
      { OutputGalCount := zero_output_count stack run_params.MAXSNAPS.toNat
        OutputGalOrder := fun _ => 0
        haloaux := haloaux }
      numgals.toNat)
    run_params.NOUT.toNat

/-- Lines 106-110: the galaxy array after `n` rounds of the loop that rewrites the merge
targets. -/
def remap_merge_targets (OutputGalOrder : Int → Int) (halogal : Int → GALAXY) :
    Nat → Int → GALAXY
  | 0 => halogal
  | n + 1 =>
    if (remap_merge_targets OutputGalOrder halogal n (n : Int)).mergeIntoID > -1 then
      Function.update (remap_merge_targets OutputGalOrder halogal n) (n : Int)
        { remap_merge_targets OutputGalOrder halogal n (n : Int) with
          mergeIntoID :=
            OutputGalOrder (remap_merge_targets OutputGalOrder halogal n (n : Int)).mergeIntoID }
    else remap_merge_targets OutputGalOrder halogal n

/-- One call of the write operation of an output backend, with the arguments `save_galaxies`
passes at lines 137-138 (`save_binary_galaxies`) and at line 143 (`save_hdf5_galaxies`, which
gets no count array); `save_info` and `run_params` are left out. -/
inductive WriteCall where
  | save_binary_galaxies (task_forestnr numgals : Int) (OutputGalCount : Int → Int)
      (forests : forest_info) (halos : Int → halo_data) (haloaux : Int → halo_aux_data)
      (halogal : Int → GALAXY)
  | save_hdf5_galaxies (task_forestnr numgals : Int) (forests : forest_info)
      (halos : Int → halo_data) (haloaux : Int → halo_aux_data) (halogal : Int → GALAXY)

/-- The galaxy array a call of the write operation is handed. -/
def WriteCall.halogal : WriteCall → Int → GALAXY
  | .save_binary_galaxies _ _ _ _ _ _ halogal => halogal
  | .save_hdf5_galaxies _ _ _ _ _ halogal => halogal

/-- The auxiliary array a call of the write operation is handed. -/
def WriteCall.haloaux : WriteCall → Int → halo_aux_data
  | .save_binary_galaxies _ _ _ _ _ haloaux _ => haloaux
  | .save_hdf5_galaxies _ _ _ _ haloaux _ => haloaux

/-- What one call of `save_galaxies` does: the returned status (`.ok ()` is `EXIT_SUCCESS`) and
the calls of the write operation it made, in order. -/
structure SaveOutcome where
  status : Except Status Unit
  written : List WriteCall

/-- The function `save_galaxies` (lines 70-156).  `write` is the write operation of the output
backends, whose sources are not embedded: it returns the status of the call. -/
def save_galaxies (HDF5 : Bool) (write : WriteCall → Except Status Unit) (stack : Int → Int)
    (task_forestnr numgals : Int) (halos : Int → halo_data) (forest_info : forest_info)
    (haloaux : Int → halo_aux_data) (halogal : Int → GALAXY) (run_params : params) :
    SaveOutcome :=
  let order := output_order run_params stack numgals halogal haloaux
  let halogal1 := remap_merge_targets order.OutputGalOrder halogal numgals.toNat
  let original_treenr := forest_info.original_treenr task_forestnr
  let original_filenr := forest_info.FileNr task_forestnr
  match generate_galaxy_indices halos order.haloaux halogal1 numgals original_treenr
      original_filenr run_params.FileNr_Mulfac run_params.ForestNr_Mulfac with
  | .error e =>
    { status := .error (if e = .SIGFPE then .SIGFPE else .EXIT_FAILURE)
      written := [] }
  | .ok halogal2 =>
    match run_params.OutputFormat with
    | .sage_binary =>
      { status := write (.save_binary_galaxies task_forestnr numgals order.OutputGalCount
          forest_info halos order.haloaux halogal2)
        written := [.save_binary_galaxies task_forestnr numgals order.OutputGalCount
          forest_info halos order.haloaux halogal2] }
    | .sage_hdf5 =>
      if HDF5 then
        { status := write (.save_hdf5_galaxies task_forestnr numgals forest_info halos
            order.haloaux halogal2)
          written := [.save_hdf5_galaxies task_forestnr numgals forest_info halos
            order.haloaux halogal2] }
      else { status := .error .INVALID_OPTION_IN_PARAMS, written := [] }
    | _ => { status := .error .INVALID_OPTION_IN_PARAMS, written := [] }

/-! ### Concrete inputs for the router and the writer -/

/-- Run parameters for two binary input files 0 and 1, output snapshots 10 and 20, binary
output; both multipliers hold 5 before setup. -/
def binary_params : params :=
  { FirstFile := 0
    LastFile := 1
    TreeType := .lhalo_binary
    FileNr_Mulfac := 5
    ForestNr_Mulfac := 5
    MAXSNAPS := 4
    NOUT := 2
    ListOutputSnaps := fun i => if i = 0 then 10 else if i = 1 then 20 else 0
    OutputFormat := .sage_binary }

/-- Readers that fail when called. -/
def failing_readers : TreeReaders :=
  { setup_forests_io_lht_hdf5 := fun _ _ _ _ _ _ => .error .EXIT_FAILURE
    setup_forests_io_ctrees := fun _ _ _ _ => .error .EXIT_FAILURE }

/-- Readers that report success with both multipliers set to 1000 and the fraction set
to 1. -/
def succeeding_readers : TreeReaders :=
  { setup_forests_io_lht_hdf5 := fun fi _ _ _ _ rp =>
      .ok ({ fi with frac_volume_processed := .val 1 },
        { rp with FileNr_Mulfac := 1000, ForestNr_Mulfac := 1000 })
    setup_forests_io_ctrees := fun fi _ _ rp =>
      .ok ({ fi with frac_volume_processed := .val 1 },
        { rp with FileNr_Mulfac := 1000, ForestNr_Mulfac := 1000 }) }

/-- A `forest_info` whose bookkeeping arrays `FileNr` and `original_treenr` hold 9 at every
index. -/
def stale_info : forest_info :=
  { blank_info with FileNr := fun _ => 9, original_treenr := fun _ => 9 }

/-- Every halo has galaxy 1 as its first galaxy. -/
def haloaux_first_one : Int → halo_aux_data := fun _ => ⟨1, -1⟩

/-- Five galaxies at the snapshots 10, 20, 10, 30, 10 with the merge targets 2, none, 3, 1,
none. -/
def five_galaxies : Int → GALAXY := fun k =>
  if k = 0 then ⟨10, 0, 0, 2, 0, 0⟩
  else if k = 1 then ⟨20, 1, 0, -1, 0, 0⟩
  else if k = 2 then ⟨10, 2, 0, 3, 0, 0⟩
  else if k = 3 then ⟨30, 3, 0, 1, 0, 0⟩
  else ⟨10, 4, 0, -1, 0, 0⟩

/-- The parameters `binary_params` with the tree type `consistent_trees_ascii`. -/
def ctrees_params : params := { binary_params with TreeType := .consistent_trees_ascii }

/-- The parameters `binary_params` with a tree type outside the recognised set. -/
def other_params : params := { binary_params with TreeType := .other_tree_type }

/-- The number of galaxies among the first `n` of the array whose `SnapNum` is `snap`. -/
def galaxies_at (halogal : Int → GALAXY) (snap : Int) (n : Nat) : Nat :=
  ((Finset.range n).filter (fun m : Nat => (halogal (m : Int)).SnapNum = snap)).card

/-- Two input files that declare no forest. -/
def empty_files : Int → Option LHaloFile
  | 0 => some ⟨3, 0, []⟩
  | 1 => some ⟨4, 0, []⟩
  | _ => none

/-- The number of forests of the `i`-th file of the run whose global number lies in
`[S, E)`; the forests of that file have the global numbers from `forests_in_files tot f0 i`
up to `forests_in_files tot f0 (i + 1) - 1`. -/
def owned_in_file (tot : Int → Int) (f0 S E : Int) (i : Nat) : Nat :=
  (Finset.Ico (forests_in_files tot f0 i) (forests_in_files tot f0 (i + 1))
    ∩ Finset.Ico S E).card

/-! ### Further concrete inputs -/

/-- Two input files that declare 4 forests each. -/
def even_files : Int → Option LHaloFile
  | 0 => some ⟨3, 4, [2, 1, 4, 1]⟩
  | 1 => some ⟨4, 4, [5, 6, 7, 8]⟩
  | _ => none

/-- Two input files whose header counts are 3 and -3: the counts sum to zero. -/
def cancelling_files : Int → Option LHaloFile
  | 0 => some ⟨3, 3, [2, 1, 4]⟩
  | 1 => some ⟨4, -3, []⟩
  | _ => none

/-- One input file of 2 forests that `open` hands the descriptor 0 for. -/
def zero_fd_file : Int → Option LHaloFile
  | 0 => some ⟨0, 2, [5, 6]⟩
  | _ => none

/-- Readers that report success with both multipliers set to 1000 and the fraction left as a
NaN. -/
def nan_readers : TreeReaders :=
  { setup_forests_io_lht_hdf5 := fun fi _ _ _ _ rp =>
      .ok ({ fi with frac_volume_processed := .nan },
        { rp with FileNr_Mulfac := 1000, ForestNr_Mulfac := 1000 })
    setup_forests_io_ctrees := fun fi _ _ rp =>
      .ok ({ fi with frac_volume_processed := .nan },
        { rp with FileNr_Mulfac := 1000, ForestNr_Mulfac := 1000 }) }

/-! ## The partition tiles `[0, T)` -/

theorem tdiv_tmod_nonneg (T N : Int) (hN : 1 ≤ N) (hT : 0 ≤ T) :
    nforests_per_cpu T N = T / N ∧ rem_nforests T N = T % N := by
  unfold nforests_per_cpu rem_nforests
  exact ⟨Int.tdiv_eq_ediv hT (by omega), Int.tmod_eq_emod hT (by omega)⟩

theorem start_forestnum_succ (T N t : Int) :
    start_forestnum T (t + 1) N
      = start_forestnum T t N + nforests_this_task T t N := by
  unfold start_forestnum nforests_this_task
  have hmul : nforests_per_cpu T N * (t + 1)
      = nforests_per_cpu T N * t + nforests_per_cpu T N := by ring
  rw [hmul]
  split_ifs <;> omega

/-- C1. For `NTasks ≥ 1` and `T ≥ 0` the ranges `[start_forestnum, end_forestnum)` of the tasks
`0 .. NTasks-1` tile `[0, T)` in task order: the first starts at `0`, each ends where the next
starts, the last ends at `T`; the size of task `t` is `T / NTasks`, plus one exactly for the
tasks `t < T mod NTasks` (and `0 ≤ T mod NTasks < NTasks`), so two sizes differ by at most one;
the closed-form start of task `t` is the sum of the sizes of the tasks below it; and no range
ends before it starts. -/
theorem partition_tiles (T N : Int) (hN : 1 ≤ N) (hT : 0 ≤ T) :
    start_forestnum T 0 N = 0 ∧
    (∀ t : Int, 0 ≤ t → t + 1 < N →
      end_forestnum T t N = start_forestnum T (t + 1) N) ∧
    end_forestnum T (N - 1) N = T ∧
    (0 ≤ T % N ∧ T % N < N) ∧
    (∀ t : Int, 0 ≤ t → t < N →
      nforests_this_task T t N = T / N + (if t < T % N then 1 else 0)) ∧
    (∀ t u : Int, 0 ≤ t → t < N → 0 ≤ u → u < N →
      nforests_this_task T t N ≤ nforests_this_task T u N + 1) ∧
    (∀ t : Nat, (t : Int) < N →
      start_forestnum T t N = ∑ u in Finset.range t, nforests_this_task T (u : Int) N) ∧
    (∀ t : Int, 0 ≤ t → t < N → start_forestnum T t N ≤ end_forestnum T t N) := by
  obtain ⟨hq, hr⟩ := tdiv_tmod_nonneg T N hN hT
  have hr0 : 0 ≤ T % N := Int.emod_nonneg T (by omega)
  have hrN : T % N < N := Int.emod_lt_of_pos T (by omega)
  have hdm : N * (T / N) + T % N = T := Int.ediv_add_emod T N
  have hq0 : 0 ≤ T / N := Int.ediv_nonneg hT (by omega)
  refine ⟨?_, ?_, ?_, ⟨hr0, hrN⟩, ?_, ?_, ?_, ?_⟩
  · unfold start_forestnum
    rw [hq, hr]
    split_ifs <;> omega
  · intro t _ _
    unfold end_forestnum
    exact (start_forestnum_succ T N t).symm
  · unfold end_forestnum start_forestnum nforests_this_task
    rw [hq, hr]
    have hmul : T / N * (N - 1) = N * (T / N) - T / N := by ring
    rw [hmul]
    split_ifs <;> omega
  · intro t _ _
    unfold nforests_this_task
    rw [hq, hr]
    split_ifs <;> omega
  · intro t u _ _ _ _
    unfold nforests_this_task
    split_ifs <;> omega
  · intro t
    induction t with
    | zero =>
      intro _
      unfold start_forestnum
      rw [hq, hr]
      simp only [Nat.cast_zero, Finset.range_zero, Finset.sum_empty]
      split_ifs <;> omega
    | succ n ih =>
      intro hlt
      rw [Finset.sum_range_succ, ← ih (by omega)]
      have hcast : ((n + 1 : Nat) : Int) = (n : Int) + 1 := by push_cast; rfl
      rw [hcast]
      exact start_forestnum_succ T N n
  · intro t _ _
    unfold end_forestnum nforests_this_task
    rw [hq, hr]
    split_ifs <;> omega

/-! ## The header pass of `setup_forests_io_lht_binary` -/

theorem forests_in_files_front (tot : Int → Int) (f0 : Int) (n : Nat) :
    forests_in_files tot f0 (n + 1) = tot f0 + forests_in_files tot (f0 + 1) n := by
  induction n with
  | zero => simp [forests_in_files]
  | succ k ih =>
    have e : forests_in_files tot f0 (k + 1 + 1)
        = forests_in_files tot f0 (k + 1) + tot (f0 + ((k + 1 : Nat) : Int)) := rfl
    have e' : forests_in_files tot (f0 + 1) (k + 1)
        = forests_in_files tot (f0 + 1) k + tot (f0 + 1 + (k : Int)) := rfl
    rw [e, ih, e']
    have hidx : f0 + ((k + 1 : Nat) : Int) = f0 + 1 + (k : Int) := by push_cast; ring
    rw [hidx]
    ring

theorem forests_in_files_congr (tot tot' : Int → Int) (f0 : Int) (n : Nat)
    (h : ∀ g, f0 ≤ g → g < f0 + n → tot g = tot' g) :
    forests_in_files tot f0 n = forests_in_files tot' f0 n := by
  induction n with
  | zero => rfl
  | succ k ih =>
    have hk : forests_in_files tot f0 k = forests_in_files tot' f0 k :=
      ih (fun g h1 h2 => h g h1 (by push_cast; omega))
    have hl : tot (f0 + (k : Int)) = tot' (f0 + (k : Int)) :=
      h _ (by omega) (by push_cast; omega)
    show forests_in_files tot f0 k + tot (f0 + (k : Int))
        = forests_in_files tot' f0 k + tot' (f0 + (k : Int))
    rw [hk, hl]

theorem forests_in_files_mono (tot : Int → Int) (f0 : Int) (hnn : ∀ g, 0 ≤ tot g)
    (a b : Nat) (hab : a ≤ b) :
    forests_in_files tot f0 a ≤ forests_in_files tot f0 b := by
  induction b with
  | zero =>
    have : a = 0 := by omega
    subst this
    exact le_refl _
  | succ k ih =>
    rcases Nat.lt_or_ge a (k + 1) with h | h
    · have h1 := ih (by omega)
      have h2 : forests_in_files tot f0 (k + 1)
          = forests_in_files tot f0 k + tot (f0 + (k : Int)) := rfl
      have h3 := hnn (f0 + (k : Int))
      omega
    · have : a = k + 1 := by omega
      subst this
      exact le_refl _

theorem forests_in_files_mono_on (tot : Int → Int) (f0 : Int) (n : Nat)
    (hnn : ∀ m : Nat, m < n → 0 ≤ tot (f0 + m)) (a b : Nat) (hab : a ≤ b) (hb : b ≤ n) :
    forests_in_files tot f0 a ≤ forests_in_files tot f0 b := by
  induction b with
  | zero =>
    have : a = 0 := by omega
    subst this
    exact le_refl _
  | succ k ih =>
    rcases Nat.lt_or_ge a (k + 1) with h | h
    · have h1 := ih (by omega) (by omega)
      have h2 : forests_in_files tot f0 (k + 1)
          = forests_in_files tot f0 k + tot (f0 + (k : Int)) := rfl
      have h3 := hnn k (by omega)
      omega
    · have : a = k + 1 := by omega
      subst this
      exact le_refl _

theorem count_forests_spec (files : Int → Option LHaloFile) :
    ∀ (n : Nat) (f0 : Int) (tab : Int → Int) (tot : Int) (tab' : Int → Int) (tot' : Int),
      count_forests files n f0 tab tot = .ok (tab', tot') →
      (∀ g, f0 ≤ g → g < f0 + n → (∃ f, files g = some f) ∧ tab' g = nforests_in_file files g) ∧
      (∀ g, (g < f0 ∨ f0 + n ≤ g) → tab' g = tab g) ∧
      tot' = tot + forests_in_files (nforests_in_file files) f0 n := by
  intro n
  induction n with
  | zero =>
    intro f0 tab tot tab' tot' h
    simp only [count_forests, Except.ok.injEq, Prod.mk.injEq] at h
    obtain ⟨h1, h2⟩ := h
    subst h1
    subst h2
    refine ⟨?_, ?_, ?_⟩
    · intro g h1 h2
      simp only [Nat.cast_zero, add_zero] at h2
      omega
    · intro g _
      rfl
    · simp [forests_in_files]
  | succ k ih =>
    intro f0 tab tot tab' tot' h
    unfold count_forests at h
    cases hf : files f0 with
    | none =>
      rw [hf] at h
      cases h
    | some f =>
      rw [hf] at h
      simp only at h
      obtain ⟨ih1, ih2, ih3⟩ := ih _ _ _ _ _ h
      have hlen : nforests_in_file files f0 = f.totnforests := by
        unfold nforests_in_file
        rw [hf]
      refine ⟨?_, ?_, ?_⟩
      · intro g h1 h2
        rcases eq_or_lt_of_le h1 with heq | hlt
        · subst heq
          refine ⟨⟨f, hf⟩, ?_⟩
          rw [ih2 f0 (Or.inl (by omega)), Function.update_same, hlen]
        · exact ih1 g (by omega) (by push_cast at h2; omega)
      · intro g hg
        rw [ih2 g (by push_cast at hg; omega)]
        exact Function.update_noteq (by omega) _ _
      · rw [ih3, forests_in_files_front, hlen]
        ring

theorem count_forests_ok (files : Int → Option LHaloFile) :
    ∀ (n : Nat) (f0 : Int) (tab : Int → Int) (tot : Int),
      (∀ g, f0 ≤ g → g < f0 + n → ∃ f, files g = some f) →
      ∃ tab' tot', count_forests files n f0 tab tot = .ok (tab', tot') := by
  intro n
  induction n with
  | zero =>
    intro f0 tab tot _
    exact ⟨tab, tot, rfl⟩
  | succ k ih =>
    intro f0 tab tot h
    obtain ⟨f, hf⟩ := h f0 (le_refl _) (by push_cast; omega)
    unfold count_forests
    rw [hf]
    exact ih _ _ _ (fun g h1 h2 => h g (by omega) (by push_cast; omega))

/-- When the header counts of the files of the run are not negative, no entry of the table
`totnforests_per_file` is. -/
theorem header_counts_nonneg (files : Int → Option LHaloFile) (n : Nat) (f0 : Int)
    (tab : Int → Int) (T : Int)
    (hcount : count_forests files n f0 (fun _ => 0) 0 = .ok (tab, T))
    (hcounts : ∀ g, f0 ≤ g → g < f0 + n → 0 ≤ nforests_in_file files g) :
    ∀ g, 0 ≤ tab g := by
  obtain ⟨hc1, hc2, _⟩ := count_forests_spec files _ _ _ _ _ _ hcount
  intro g
  by_cases hg : f0 ≤ g ∧ g < f0 + (n : Int)
  · rw [(hc1 g hg.1 hg.2).2]
    exact hcounts g hg.1 hg.2
  · rw [hc2 g (by omega)]

/-! ## The file scan of `setup_forests_io_lht_binary` -/

theorem scan_file_so_far (tot : Int → Int) (S E N : Int) (s : FileScan) (g : Int) :
    (scan_file tot S E N s g).nforests_so_far = s.nforests_so_far + tot g := by
  simp only [scan_file]

theorem scan_file_start_filenum (tot : Int → Int) (S E N : Int) (s : FileScan) (g : Int) :
    (scan_file tot S E N s g).start_filenum
      = if S ≥ s.nforests_so_far ∧ S < s.nforests_so_far + tot g then g
        else s.start_filenum := by
  simp only [scan_file]
  split_ifs <;> rfl

theorem scan_file_end_filenum (tot : Int → Int) (S E N : Int) (s : FileScan) (g : Int) :
    (scan_file tot S E N s g).end_filenum
      = if E ≥ s.nforests_so_far ∧ E ≤ s.nforests_so_far + tot g then g
        else s.end_filenum := by
  simp only [scan_file]
  split_ifs <;> rfl

theorem scan_file_start_in (tot : Int → Int) (S E N : Int) (s : FileScan) (g : Int) :
    (scan_file tot S E N s g).start_forestnum_to_process_per_file
      = Function.update s.start_forestnum_to_process_per_file g
          (if S ≥ s.nforests_so_far ∧ S < s.nforests_so_far + tot g then S - s.nforests_so_far
           else 0) := by
  simp only [scan_file]
  split_ifs <;> simp only [Function.update_idem]

theorem scan_file_num (tot : Int → Int) (S E N : Int) (s : FileScan) (g : Int)
    (hg : s.start_filenum ≠ g) :
    (scan_file tot S E N s g).num_forests_to_process_per_file
      = Function.update s.num_forests_to_process_per_file g
          (if E ≥ s.nforests_so_far ∧ E ≤ s.nforests_so_far + tot g then
            (if S ≥ s.nforests_so_far ∧ S < s.nforests_so_far + tot g then N
             else E - s.nforests_so_far)
           else if S ≥ s.nforests_so_far ∧ S < s.nforests_so_far + tot g then
             tot g - (S - s.nforests_so_far)
           else tot g) := by
  have hg' : ¬ g = s.start_filenum := fun h => hg h.symm
  by_cases h1 : S ≥ s.nforests_so_far ∧ S < s.nforests_so_far + tot g
  · by_cases h2 : E ≥ s.nforests_so_far ∧ E ≤ s.nforests_so_far + tot g
    · simp only [scan_file, if_pos h1, if_pos h2, Function.update_idem, if_true]
    · simp only [scan_file, if_pos h1, if_neg h2, Function.update_idem]
  · by_cases h2 : E ≥ s.nforests_so_far ∧ E ≤ s.nforests_so_far + tot g
    · simp only [scan_file, if_neg h1, if_pos h2, if_neg hg', Function.update_idem]
    · simp only [scan_file, if_neg h1, if_neg h2, Function.update_idem]

theorem scan_files_succ (tot : Int → Int) (S E N : Int) :
    ∀ (n : Nat) (f0 : Int) (s : FileScan),
      scan_files tot S E N (n + 1) f0 s
        = scan_file tot S E N (scan_files tot S E N n f0 s) (f0 + n) := by
  intro n
  induction n with
  | zero =>
    intro f0 s
    simp [scan_files]
  | succ k ih =>
    intro f0 s
    have e : scan_files tot S E N (k + 1 + 1) f0 s
        = scan_files tot S E N (k + 1) (f0 + 1) (scan_file tot S E N s f0) := rfl
    rw [e, ih]
    have e2 : scan_files tot S E N (k + 1) f0 s
        = scan_files tot S E N k (f0 + 1) (scan_file tot S E N s f0) := rfl
    rw [e2]
    have hidx : f0 + 1 + (k : Int) = f0 + ((k + 1 : Nat) : Int) := by push_cast; ring
    rw [hidx]

theorem scan_files_spec (tot : Int → Int) (f0 S E N : Int) (hf0 : 0 ≤ f0) :
    ∀ n : Nat,
      (scan_files tot S E N n f0 scan_init).nforests_so_far = forests_in_files tot f0 n ∧
      (∀ i : Nat, i < n →
        (scan_files tot S E N n f0 scan_init).start_forestnum_to_process_per_file (f0 + i)
          = start_in_file tot f0 S i) ∧
      (∀ i : Nat, i < n →
        (scan_files tot S E N n f0 scan_init).num_forests_to_process_per_file (f0 + i)
          = num_in_file tot f0 S E N i) ∧
      (((scan_files tot S E N n f0 scan_init).start_filenum = -1
          ∧ ∀ i : Nat, i < n → ¬ start_test tot f0 S i) ∨
        ∃ i : Nat, i < n ∧ (scan_files tot S E N n f0 scan_init).start_filenum = f0 + i
          ∧ start_test tot f0 S i) ∧
      (((scan_files tot S E N n f0 scan_init).end_filenum = -1
          ∧ ∀ i : Nat, i < n → ¬ end_test tot f0 E i) ∨
        ∃ i : Nat, i < n ∧ (scan_files tot S E N n f0 scan_init).end_filenum = f0 + i
          ∧ end_test tot f0 E i) := by
  intro n
  induction n with
  | zero =>
    refine ⟨rfl, ?_, ?_, Or.inl ⟨rfl, ?_⟩, Or.inl ⟨rfl, ?_⟩⟩ <;>
    · intro i hi
      omega
  | succ k ih =>
    obtain ⟨ih1, ih2, ih3, ih4, ih5⟩ := ih
    rw [scan_files_succ]
    generalize scan_files tot S E N k f0 scan_init = s at ih1 ih2 ih3 ih4 ih5
    have hc : forests_in_files tot f0 (k + 1)
        = forests_in_files tot f0 k + tot (f0 + (k : Int)) := rfl
    have hst : (S ≥ s.nforests_so_far ∧ S < s.nforests_so_far + tot (f0 + (k : Int)))
        ↔ start_test tot f0 S k := by
      unfold start_test
      rw [ih1, hc]
    have hen : (E ≥ s.nforests_so_far ∧ E ≤ s.nforests_so_far + tot (f0 + (k : Int)))
        ↔ end_test tot f0 E k := by
      unfold end_test
      rw [ih1, hc]
    have hne : s.start_filenum ≠ f0 + (k : Int) := by
      rcases ih4 with ⟨h, _⟩ | ⟨i, hi, h, _⟩
      · rw [h]
        omega
      · rw [h]
        omega
    refine ⟨?_, ?_, ?_, ?_, ?_⟩
    · rw [scan_file_so_far, ih1, hc]
    · intro i hi
      rw [scan_file_start_in]
      rcases Nat.lt_or_ge i k with hlt | hge
      · rw [Function.update_noteq (by omega)]
        exact ih2 i hlt
      · have : i = k := by omega
        subst this
        rw [Function.update_same]
        unfold start_in_file
        simp only [hst]
        rw [ih1]
    · intro i hi
      rw [scan_file_num _ _ _ _ _ _ hne]
      rcases Nat.lt_or_ge i k with hlt | hge
      · rw [Function.update_noteq (by omega)]
        exact ih3 i hlt
      · have : i = k := by omega
        subst this
        rw [Function.update_same]
        unfold num_in_file
        simp only [hst, hen]
        rw [ih1]
    · rw [scan_file_start_filenum]
      by_cases hk : start_test tot f0 S k
      · rw [if_pos (hst.mpr hk)]
        exact Or.inr ⟨k, by omega, rfl, hk⟩
      · rw [if_neg (fun h => hk (hst.mp h))]
        rcases ih4 with ⟨h, hall⟩ | ⟨i, hi, h, ht⟩
        · refine Or.inl ⟨h, ?_⟩
          intro i hi
          rcases Nat.lt_or_ge i k with hlt | hge
          · exact hall i hlt
          · have : i = k := by omega
            subst this
            exact hk
        · exact Or.inr ⟨i, by omega, h, ht⟩
    · rw [scan_file_end_filenum]
      by_cases hk : end_test tot f0 E k
      · rw [if_pos (hen.mpr hk)]
        exact Or.inr ⟨k, by omega, rfl, hk⟩
      · rw [if_neg (fun h => hk (hen.mp h))]
        rcases ih5 with ⟨h, hall⟩ | ⟨i, hi, h, ht⟩
        · refine Or.inl ⟨h, ?_⟩
          intro i hi
          rcases Nat.lt_or_ge i k with hlt | hge
          · exact hall i hlt
          · have : i = k := by omega
            subst this
            exact hk
        · exact Or.inr ⟨i, by omega, h, ht⟩

/-! ## The per-file pass of `setup_forests_io_lht_binary` -/

theorem assign_offsets_spec (sz so_far L fd : Int) (fh : Int → Int) (table : List Int)
    (b0 : Int) :
    ∀ (n : Nat) (i : Int) (a : Nat) (bo fds : Int → Int) (b : Int) (lo lf : List Int)
      (bo' fds' : Int → Int) (b' : Int) (lo' lf' : List Int),
      b = byte_offset_after sz table b0 a →
      (∀ j : Nat, j < n → fh (i + j) = table.getD (a + j) 0) →
      assign_offsets sz so_far L fd fh n i (bo, fds, b, lo, lf) = .ok (bo', fds', b', lo', lf') →
      (∀ j : Nat, j < n →
        bo' (i + j + so_far) = toInt64 (byte_offset_after sz table b0 (a + j))
          ∧ fds' (i + j + so_far) = fd) ∧
      (∀ k, (k < i + so_far ∨ i + n + so_far ≤ k) → bo' k = bo k ∧ fds' k = fds k) ∧
      lo' = lo ++ (List.range n).map (fun j : Nat => i + (j : Int) + so_far) ∧
      lf' = lf ++ (List.range n).map (fun j : Nat => i + (j : Int) + so_far) := by
  intro n
  induction n with
  | zero =>
    intro i a bo fds b lo lf bo' fds' b' lo' lf' _ _ h
    simp only [assign_offsets, Except.ok.injEq, Prod.mk.injEq] at h
    obtain ⟨h1, h2, _, h4, h5⟩ := h
    subst h1
    subst h2
    subst h4
    subst h5
    exact ⟨fun j hj => by omega, fun k _ => ⟨rfl, rfl⟩, by simp, by simp⟩
  | succ m ih =>
    intro i a bo fds b lo lf bo' fds' b' lo' lf' hb hfh h
    unfold assign_offsets at h
    split_ifs at h with hlt
    have hfh0 : fh i = table.getD a 0 := by
      have := hfh 0 (by omega)
      simpa using this
    have hb1 : wrap64 (b + wrap64 (fh i * sz)) = byte_offset_after sz table b0 (a + 1) := by
      rw [hb, hfh0]
      rfl
    have hfh1 : ∀ j : Nat, j < m → fh (i + 1 + j) = table.getD (a + 1 + j) 0 := by
      intro j hj
      have := hfh (j + 1) (by omega)
      have e1 : i + ((j + 1 : Nat) : Int) = i + 1 + (j : Int) := by push_cast; ring
      have e2 : a + (j + 1) = a + 1 + j := by omega
      rw [e1, e2] at this
      exact this
    obtain ⟨ih1, ih2, ih3, ih4⟩ := ih (i + 1) (a + 1) _ _ _ _ _ bo' fds' b' lo' lf' hb1 hfh1 h
    have hrange : ∀ l : List Int,
        (l ++ [i + so_far]) ++ (List.range m).map (fun j : Nat => i + 1 + (j : Int) + so_far)
          = l ++ (List.range (m + 1)).map (fun j : Nat => i + (j : Int) + so_far) := by
      intro l
      rw [List.append_assoc, List.range_succ_eq_map, List.map_cons, List.map_map]
      congr 1
      simp only [List.singleton_append, Nat.cast_zero, add_zero]
      congr 1
      apply List.map_congr_left
      intro j _
      simp only [Function.comp_apply, Nat.succ_eq_add_one]
      push_cast
      ring
    refine ⟨?_, ?_, by rw [ih3, hrange], by rw [ih4, hrange]⟩
    · intro j hj
      cases j with
      | zero =>
        obtain ⟨h1, h2⟩ := ih2 (i + so_far) (Or.inl (by omega))
        simp only [Nat.cast_zero, add_zero]
        rw [h1, h2, Function.update_same, Function.update_same, hb]
        exact ⟨rfl, rfl⟩
      | succ j' =>
        have := ih1 j' (by omega)
        have e1 : i + ((j' + 1 : Nat) : Int) + so_far = i + 1 + (j' : Int) + so_far := by
          push_cast; ring
        have e2 : a + (j' + 1) = a + 1 + j' := by omega
        rw [e1, e2]
        exact this
    · intro k hk
      obtain ⟨h1, h2⟩ := ih2 k (by push_cast at hk; omega)
      rw [h1, h2]
      have hne : k ≠ i + so_far := by push_cast at hk; omega
      exact ⟨Function.update_noteq hne _ _, Function.update_noteq hne _ _⟩

theorem assign_offsets_ok (sz so_far L fd : Int) (fh : Int → Int) :
    ∀ (n : Nat) (i : Int) (st : (Int → Int) × (Int → Int) × Int × List Int × List Int),
      (n = 0 ∨ i + n + so_far ≤ L) → 0 ≤ i →
      ∃ r, assign_offsets sz so_far L fd fh n i st = .ok r := by
  intro n
  induction n with
  | zero =>
    intro i st _ _
    exact ⟨st, rfl⟩
  | succ m ih =>
    intro i st h hi
    obtain ⟨bo, fds, b, lo, lf⟩ := st
    unfold assign_offsets
    have hlt : i + so_far < L := by
      rcases h with h | h
      · omega
      · push_cast at h
        omega
    rw [if_neg (not_not.mpr hlt)]
    apply ih
    · rcases h with h | h
      · omega
      · right
        push_cast at h
        omega
    · omega

theorem process_file_spec (sz : Int) (files : Int → Option LHaloFile) (tot : Int → Int)
    (scan : FileScan) (L : Int) (s : FileLoop) (g : Int) (s' : FileLoop)
    (h : process_file sz files tot scan L s g = .ok s') :
    ∃ f, files g = some f ∧ 0 ≤ f.fd ∧
      (0 ≤ scan.start_forestnum_to_process_per_file g
        ∧ scan.start_forestnum_to_process_per_file g < tot g) ∧
      (0 ≤ scan.num_forests_to_process_per_file g
        ∧ scan.num_forests_to_process_per_file g ≤ tot g) ∧
      (g = scan.start_filenum → s.forestnhalos = 0) ∧
      s'.forestnhalos = s.forestnhalos + scan.num_forests_to_process_per_file g ∧
      s'.open_fds = Function.update s.open_fds (g - scan.start_filenum) f.fd ∧
      (∀ l : Nat, (l : Int) < scan.num_forests_to_process_per_file g →
        s'.nhalos_per_forest (s.forestnhalos + l)
            = f.nhalos_per_forest.getD
                ((scan.start_forestnum_to_process_per_file g).toNat + l) 0 ∧
        s'.bytes_offset_for_forest (s.forestnhalos + l)
            = toInt64 (byte_offset_after sz f.nhalos_per_forest
                (wrap64 (4 + 4 + wrap64 (tot g * 4)))
                ((scan.start_forestnum_to_process_per_file g).toNat + l)) ∧
        s'.fd (s.forestnhalos + l) = f.fd) ∧
      (∀ k, (k < s.forestnhalos ∨ s.forestnhalos + scan.num_forests_to_process_per_file g ≤ k) →
        s'.nhalos_per_forest k = s.nhalos_per_forest k
          ∧ s'.bytes_offset_for_forest k = s.bytes_offset_for_forest k
          ∧ s'.fd k = s.fd k) ∧
      s'.nhalos_stores = s.nhalos_stores
        ++ (List.range (scan.num_forests_to_process_per_file g).toNat).map
            (fun i : Nat => s.forestnhalos + (i : Int)) ∧
      s'.offset_stores = s.offset_stores
        ++ (List.range (scan.num_forests_to_process_per_file g).toNat).map
            (fun i : Nat => s.forestnhalos + (i : Int)) ∧
      s'.fd_stores = s.fd_stores
        ++ (List.range (scan.num_forests_to_process_per_file g).toNat).map
            (fun i : Nat => s.forestnhalos + (i : Int)) := by
  unfold process_file at h
  split_ifs at h with hx1 hx2
  cases hf : files g with
  | none =>
    rw [hf] at h
    cases h
  | some f =>
    rw [hf] at h
    simp only at h
    split_ifs at h with hfd hfirst
    generalize hao : assign_offsets sz s.forestnhalos L f.fd _ _ 0 _ = r at h
    cases r with
    | error e => cases h
    | ok r =>
      obtain ⟨bo', fds', b', lo', lf'⟩ := r
      simp only [Except.ok.injEq] at h
      have hx1' := hx1
      have hx2' := hx2
      have hst0 : 0 ≤ scan.start_forestnum_to_process_per_file g := hx1'.1
      have hnum0 : 0 ≤ scan.num_forests_to_process_per_file g := hx2'.1
      have hspec := assign_offsets_spec sz s.forestnhalos L f.fd _ f.nhalos_per_forest
        (wrap64 (4 + 4 + wrap64 (tot g * 4))) _ 0
        (scan.start_forestnum_to_process_per_file g).toNat _ _ _ _ _ bo' fds' b' lo' lf' rfl ?_
        hao
      · obtain ⟨hs1, hs2, hs3, hs4⟩ := hspec
        have hidx : (fun j : Nat => (0 : Int) + (j : Int) + s.forestnhalos)
            = (fun i : Nat => s.forestnhalos + (i : Int)) := by
          funext j
          ring
        rw [hidx] at hs3 hs4
        subst h
        refine ⟨f, rfl, by omega, ⟨hst0, hx1'.2⟩, ⟨hnum0, hx2'.2⟩, ?_, rfl, rfl, ?_, ?_, rfl,
          hs3, hs4⟩
        · intro hg
          by_contra hne
          exact hfirst ⟨hg, hne⟩
        · intro l hl
          have hl' : l < (scan.num_forests_to_process_per_file g).toNat := by omega
          obtain ⟨h1, h2⟩ := hs1 l hl'
          have e : (0 : Int) + (l : Int) + s.forestnhalos = s.forestnhalos + (l : Int) := by ring
          rw [e] at h1 h2
          refine ⟨?_, h1, h2⟩
          simp only
          rw [if_pos ⟨by omega, by omega⟩]
          congr 1
          omega
        · intro k hk
          obtain ⟨h1, h2⟩ := hs2 k (by
            rcases hk with hk | hk
            · left; omega
            · right
              have : ((scan.num_forests_to_process_per_file g).toNat : Int)
                  = scan.num_forests_to_process_per_file g := Int.toNat_of_nonneg hnum0
              omega)
          refine ⟨?_, h1, h2⟩
          simp only
          rw [if_neg (by omega)]
      · intro j hj
        rw [if_pos ⟨by omega, by omega⟩]
        congr 1
        omega

theorem process_file_ok (sz : Int) (files : Int → Option LHaloFile) (tot : Int → Int)
    (scan : FileScan) (L : Int) (s : FileLoop) (g : Int) (f : LHaloFile)
    (hf : files g = some f) (hfd : 0 ≤ f.fd)
    (hx1 : 0 ≤ scan.start_forestnum_to_process_per_file g
      ∧ scan.start_forestnum_to_process_per_file g < tot g)
    (hx2 : 0 ≤ scan.num_forests_to_process_per_file g
      ∧ scan.num_forests_to_process_per_file g ≤ tot g)
    (hfirst : g = scan.start_filenum → s.forestnhalos = 0)
    (hroom : s.forestnhalos + scan.num_forests_to_process_per_file g ≤ L) :
    ∃ s', process_file sz files tot scan L s g = .ok s' := by
  unfold process_file
  rw [if_neg (not_not.mpr ⟨hx1.1, hx1.2⟩), if_neg (not_not.mpr ⟨hx2.1, hx2.2⟩), hf]
  simp only
  rw [if_neg (by omega), if_neg (fun h => h.2 (hfirst h.1))]
  obtain ⟨r, hr⟩ := assign_offsets_ok sz s.forestnhalos L f.fd
    (fun i =>
      if s.forestnhalos ≤ s.forestnhalos + i
          ∧ s.forestnhalos + i < s.forestnhalos + scan.num_forests_to_process_per_file g then
        f.nhalos_per_forest.getD
          (scan.start_forestnum_to_process_per_file g
            + (s.forestnhalos + i - s.forestnhalos)).toNat 0
      else s.nhalos_per_forest (s.forestnhalos + i))
    (scan.num_forests_to_process_per_file g).toNat 0
    (s.bytes_offset_for_forest, s.fd,
      byte_offset_after sz f.nhalos_per_forest (wrap64 (4 + 4 + wrap64 (tot g * 4)))
        (scan.start_forestnum_to_process_per_file g).toNat, s.offset_stores, s.fd_stores)
    (by
      right
      have : ((scan.num_forests_to_process_per_file g).toNat : Int)
          = scan.num_forests_to_process_per_file g := Int.toNat_of_nonneg hx2.1
      omega)
    (le_refl _)
  rw [hr]
  obtain ⟨bo, fds, b, lo, lf⟩ := r
  exact ⟨_, rfl⟩

theorem process_files_spec (sz : Int) (files : Int → Option LHaloFile) (tot : Int → Int)
    (scan : FileScan) (L : Int) :
    ∀ (n : Nat) (g0 : Int) (s s' : FileLoop),
      process_files sz files tot scan L n g0 s = .ok s' →
      s'.forestnhalos
        = s.forestnhalos + forests_in_files scan.num_forests_to_process_per_file g0 n ∧
      (∀ m : Nat, m < n → ∃ f, files (g0 + m) = some f ∧ 0 ≤ f.fd ∧
        (0 ≤ scan.start_forestnum_to_process_per_file (g0 + m)
          ∧ scan.start_forestnum_to_process_per_file (g0 + m) < tot (g0 + m)) ∧
        (0 ≤ scan.num_forests_to_process_per_file (g0 + m)
          ∧ scan.num_forests_to_process_per_file (g0 + m) ≤ tot (g0 + m)) ∧
        s'.open_fds (g0 + m - scan.start_filenum) = f.fd ∧
        (∀ l : Nat, (l : Int) < scan.num_forests_to_process_per_file (g0 + m) →
          s'.nhalos_per_forest
              (s.forestnhalos + forests_in_files scan.num_forests_to_process_per_file g0 m + l)
            = f.nhalos_per_forest.getD
                ((scan.start_forestnum_to_process_per_file (g0 + m)).toNat + l) 0 ∧
          s'.bytes_offset_for_forest
              (s.forestnhalos + forests_in_files scan.num_forests_to_process_per_file g0 m + l)
            = toInt64 (byte_offset_after sz f.nhalos_per_forest
                (wrap64 (4 + 4 + wrap64 (tot (g0 + m) * 4)))
                ((scan.start_forestnum_to_process_per_file (g0 + m)).toNat + l)) ∧
          s'.fd (s.forestnhalos + forests_in_files scan.num_forests_to_process_per_file g0 m + l)
            = f.fd)) ∧
      (∀ k, k < s.forestnhalos →
        s'.nhalos_per_forest k = s.nhalos_per_forest k
          ∧ s'.bytes_offset_for_forest k = s.bytes_offset_for_forest k
          ∧ s'.fd k = s.fd k) ∧
      (∀ k, k < g0 - scan.start_filenum → s'.open_fds k = s.open_fds k) := by
  intro n
  induction n with
  | zero =>
    intro g0 s s' h
    simp only [process_files, Except.ok.injEq] at h
    subst h
    refine ⟨by simp [forests_in_files], fun m hm => by omega, fun k _ => ⟨rfl, rfl, rfl⟩,
      fun k _ => rfl⟩
  | succ n ih =>
    intro g0 s s' h
    unfold process_files at h
    cases h1 : process_file sz files tot scan L s g0 with
    | error e =>
      rw [h1] at h
      cases h
    | ok s1 =>
      rw [h1] at h
      simp only at h
      obtain ⟨f, hf, hfd, hx1, hx2, _, hptr, hopen, hval, hout, _, _, _⟩ :=
        process_file_spec sz files tot scan L s g0 s1 h1
      obtain ⟨ih1, ih2, ih3, ih4⟩ := ih (g0 + 1) s1 s' h
      have hfront : ∀ m : Nat, forests_in_files scan.num_forests_to_process_per_file g0 (m + 1)
          = scan.num_forests_to_process_per_file g0
            + forests_in_files scan.num_forests_to_process_per_file (g0 + 1) m :=
        fun m => forests_in_files_front _ _ _
      refine ⟨?_, ?_, ?_, ?_⟩
      · rw [ih1, hptr, hfront]
        ring
      · intro m hm
        cases m with
        | zero =>
          simp only [Nat.cast_zero, add_zero]
          refine ⟨f, hf, hfd, hx1, hx2, ?_, ?_⟩
          · rw [ih4 _ (by omega), hopen, Function.update_same]
          · intro l hl
            obtain ⟨v1, v2, v3⟩ := hval l hl
            obtain ⟨u1, u2, u3⟩ := ih3 (s.forestnhalos + l) (by omega)
            have e0 : forests_in_files scan.num_forests_to_process_per_file g0 0 = 0 := rfl
            rw [e0, add_zero, u1, u2, u3]
            exact ⟨v1, v2, v3⟩
        | succ m' =>
          obtain ⟨f', hf', hfd', hy1, hy2, hop', hval'⟩ := ih2 m' (by omega)
          have eidx : g0 + ((m' + 1 : Nat) : Int) = g0 + 1 + (m' : Int) := by push_cast; ring
          rw [eidx]
          refine ⟨f', hf', hfd', hy1, hy2, hop', ?_⟩
          intro l hl
          have eptr : s.forestnhalos
                + forests_in_files scan.num_forests_to_process_per_file g0 (m' + 1) + (l : Int)
              = s1.forestnhalos
                + forests_in_files scan.num_forests_to_process_per_file (g0 + 1) m' + (l : Int) := by
            rw [hptr, hfront]
            ring
          rw [eptr]
          exact hval' l hl
      · intro k hk
        obtain ⟨u1, u2, u3⟩ := ih3 k (by omega)
        obtain ⟨w1, w2, w3⟩ := hout k (Or.inl hk)
        rw [u1, u2, u3]
        exact ⟨w1, w2, w3⟩
      · intro k hk
        rw [ih4 k (by omega), hopen]
        exact Function.update_noteq (by omega) _ _

theorem forests_in_files_nonneg (count : Int → Int) (f0 : Int) (n : Nat)
    (h : ∀ m : Nat, m < n → 0 ≤ count (f0 + m)) : 0 ≤ forests_in_files count f0 n := by
  induction n with
  | zero => exact le_refl _
  | succ k ih =>
    have h1 := ih (fun m hm => h m (by omega))
    have h2 := h k (by omega)
    have e : forests_in_files count f0 (k + 1)
        = forests_in_files count f0 k + count (f0 + (k : Int)) := rfl
    omega

theorem process_files_ok (sz : Int) (files : Int → Option LHaloFile) (tot : Int → Int)
    (scan : FileScan) (L : Int) :
    ∀ (n : Nat) (g0 : Int) (s : FileLoop),
      (∀ m : Nat, m < n → ∃ f, files (g0 + m) = some f ∧ 0 ≤ f.fd ∧
        (0 ≤ scan.start_forestnum_to_process_per_file (g0 + m)
          ∧ scan.start_forestnum_to_process_per_file (g0 + m) < tot (g0 + m)) ∧
        (0 ≤ scan.num_forests_to_process_per_file (g0 + m)
          ∧ scan.num_forests_to_process_per_file (g0 + m) ≤ tot (g0 + m))) →
      (∀ m : Nat, m < n → g0 + m = scan.start_filenum →
        s.forestnhalos + forests_in_files scan.num_forests_to_process_per_file g0 m = 0) →
      s.forestnhalos + forests_in_files scan.num_forests_to_process_per_file g0 n ≤ L →
      ∃ s', process_files sz files tot scan L n g0 s = .ok s' := by
  intro n
  induction n with
  | zero =>
    intro g0 s _ _ _
    exact ⟨s, rfl⟩
  | succ n ih =>
    intro g0 s hfiles hfirst hroom
    have hfront : ∀ m : Nat, forests_in_files scan.num_forests_to_process_per_file g0 (m + 1)
        = scan.num_forests_to_process_per_file g0
          + forests_in_files scan.num_forests_to_process_per_file (g0 + 1) m :=
      fun m => forests_in_files_front _ _ _
    have hshift : ∀ m : Nat, g0 + ((m + 1 : Nat) : Int) = g0 + 1 + (m : Int) := by
      intro m
      push_cast
      ring
    obtain ⟨f, hf, hfd, hx1, hx2⟩ := hfiles 0 (by omega)
    simp only [Nat.cast_zero, add_zero] at hf hx1 hx2
    have hrest : 0 ≤ forests_in_files scan.num_forests_to_process_per_file (g0 + 1) n := by
      apply forests_in_files_nonneg
      intro m hm
      obtain ⟨_, _, _, _, hy2⟩ := hfiles (m + 1) (by omega)
      rw [hshift] at hy2
      exact hy2.1
    have hroom0 : s.forestnhalos + scan.num_forests_to_process_per_file g0 ≤ L := by
      rw [hfront] at hroom
      omega
    have hfirst0 : g0 = scan.start_filenum → s.forestnhalos = 0 := by
      intro hg
      have := hfirst 0 (by omega) (by simpa using hg)
      simpa [forests_in_files] using this
    obtain ⟨s1, h1⟩ := process_file_ok sz files tot scan L s g0 f hf hfd hx1 hx2 hfirst0 hroom0
    obtain ⟨_, _, _, _, _, _, hptr, _⟩ := process_file_spec sz files tot scan L s g0 s1 h1
    unfold process_files
    rw [h1]
    simp only
    apply ih
    · intro m hm
      have := hfiles (m + 1) (by omega)
      rw [hshift] at this
      exact this
    · intro m hm hg
      have := hfirst (m + 1) (by omega) (by rw [hshift]; exact hg)
      rw [hfront] at this
      rw [hptr]
      omega
    · rw [hptr]
      rw [hfront] at hroom
      omega

/-! ## Arithmetic of the per-file counts -/

theorem forests_in_files_succ (tot : Int → Int) (f0 : Int) (i : Nat) :
    forests_in_files tot f0 (i + 1) = forests_in_files tot f0 i + tot (f0 + (i : Int)) := rfl

theorem forests_in_files_lt (tot : Int → Int) (f0 : Int) (hnn : ∀ g, 0 ≤ tot g)
    (a b : Nat) (h : forests_in_files tot f0 a < forests_in_files tot f0 b) : a < b := by
  by_contra hge
  have := forests_in_files_mono tot f0 hnn b a (by omega)
  omega

theorem start_test_unique (tot : Int → Int) (f0 S : Int) (hnn : ∀ g, 0 ≤ tot g)
    (a b : Nat) (ha : start_test tot f0 S a) (hb : start_test tot f0 S b) : a = b := by
  unfold start_test at ha hb
  have h1 : a < b + 1 := forests_in_files_lt tot f0 hnn _ _ (by omega)
  have h2 : b < a + 1 := forests_in_files_lt tot f0 hnn _ _ (by omega)
  omega

theorem start_in_file_eq (tot : Int → Int) (f0 S : Int) (hnn : ∀ g, 0 ≤ tot g)
    (iF i : Nat) (hF : start_test tot f0 S iF) :
    start_in_file tot f0 S i = if i = iF then S - forests_in_files tot f0 iF else 0 := by
  unfold start_in_file
  by_cases hi : i = iF
  · subst hi
    rw [if_pos hF, if_pos rfl]
  · rw [if_neg hi, if_neg (fun h => hi (start_test_unique tot f0 S hnn _ _ h hF))]

theorem num_in_file_eq (tot : Int → Int) (f0 S E N : Int) (hnn : ∀ g, 0 ≤ tot g)
    (hN : E = S + N) (iF iE i : Nat)
    (hF : start_test tot f0 S iF) (hE : end_test tot f0 E iE) (h1 : iF ≤ i) (h2 : i ≤ iE) :
    num_in_file tot f0 S E N i
      = (if i = iE then E else forests_in_files tot f0 (i + 1))
        - (if i = iF then S else forests_in_files tot f0 i) := by
  have hsucc := forests_in_files_succ tot f0 i
  have hF' := hF
  have hE' := hE
  unfold start_test at hF'
  unfold end_test at hE'
  have hmono1 : i < iE → forests_in_files tot f0 (i + 1) ≤ forests_in_files tot f0 iE :=
    fun h => forests_in_files_mono tot f0 hnn _ _ (by omega)
  have hmono2 : iF < i → forests_in_files tot f0 (iF + 1) ≤ forests_in_files tot f0 i :=
    fun h => forests_in_files_mono tot f0 hnn _ _ (by omega)
  unfold num_in_file
  by_cases hiF : i = iF
  · have hs : start_test tot f0 S i := hiF ▸ hF
    rw [if_pos hs, if_pos hs, if_pos hiF]
    by_cases hiE : i = iE
    · have he : end_test tot f0 E i := hiE ▸ hE
      rw [if_pos he, if_pos hiE]
      omega
    · rw [if_neg hiE]
      have := hmono1 (by omega)
      by_cases he : end_test tot f0 E i
      · rw [if_pos he]
        unfold end_test at he
        omega
      · rw [if_neg he]
        subst hiF
        omega
  · have hs : ¬ start_test tot f0 S i :=
      fun h => hiF (start_test_unique tot f0 S hnn _ _ h hF)
    rw [if_neg hs, if_neg hs, if_neg hiF]
    have := hmono2 (by omega)
    by_cases hiE : i = iE
    · have he : end_test tot f0 E i := hiE ▸ hE
      rw [if_pos he, if_pos hiE]
    · rw [if_neg hiE]
      have := hmono1 (by omega)
      by_cases he : end_test tot f0 E i
      · rw [if_pos he]
        unfold end_test at he
        omega
      · rw [if_neg he]
        omega

theorem processed_before (tot num : Int → Int) (f0 S E N : Int) (hnn : ∀ g, 0 ≤ tot g)
    (hN : E = S + N) (iF iE : Nat)
    (hF : start_test tot f0 S iF) (hE : end_test tot f0 E iE)
    (hnum : ∀ i : Nat, i ≤ iE → num (f0 + i) = num_in_file tot f0 S E N i) :
    ∀ m : Nat, iF + m ≤ iE →
      forests_in_files num (f0 + iF) m
        = if m = 0 then 0 else forests_in_files tot f0 (iF + m) - S := by
  intro m
  induction m with
  | zero =>
    intro _
    rfl
  | succ k ih =>
    intro hk
    have e1 : forests_in_files num (f0 + iF) (k + 1)
        = forests_in_files num (f0 + iF) k + num (f0 + (iF : Int) + (k : Int)) := rfl
    have e2 : f0 + (iF : Int) + (k : Int) = f0 + ((iF + k : Nat) : Int) := by push_cast; ring
    rw [e1, e2, hnum _ (by omega), ih (by omega),
      num_in_file_eq tot f0 S E N hnn hN iF iE (iF + k) hF hE (by omega) (by omega)]
    rw [if_neg (by omega : ¬ iF + k = iE), if_neg (by omega : ¬ k + 1 = 0)]
    have e3 : iF + (k + 1) = iF + k + 1 := by omega
    rw [e3]
    by_cases hk0 : k = 0
    · subst hk0
      simp
    · rw [if_neg hk0, if_neg (by omega : ¬ iF + k = iF)]
      ring

theorem setup_inv (sz : Int) (files : Int → Option LHaloFile) (info : forest_info)
    (f0 lastfile t NT : Int) (st : forest_info)
    (h : setup_forests_io_lht_binary sz files info f0 lastfile t NT = .ok st) :
    0 < lastfile - f0 + 1 ∧ NT ≠ 0 ∧
    ∃ (tab : Int → Int) (T : Int) (fl : FileLoop),
      count_forests files (lastfile - f0 + 1).toNat f0 (fun _ => 0) 0 = .ok (tab, T) ∧
      (scan_result tab T t NT (lastfile - f0 + 1).toNat f0).start_filenum ≠ -1 ∧
      (scan_result tab T t NT (lastfile - f0 + 1).toNat f0).end_filenum ≠ -1 ∧
      process_files sz files tab (scan_result tab T t NT (lastfile - f0 + 1).toNat f0)
          (nforests_this_task T t NT)
          ((scan_result tab T t NT (lastfile - f0 + 1).toNat f0).end_filenum
            - (scan_result tab T t NT (lastfile - f0 + 1).toNat f0).start_filenum + 1).toNat
          (scan_result tab T t NT (lastfile - f0 + 1).toNat f0).start_filenum
          { nhalos_per_forest := info.lht.nhalos_per_forest
            bytes_offset_for_forest := info.lht.bytes_offset_for_forest
            fd := info.lht.fd
            open_fds := info.lht.open_fds
            forestnhalos := 0
            nhalos_stores := []
            offset_stores := []
            fd_stores := [] } = .ok fl ∧
      st = { info with
              totnforests := T
              nforests_this_task := nforests_this_task T t NT
              frac_volume_processed :=
                .val (sum_frac_volume
                  (scan_result tab T t NT (lastfile - f0 + 1).toNat f0).num_forests_to_process_per_file
                  tab
                  ((scan_result tab T t NT (lastfile - f0 + 1).toNat f0).end_filenum
                    - (scan_result tab T t NT (lastfile - f0 + 1).toNat f0).start_filenum
                    + 1).toNat
                  (scan_result tab T t NT (lastfile - f0 + 1).toNat f0).start_filenum 0)
              lht :=
                { nforests := nforests_this_task T t NT
                  nhalos_per_forest := fl.nhalos_per_forest
                  bytes_offset_for_forest := fl.bytes_offset_for_forest
                  fd := fl.fd
                  numfiles :=
                    (scan_result tab T t NT (lastfile - f0 + 1).toNat f0).end_filenum
                      - (scan_result tab T t NT (lastfile - f0 + 1).toNat f0).start_filenum + 1
                  open_fds := fl.open_fds } } := by
  unfold setup_forests_io_lht_binary at h
  simp only at h
  cases hcount : count_forests files (lastfile - f0 + 1).toNat f0 (fun _ => 0) 0 with
  | error e =>
    rw [hcount] at h
    simp only at h
    split_ifs at h
  | ok r =>
    obtain ⟨tab, T⟩ := r
    rw [hcount] at h
    simp only at h
    split_ifs at h with hnf hNT hscan
    cases hproc : process_files sz files tab (scan_result tab T t NT (lastfile - f0 + 1).toNat f0)
        (nforests_this_task T t NT)
        ((scan_result tab T t NT (lastfile - f0 + 1).toNat f0).end_filenum
          - (scan_result tab T t NT (lastfile - f0 + 1).toNat f0).start_filenum + 1).toNat
        (scan_result tab T t NT (lastfile - f0 + 1).toNat f0).start_filenum
        { nhalos_per_forest := info.lht.nhalos_per_forest
          bytes_offset_for_forest := info.lht.bytes_offset_for_forest
          fd := info.lht.fd
          open_fds := info.lht.open_fds
          forestnhalos := 0
          nhalos_stores := []
          offset_stores := []
          fd_stores := [] } with
    | error e =>
      unfold scan_result scan_init at hproc
      rw [hproc] at h
      cases h
    | ok fl =>
      have hproc' := hproc
      unfold scan_result scan_init at hproc'
      rw [hproc'] at h
      simp only [Except.ok.injEq] at h
      refine ⟨by omega, hNT, tab, T, fl, rfl, ?_, ?_, hproc, h.symm⟩
      · intro hc
        exact hscan (Or.inl hc)
      · intro hc
        exact hscan (Or.inr hc)


/-- What a successful `setup_forests_io_lht_binary` leaves in `forests_info`: the totals, and
for the forest at position `j` of the `i`-th file, whenever its global number lies in the
range of the task, the halo count, byte offset and descriptor stored at its task-local index. -/
theorem setup_spec (sz : Int) (files : Int → Option LHaloFile) (info : forest_info)
    (f0 lastfile t NT : Int) (st : forest_info) (hf0 : 0 ≤ f0)
    (hcounts : ∀ g, f0 ≤ g → g ≤ lastfile → 0 ≤ nforests_in_file files g)
    (h : setup_forests_io_lht_binary sz files info f0 lastfile t NT = .ok st) :
    st.totnforests = total_forests files f0 lastfile ∧
    st.nforests_this_task = nforests_this_task (total_forests files f0 lastfile) t NT ∧
    st.lht.nforests = nforests_this_task (total_forests files f0 lastfile) t NT ∧
    ∀ (i : Nat) (f : LHaloFile) (j : Nat),
      (i : Int) < lastfile - f0 + 1 → files (f0 + i) = some f →
      (j : Int) < f.totnforests →
      start_forestnum (total_forests files f0 lastfile) t NT
        ≤ forests_in_files (nforests_in_file files) f0 i + j →
      forests_in_files (nforests_in_file files) f0 i + j
        < end_forestnum (total_forests files f0 lastfile) t NT →
      st.lht.nhalos_per_forest
          (forests_in_files (nforests_in_file files) f0 i + j
            - start_forestnum (total_forests files f0 lastfile) t NT)
        = f.nhalos_per_forest.getD j 0 ∧
      st.lht.bytes_offset_for_forest
          (forests_in_files (nforests_in_file files) f0 i + j
            - start_forestnum (total_forests files f0 lastfile) t NT)
        = stored_offset sz f.totnforests f.nhalos_per_forest j ∧
      st.lht.fd
          (forests_in_files (nforests_in_file files) f0 i + j
            - start_forestnum (total_forests files f0 lastfile) t NT)
        = f.fd := by
  obtain ⟨hn, hNT, tab, T, fl, hcount, hF, hE, hproc, hst⟩ := setup_inv sz files info f0 lastfile t NT st h
  obtain ⟨hc1, hc2, hc3⟩ := count_forests_spec files _ _ _ _ _ _ hcount
  have hnZ : (((lastfile - f0 + 1).toNat : Nat) : Int) = lastfile - f0 + 1 :=
    Int.toNat_of_nonneg (by omega)
  have hnn : ∀ g, 0 ≤ tab g :=
    header_counts_nonneg files _ f0 tab T hcount (fun g h1 h2 => hcounts g h1 (by omega))
  have hc : ∀ i : Nat, (i : Int) ≤ lastfile - f0 + 1 →
      forests_in_files (nforests_in_file files) f0 i = forests_in_files tab f0 i := by
    intro i hi
    exact (forests_in_files_congr _ _ _ _ (fun g h1 h2 => (hc1 g h1 (by omega)).2.symm))
  have hT : T = total_forests files f0 lastfile := by
    unfold total_forests
    rw [hc3]
    simp
  rw [← hT]
  obtain ⟨_, s2, s3, s4, s5⟩ := scan_files_spec tab f0 (start_forestnum T t NT)
    (end_forestnum T t NT) (nforests_this_task T t NT) hf0 (lastfile - f0 + 1).toNat
  unfold scan_result at hF hE hproc hst
  generalize scan_files tab (start_forestnum T t NT) (end_forestnum T t NT)
    (nforests_this_task T t NT) (lastfile - f0 + 1).toNat f0 scan_init = sc
    at hF hE hproc hst s2 s3 s4 s5
  rcases s4 with ⟨hbad, _⟩ | ⟨iF, hiF, hFeq, hFt⟩
  · exact absurd hbad hF
  rcases s5 with ⟨hbad, _⟩ | ⟨iE, hiE, hEeq, hEt⟩
  · exact absurd hbad hE
  obtain ⟨_, p2, _, _⟩ := process_files_spec sz files tab sc _ _ _ _ _ hproc
  subst hst
  refine ⟨rfl, rfl, rfl, ?_⟩
  intro i f j hi hfi hj hS hEj
  rw [hc i (by omega)] at hS hEj ⊢
  have hlen : tab (f0 + (i : Int)) = f.totnforests := by
    rw [(hc1 _ (by omega) (by omega)).2]
    unfold nforests_in_file
    rw [hfi]
  have hsucc := forests_in_files_succ tab f0 i
  have hFt' := hFt
  have hEt' := hEt
  unfold start_test at hFt'
  unfold end_test at hEt'
  have hN : end_forestnum T t NT = start_forestnum T t NT + nforests_this_task T t NT := rfl
  have h1 : iF ≤ i := by
    by_contra hlt
    have := forests_in_files_mono tab f0 hnn (i + 1) iF (by omega)
    omega
  have h2 : i ≤ iE := by
    by_contra hlt
    have := forests_in_files_mono tab f0 hnn (iE + 1) i (by omega)
    omega
  have hm : i - iF < (sc.end_filenum - sc.start_filenum + 1).toNat := by
    rw [hFeq, hEeq]
    omega
  obtain ⟨f', hf', _, _, _, _, hval⟩ := p2 (i - iF) hm
  have hidx : sc.start_filenum + ((i - iF : Nat) : Int) = f0 + (i : Int) := by
    rw [hFeq]
    omega
  rw [hidx, hfi] at hf'
  cases hf'
  rw [hidx] at hval
  have hstart : sc.start_forestnum_to_process_per_file (f0 + (i : Int))
      = if i = iF then start_forestnum T t NT - forests_in_files tab f0 iF else 0 := by
    rw [s2 i (by omega)]
    exact start_in_file_eq tab f0 _ hnn iF i hFt
  have hnum : sc.num_forests_to_process_per_file (f0 + (i : Int))
      = (if i = iE then end_forestnum T t NT else forests_in_files tab f0 (i + 1))
        - (if i = iF then start_forestnum T t NT else forests_in_files tab f0 i) := by
    rw [s3 i (by omega)]
    exact num_in_file_eq tab f0 _ _ _ hnn hN iF iE i hFt hEt h1 h2
  have hproc_before := processed_before tab sc.num_forests_to_process_per_file f0
    (start_forestnum T t NT) (end_forestnum T t NT) (nforests_this_task T t NT) hnn hN iF iE
    hFt hEt (fun k hk => s3 k (by omega)) (i - iF) (by omega)
  rw [← hFeq] at hproc_before
  have hmono : iF < i → forests_in_files tab f0 (iF + 1) ≤ forests_in_files tab f0 i :=
    fun hlt => forests_in_files_mono tab f0 hnn _ _ (by omega)
  have hmonoE : i < iE → forests_in_files tab f0 (i + 1) ≤ forests_in_files tab f0 iE :=
    fun hlt => forests_in_files_mono tab f0 hnn _ _ (by omega)
  have hoff : wrap64 (4 + 4 + wrap64 (tab (f0 + (i : Int)) * 4))
      = wrap64 (4 + 4 + wrap64 (f.totnforests * 4)) := by rw [hlen]
  by_cases hiF' : i = iF
  · subst hiF'
    rw [if_pos rfl] at hstart hnum
    have hz : i - i = 0 := by omega
    rw [hz] at hproc_before hval
    rw [if_pos rfl] at hproc_before
    obtain ⟨v1, v2, v3⟩ := hval
      (forests_in_files tab f0 i + j - start_forestnum T t NT).toNat
      (by
        rw [hnum]
        split_ifs <;> omega)
    simp only [hproc_before, hstart, hoff] at v1 v2 v3
    have e1 : (0 : Int) + 0
        + (((forests_in_files tab f0 i + j - start_forestnum T t NT).toNat : Nat) : Int)
        = forests_in_files tab f0 i + j - start_forestnum T t NT := by omega
    have e2 : (start_forestnum T t NT - forests_in_files tab f0 i).toNat
        + (forests_in_files tab f0 i + j - start_forestnum T t NT).toNat = j := by omega
    simp only [e1, e2] at v1 v2 v3
    exact ⟨v1, v2, v3⟩
  · rw [if_neg hiF'] at hstart hnum
    have hlt : iF < i := by omega
    have := hmono hlt
    rw [if_neg (by omega : ¬ i - iF = 0)] at hproc_before
    have e0 : iF + (i - iF) = i := by omega
    rw [e0] at hproc_before
    obtain ⟨v1, v2, v3⟩ := hval j
      (by
        rw [hnum]
        split_ifs <;> omega)
    simp only [hproc_before, hstart, hoff] at v1 v2 v3
    have e1 : (0 : Int) + (forests_in_files tab f0 i - start_forestnum T t NT) + (j : Int)
        = forests_in_files tab f0 i + j - start_forestnum T t NT := by ring
    have e2 : (0 : Int).toNat + j = j := by simp
    simp only [e1, e2] at v1 v2 v3
    exact ⟨v1, v2, v3⟩

/-- What the per-file pass of a successful setup stores, on every input: for the `m`-th file
the task reads and every `l` below the count of forests read from it, the entries at the
task-local index `l` past the forests of the files before hold the halo count of the position
`start_forestnum_to_process_per_file + l` of that file, the byte offset `stored_offset` of
that position, and the descriptor of the file. -/
theorem setup_stores_positional (sz : Int) (files : Int → Option LHaloFile)
    (info : forest_info) (f0 lastfile t NT : Int) (st : forest_info) (hf0 : 0 ≤ f0)
    (h : setup_forests_io_lht_binary sz files info f0 lastfile t NT = .ok st) :
    ∃ (tab : Int → Int) (T : Int),
      count_forests files (lastfile - f0 + 1).toNat f0 (fun _ => 0) 0 = .ok (tab, T) ∧
      ∀ m l : Nat, (m : Int) < st.lht.numfiles →
        (l : Int) < (scan_result tab T t NT (lastfile - f0 + 1).toNat
            f0).num_forests_to_process_per_file
          ((scan_result tab T t NT (lastfile - f0 + 1).toNat f0).start_filenum + m) →
        ∃ f, files ((scan_result tab T t NT (lastfile - f0 + 1).toNat f0).start_filenum + m)
            = some f ∧
          st.lht.nhalos_per_forest
              (forests_in_files
                (scan_result tab T t NT (lastfile - f0 + 1).toNat
                  f0).num_forests_to_process_per_file
                (scan_result tab T t NT (lastfile - f0 + 1).toNat f0).start_filenum m + l)
            = f.nhalos_per_forest.getD
                (((scan_result tab T t NT (lastfile - f0 + 1).toNat
                    f0).start_forestnum_to_process_per_file
                  ((scan_result tab T t NT (lastfile - f0 + 1).toNat f0).start_filenum
                    + m)).toNat + l) 0 ∧
          st.lht.bytes_offset_for_forest
              (forests_in_files
                (scan_result tab T t NT (lastfile - f0 + 1).toNat
                  f0).num_forests_to_process_per_file
                (scan_result tab T t NT (lastfile - f0 + 1).toNat f0).start_filenum m + l)
            = stored_offset sz f.totnforests f.nhalos_per_forest
                (((scan_result tab T t NT (lastfile - f0 + 1).toNat
                    f0).start_forestnum_to_process_per_file
                  ((scan_result tab T t NT (lastfile - f0 + 1).toNat f0).start_filenum
                    + m)).toNat + l) ∧
          st.lht.fd
              (forests_in_files
                (scan_result tab T t NT (lastfile - f0 + 1).toNat
                  f0).num_forests_to_process_per_file
                (scan_result tab T t NT (lastfile - f0 + 1).toNat f0).start_filenum m + l)
            = f.fd := by
  obtain ⟨hn, hNT, tab, T, fl, hcount, hF, hE, hproc, hst⟩ :=
    setup_inv sz files info f0 lastfile t NT st h
  obtain ⟨hc1, _, _⟩ := count_forests_spec files _ _ _ _ _ _ hcount
  have hnZ : (((lastfile - f0 + 1).toNat : Nat) : Int) = lastfile - f0 + 1 :=
    Int.toNat_of_nonneg (by omega)
  refine ⟨tab, T, hcount, ?_⟩
  obtain ⟨_, _, _, s4, s5⟩ := scan_files_spec tab f0 (start_forestnum T t NT)
    (end_forestnum T t NT) (nforests_this_task T t NT) hf0 (lastfile - f0 + 1).toNat
  unfold scan_result at hF hE hproc hst ⊢
  generalize scan_files tab (start_forestnum T t NT) (end_forestnum T t NT)
    (nforests_this_task T t NT) (lastfile - f0 + 1).toNat f0 scan_init = sc
    at hF hE hproc hst s4 s5 ⊢
  rcases s4 with ⟨hbad, _⟩ | ⟨iF, hiF, hFeq, _⟩
  · exact absurd hbad hF
  rcases s5 with ⟨hbad, _⟩ | ⟨iE, hiE, hEeq, _⟩
  · exact absurd hbad hE
  obtain ⟨_, p2, _, _⟩ := process_files_spec sz files tab sc _ _ _ _ _ hproc
  subst hst
  intro m l hm hl
  have hm1 : (m : Int) < sc.end_filenum - sc.start_filenum + 1 := hm
  obtain ⟨f, hf, _, _, _, _, hval⟩ := p2 m (by omega)
  obtain ⟨v1, v2, v3⟩ := hval l hl
  have hlen : tab (sc.start_filenum + (m : Int)) = f.totnforests := by
    rw [(hc1 _ (by omega) (by omega)).2]
    unfold nforests_in_file
    rw [hf]
  rw [hlen] at v2
  simp only [zero_add] at v1 v2 v3
  exact ⟨f, hf, v1, v2, v3⟩

/-! ## Sufficient conditions for a successful setup -/

theorem exists_start_file (tot : Int → Int) (f0 S : Int) :
    ∀ n : Nat, 0 ≤ S → S < forests_in_files tot f0 n →
      ∃ i : Nat, i < n ∧ start_test tot f0 S i := by
  intro n
  induction n with
  | zero =>
    intro h0 h1
    have : forests_in_files tot f0 0 = 0 := rfl
    omega
  | succ k ih =>
    intro h0 h1
    by_cases hk : S < forests_in_files tot f0 k
    · obtain ⟨i, hi, ht⟩ := ih h0 hk
      exact ⟨i, by omega, ht⟩
    · exact ⟨k, by omega, ⟨by omega, h1⟩⟩

theorem exists_end_file (tot : Int → Int) (f0 E : Int) :
    ∀ n : Nat, 0 ≤ E → E ≤ forests_in_files tot f0 n → 0 < n →
      ∃ i : Nat, i < n ∧ end_test tot f0 E i := by
  intro n
  induction n with
  | zero =>
    intro _ _ h
    omega
  | succ k ih =>
    intro h0 h1 _
    by_cases hk : E ≤ forests_in_files tot f0 k
    · by_cases hk0 : k = 0
      · subst hk0
        have : forests_in_files tot f0 0 = 0 := rfl
        exact ⟨0, by omega, ⟨by omega, h1⟩⟩
      · obtain ⟨i, hi, ht⟩ := ih h0 hk (by omega)
        exact ⟨i, by omega, ht⟩
    · exact ⟨k, by omega, ⟨by omega, h1⟩⟩

theorem partition_bounds (T t NT : Int) (hT : 0 ≤ T) (ht0 : 0 ≤ t) (htN : t < NT) :
    0 ≤ start_forestnum T t NT ∧ 0 ≤ nforests_this_task T t NT
      ∧ end_forestnum T t NT ≤ T := by
  obtain ⟨hq, hr⟩ := tdiv_tmod_nonneg T NT (by omega) hT
  have hr0 : 0 ≤ T % NT := Int.emod_nonneg T (by omega)
  have hrN : T % NT < NT := Int.emod_lt_of_pos T (by omega)
  have hdm : NT * (T / NT) + T % NT = T := Int.ediv_add_emod T NT
  have hq0 : 0 ≤ T / NT := Int.ediv_nonneg hT (by omega)
  have hqt : 0 ≤ T / NT * t := mul_nonneg hq0 ht0
  have hqd : 0 ≤ T / NT * (NT - (t + 1)) := mul_nonneg hq0 (by omega)
  have hexp : T / NT * (NT - (t + 1)) = NT * (T / NT) - T / NT * t - T / NT := by ring
  unfold end_forestnum start_forestnum nforests_this_task
  rw [hq, hr]
  refine ⟨?_, ?_, ?_⟩ <;> split_ifs <;> omega

/-- Every file of the run can be opened, returns a valid descriptor and declares at least one
forest. -/
theorem setup_ok (sz : Int) (files : Int → Option LHaloFile) (info : forest_info)
    (f0 lastfile t NT : Int) (hf0 : 0 ≤ f0) (hlast : f0 ≤ lastfile)
    (hfiles : ∀ g, f0 ≤ g → g ≤ lastfile →
      ∃ f, files g = some f ∧ 0 ≤ f.fd ∧ 1 ≤ f.totnforests)
    (ht0 : 0 ≤ t) (htN : t < NT)
    (hown : 1 ≤ nforests_this_task (total_forests files f0 lastfile) t NT) :
    ∃ st, setup_forests_io_lht_binary sz files info f0 lastfile t NT = .ok st := by
  have hnZ : (((lastfile - f0 + 1).toNat : Nat) : Int) = lastfile - f0 + 1 :=
    Int.toNat_of_nonneg (by omega)
  obtain ⟨tab, T, hcount⟩ := count_forests_ok files (lastfile - f0 + 1).toNat f0 (fun _ => 0) 0
    (fun g h1 h2 => by
      obtain ⟨f, hf, _⟩ := hfiles g h1 (by omega)
      exact ⟨f, hf⟩)
  obtain ⟨hc1, hc2, hc3⟩ := count_forests_spec files _ _ _ _ _ _ hcount
  have hcounts : ∀ g, f0 ≤ g → g ≤ lastfile → 0 ≤ nforests_in_file files g := by
    intro g h1 h2
    obtain ⟨f, hf, _, hlen⟩ := hfiles g h1 h2
    unfold nforests_in_file
    rw [hf]
    show 0 ≤ f.totnforests
    omega
  have hnn : ∀ g, 0 ≤ tab g :=
    header_counts_nonneg files _ f0 tab T hcount (fun g h1 h2 => hcounts g h1 (by omega))
  have htab : ∀ i : Nat, (i : Int) < lastfile - f0 + 1 →
      ∃ f, files (f0 + i) = some f ∧ 0 ≤ f.fd ∧ 1 ≤ tab (f0 + i) := by
    intro i hi
    obtain ⟨f, hf, hfd, hlen⟩ := hfiles (f0 + i) (by omega) (by omega)
    refine ⟨f, hf, hfd, ?_⟩
    rw [(hc1 _ (by omega) (by omega)).2]
    unfold nforests_in_file
    rw [hf]
    exact hlen
  have hT : T = total_forests files f0 lastfile := by
    unfold total_forests
    rw [hc3]
    simp
  have hTtab : T = forests_in_files tab f0 (lastfile - f0 + 1).toNat := by
    rw [hc3, zero_add]
    exact forests_in_files_congr _ _ _ _ (fun g h1 h2 => (hc1 g h1 h2).2.symm)
  rw [← hT] at hown
  have hT0 : 0 ≤ T := by
    rw [hTtab]
    exact forests_in_files_nonneg _ _ _ (fun m _ => hnn _)
  obtain ⟨hS0, _, hET⟩ := partition_bounds T t NT hT0 ht0 htN
  have hN : end_forestnum T t NT = start_forestnum T t NT + nforests_this_task T t NT := rfl
  obtain ⟨_, s2, s3, s4, s5⟩ := scan_files_spec tab f0 (start_forestnum T t NT)
    (end_forestnum T t NT) (nforests_this_task T t NT) hf0 (lastfile - f0 + 1).toNat
  have hst_ex := exists_start_file tab f0 (start_forestnum T t NT) (lastfile - f0 + 1).toNat
    hS0 (by rw [← hTtab]; omega)
  have hen_ex := exists_end_file tab f0 (end_forestnum T t NT) (lastfile - f0 + 1).toNat
    (by omega) (by rw [← hTtab]; exact hET) (by omega)
  rcases s4 with ⟨_, hall⟩ | ⟨iF, hiF, hFeq, hFt⟩
  · obtain ⟨i, hi, hti⟩ := hst_ex
    exact absurd hti (hall i hi)
  rcases s5 with ⟨_, hall⟩ | ⟨iE, hiE, hEeq, hEt⟩
  · obtain ⟨i, hi, hti⟩ := hen_ex
    exact absurd hti (hall i hi)
  have hFt' := hFt
  have hEt' := hEt
  unfold start_test at hFt'
  unfold end_test at hEt'
  have hFE : iF ≤ iE := by
    have := forests_in_files_lt tab f0 hnn iF (iE + 1) (by omega)
    omega
  have hpb := processed_before tab
    (scan_files tab (start_forestnum T t NT) (end_forestnum T t NT) (nforests_this_task T t NT)
      (lastfile - f0 + 1).toNat f0 scan_init).num_forests_to_process_per_file
    f0 (start_forestnum T t NT) (end_forestnum T t NT) (nforests_this_task T t NT) hnn hN iF iE
    hFt hEt (fun k hk => s3 k (by omega))
  generalize hsc : scan_files tab (start_forestnum T t NT) (end_forestnum T t NT)
    (nforests_this_task T t NT) (lastfile - f0 + 1).toNat f0 scan_init = sc
    at s2 s3 hFeq hEeq hpb
  have hcnt : (sc.end_filenum - sc.start_filenum + 1).toNat = iE - iF + 1 := by
    rw [hFeq, hEeq]
    omega
  have hnumeq : ∀ i : Nat, iF ≤ i → i ≤ iE →
      sc.num_forests_to_process_per_file (f0 + (i : Int))
        = (if i = iE then end_forestnum T t NT else forests_in_files tab f0 (i + 1))
          - (if i = iF then start_forestnum T t NT else forests_in_files tab f0 i) := by
    intro i h1 h2
    rw [s3 i (by omega)]
    exact num_in_file_eq tab f0 _ _ _ hnn hN iF iE i hFt hEt h1 h2
  have hstarteq : ∀ i : Nat, iF ≤ i → i ≤ iE →
      sc.start_forestnum_to_process_per_file (f0 + (i : Int))
        = if i = iF then start_forestnum T t NT - forests_in_files tab f0 iF else 0 := by
    intro i h1 h2
    rw [s2 i (by omega)]
    exact start_in_file_eq tab f0 _ hnn iF i hFt
  have hproc : ∃ fl, process_files sz files tab sc (nforests_this_task T t NT)
      (sc.end_filenum - sc.start_filenum + 1).toNat sc.start_filenum
      { nhalos_per_forest := info.lht.nhalos_per_forest
        bytes_offset_for_forest := info.lht.bytes_offset_for_forest
        fd := info.lht.fd
        open_fds := info.lht.open_fds
        forestnhalos := 0
        nhalos_stores := []
        offset_stores := []
        fd_stores := [] } = .ok fl := by
    rw [hcnt]
    apply process_files_ok
    · intro m hm
      have hidx : sc.start_filenum + (m : Int) = f0 + ((iF + m : Nat) : Int) := by
        rw [hFeq]
        push_cast
        ring
      rw [hidx]
      obtain ⟨f, hf, hfd, hlen⟩ := htab (iF + m) (by omega)
      have hsucc := forests_in_files_succ tab f0 (iF + m)
      have hmono1 : iF + m < iE →
          forests_in_files tab f0 (iF + m + 1) ≤ forests_in_files tab f0 iE :=
        fun h => forests_in_files_mono tab f0 hnn _ _ (by omega)
      have hmono2 : iF < iF + m →
          forests_in_files tab f0 (iF + 1) ≤ forests_in_files tab f0 (iF + m) :=
        fun h => forests_in_files_mono tab f0 hnn _ _ (by omega)
      refine ⟨f, hf, hfd, ?_, ?_⟩
      · rw [hstarteq _ (by omega) (by omega)]
        split_ifs with h1
        · have : m = 0 := by omega
          subst this
          simp only [add_zero] at hsucc hlen ⊢
          omega
        · omega
      · rw [hnumeq _ (by omega) (by omega)]
        split_ifs with h1 h2 h2
        · have : m = 0 := by omega
          subst this
          simp only [add_zero] at hsucc hlen h1 ⊢
          subst h1
          omega
        · have := hmono2 (by omega)
          subst h1
          omega
        · have : m = 0 := by omega
          subst this
          simp only [add_zero] at hsucc hlen hmono1 ⊢
          have := hmono1 (by omega)
          omega
        · have := hmono1 (by omega)
          omega
    · intro m hm hg
      have : m = 0 := by omega
      subst this
      rfl
    · show (0 : Int) + forests_in_files sc.num_forests_to_process_per_file sc.start_filenum
          (iE - iF + 1) ≤ nforests_this_task T t NT
      rw [hFeq, forests_in_files_succ, hpb (iE - iF) (by omega)]
      have hidx : f0 + (iF : Int) + ((iE - iF : Nat) : Int) = f0 + (iE : Int) := by omega
      rw [hidx, hnumeq iE hFE (le_refl _), if_pos rfl]
      have e0 : iF + (iE - iF) = iE := by omega
      rw [e0]
      have hmono2 : iF < iE → forests_in_files tab f0 (iF + 1) ≤ forests_in_files tab f0 iE :=
        fun h => forests_in_files_mono tab f0 hnn _ _ (by omega)
      split_ifs with h1 h2 h2
      · omega
      · omega
      · omega
      · have := hmono2 (by omega)
        omega
  obtain ⟨fl, hfl⟩ := hproc
  unfold scan_init at hsc
  unfold setup_forests_io_lht_binary
  simp only
  rw [if_neg (by omega), hcount]
  simp only
  rw [if_neg (by omega), hsc, if_neg (by rw [hFeq, hEeq]; omega), hfl]
  exact ⟨_, rfl⟩

/-- The header counts of `two_files` are not negative. -/
theorem two_files_counts (g : Int) (h0 : 0 ≤ g) (h1 : g ≤ 1) :
    0 ≤ nforests_in_file two_files g := by
  have hg : g = 0 ∨ g = 1 := by omega
  rcases hg with rfl | rfl <;> decide

/-! ## Byte offsets in closed form -/

theorem byte_offset_after_eq (sz : Int) (table : List Int) (b : Int) (j : Nat) :
    byte_offset_after sz table (wrap64 b) j
      = wrap64 (b + sz * ∑ m in Finset.range j, table.getD m 0) := by
  induction j with
  | zero => simp [byte_offset_after]
  | succ k ih =>
    have e : byte_offset_after sz table (wrap64 b) (k + 1)
        = wrap64 (byte_offset_after sz table (wrap64 b) k + wrap64 (table.getD k 0 * sz)) := rfl
    rw [e, ih, Finset.sum_range_succ]
    unfold wrap64
    rw [← Int.add_emod]
    congr 1
    ring

theorem stored_offset_eq (sz c : Int) (table : List Int) (j : Nat) :
    stored_offset sz c table j
      = toInt64 (8 + 4 * c + sz * ∑ m in Finset.range j, table.getD m 0) := by
  unfold stored_offset
  rw [byte_offset_after_eq]
  unfold toInt64 wrap64
  have e : ((4 + 4 + c * 4 % 2 ^ 64
        + sz * ∑ m in Finset.range j, table.getD m 0) % 2 ^ 64)
      = (8 + 4 * c + sz * ∑ m in Finset.range j, table.getD m 0) % 2 ^ 64 := by
    omega
  rw [e, Int.emod_emod_of_dvd _ (dvd_refl _)]

theorem toInt64_of_fits (x : Int) (h1 : -2 ^ 63 ≤ x) (h2 : x < 2 ^ 63) : toInt64 x = x := by
  unfold toInt64
  split_ifs <;> omega

/-! ## Claims on the setup of the binary reader -/

/-- C1. For `NTasks ≥ 1` and `T ≥ 0` the ranges `[start_forestnum, end_forestnum)` of the tasks
`0 .. NTasks-1` tile `[0, T)` in task order: instantiated at `T = 8`, `NTasks = 3`. -/
theorem partition_tiles_witness :
    (1 : Int) ≤ 3 ∧ (0 : Int) ≤ 8 ∧ start_forestnum 8 0 3 = 0 ∧ end_forestnum 8 2 3 = 8 :=
  ⟨by decide, by decide, (partition_tiles 8 3 (by decide) (by decide)).1,
    (partition_tiles 8 3 (by decide) (by decide)).2.2.1⟩

/-- C2 (as stated, refuted). On two files declaring 5 and 3 forests and two tasks, task 0
completes setup with `totnforests = 8` but owns 4 forests, the range `[0, 4)`, not `[0, 5)`,
and task 1 starts at forest 4, not 5. -/
theorem two_files_not_five_three :
    ∃ st, setup_forests_io_lht_binary 104 two_files blank_info 0 1 0 2 = .ok st
      ∧ st.totnforests = 8 ∧ st.nforests_this_task = 4
      ∧ ¬ (start_forestnum st.totnforests 0 2 = 0 ∧ end_forestnum st.totnforests 0 2 = 5
            ∧ start_forestnum st.totnforests 1 2 = 5 ∧ end_forestnum st.totnforests 1 2 = 8) :=
  ⟨forest_info_of (setup_forests_io_lht_binary 104 two_files blank_info 0 1 0 2) blank_info,
    rfl, by decide, by decide, by decide⟩

/-- C2 (amended). For any two input files 0 and 1 whose headers declare 5 and 3 forests and
that can be opened, and `NTasks = 2`: setup succeeds on both tasks with `totnforests = 8` and
4 forests for the task; task 0 owns the global range `[0, 4)` and task 1 the range `[4, 8)`. -/
theorem two_files_four_four (sz : Int) (files : Int → Option LHaloFile)
    (info : forest_info) (f0 f1 : LHaloFile)
    (h0 : files 0 = some f0) (h1 : files 1 = some f1)
    (hl0 : f0.totnforests = 5) (hl1 : f1.totnforests = 3)
    (hfd0 : 0 ≤ f0.fd) (hfd1 : 0 ≤ f1.fd) :
    (∃ st, setup_forests_io_lht_binary sz files info 0 1 0 2 = .ok st
        ∧ st.totnforests = 8 ∧ st.nforests_this_task = 4) ∧
    (∃ st, setup_forests_io_lht_binary sz files info 0 1 1 2 = .ok st
        ∧ st.totnforests = 8 ∧ st.nforests_this_task = 4) ∧
    start_forestnum 8 0 2 = 0 ∧ end_forestnum 8 0 2 = 4 ∧
    start_forestnum 8 1 2 = 4 ∧ end_forestnum 8 1 2 = 8 := by
  have hT : total_forests files 0 1 = 8 := by
    have e2 : (1 - 0 + 1 : Int).toNat = 2 := by decide
    unfold total_forests
    rw [e2]
    simp [forests_in_files, nforests_in_file, h0, h1, hl0, hl1]
  have hfiles : ∀ g : Int, 0 ≤ g → g ≤ 1 →
      ∃ f, files g = some f ∧ 0 ≤ f.fd ∧ 1 ≤ f.totnforests := by
    intro g hg0 hg1
    have : g = 0 ∨ g = 1 := by omega
    rcases this with rfl | rfl
    · exact ⟨f0, h0, hfd0, by omega⟩
    · exact ⟨f1, h1, hfd1, by omega⟩
  have hcounts : ∀ g : Int, 0 ≤ g → g ≤ 1 → 0 ≤ nforests_in_file files g := by
    intro g hg0 hg1
    have : g = 0 ∨ g = 1 := by omega
    rcases this with rfl | rfl
    · simp only [nforests_in_file, h0]
      omega
    · simp only [nforests_in_file, h1]
      omega
  have hn0 : nforests_this_task 8 0 2 = 4 := by decide
  have hn1 : nforests_this_task 8 1 2 = 4 := by decide
  refine ⟨?_, ?_, by decide, by decide, by decide, by decide⟩
  · obtain ⟨st, hst⟩ := setup_ok sz files info 0 1 0 2 (le_refl _) (by omega) hfiles
      (le_refl _) (by omega) (by rw [hT, hn0]; omega)
    obtain ⟨s1, s2, _, _⟩ := setup_spec sz files info 0 1 0 2 st (le_refl _) hcounts hst
    rw [hT] at s1 s2
    exact ⟨st, hst, s1, by rw [s2, hn0]⟩
  · obtain ⟨st, hst⟩ := setup_ok sz files info 0 1 1 2 (le_refl _) (by omega) hfiles
      (by omega) (by omega) (by rw [hT, hn1]; omega)
    obtain ⟨s1, s2, _, _⟩ := setup_spec sz files info 0 1 1 2 st (le_refl _) hcounts hst
    rw [hT] at s1 s2
    exact ⟨st, hst, s1, by rw [s2, hn1]⟩

/-- C2 (amended), instantiated at the files `two_files`. -/
theorem two_files_four_four_witness :
    (∃ st, setup_forests_io_lht_binary 104 two_files blank_info 0 1 0 2 = .ok st
        ∧ st.totnforests = 8 ∧ st.nforests_this_task = 4) ∧
    (∃ st, setup_forests_io_lht_binary 104 two_files blank_info 0 1 1 2 = .ok st
        ∧ st.totnforests = 8 ∧ st.nforests_this_task = 4) ∧
    start_forestnum 8 0 2 = 0 ∧ end_forestnum 8 0 2 = 4 ∧
    start_forestnum 8 1 2 = 4 ∧ end_forestnum 8 1 2 = 8 :=
  two_files_four_four 104 two_files blank_info ⟨3, 5, [2, 1, 4, 1, 3]⟩ ⟨4, 3, [5, 6, 7]⟩ rfl rfl
    rfl rfl (by decide) (by decide)

/-- C3. After a successful setup, on every input, each byte offset the per-file pass stores
(for the `m`-th file the task reads and the `l`-th forest read from it) is `stored_offset` of
the header of that file and of the position `start_forestnum_to_process_per_file + l` the
forest sits at.  When no header count is negative, so that the global forest numbers name
the forests: the byte offset stored for an owned forest, the one at position `j` of the
`i`-th file, is a function of that file's header (the count `c` and the table) and of `j`
alone (`stored_offset`): two configurations `(ThisTask, NTasks)` that own the forest store
the same value; and the value is `8 + 4*c + sizeof(struct halo_data) * (h_0 + .. +
h_{j-1})` whenever that number is representable in the signed 64-bit offset type. -/
theorem bytes_offset_positional (sz : Int) (files : Int → Option LHaloFile)
    (info1 info2 : forest_info) (firstfile lastfile t1 N1 t2 N2 : Int)
    (st1 st2 : forest_info) (hf0 : 0 ≤ firstfile)
    (h1 : setup_forests_io_lht_binary sz files info1 firstfile lastfile t1 N1 = .ok st1)
    (h2 : setup_forests_io_lht_binary sz files info2 firstfile lastfile t2 N2 = .ok st2)
    (i : Nat) (f : LHaloFile) (j : Nat)
    (hi : (i : Int) < lastfile - firstfile + 1) (hf : files (firstfile + i) = some f)
    (hj : (j : Int) < f.totnforests)
    (k1 k2 : Int)
    (hk1 : 0 ≤ k1 ∧ k1 < st1.nforests_this_task)
    (hg1 : start_forestnum (total_forests files firstfile lastfile) t1 N1 + k1
      = forests_in_files (nforests_in_file files) firstfile i + j)
    (hk2 : 0 ≤ k2 ∧ k2 < st2.nforests_this_task)
    (hg2 : start_forestnum (total_forests files firstfile lastfile) t2 N2 + k2
      = forests_in_files (nforests_in_file files) firstfile i + j) :
    (∃ (tab : Int → Int) (T : Int),
      count_forests files (lastfile - firstfile + 1).toNat firstfile (fun _ => 0) 0
        = .ok (tab, T) ∧
      ∀ m l : Nat, (m : Int) < st1.lht.numfiles →
        (l : Int) < (scan_result tab T t1 N1 (lastfile - firstfile + 1).toNat
            firstfile).num_forests_to_process_per_file
          ((scan_result tab T t1 N1 (lastfile - firstfile + 1).toNat firstfile).start_filenum
            + m) →
        ∃ g, files
            ((scan_result tab T t1 N1 (lastfile - firstfile + 1).toNat firstfile).start_filenum
              + m) = some g ∧
          st1.lht.bytes_offset_for_forest
              (forests_in_files
                (scan_result tab T t1 N1 (lastfile - firstfile + 1).toNat
                  firstfile).num_forests_to_process_per_file
                (scan_result tab T t1 N1 (lastfile - firstfile + 1).toNat
                  firstfile).start_filenum m + l)
            = stored_offset sz g.totnforests g.nhalos_per_forest
                (((scan_result tab T t1 N1 (lastfile - firstfile + 1).toNat
                    firstfile).start_forestnum_to_process_per_file
                  ((scan_result tab T t1 N1 (lastfile - firstfile + 1).toNat
                    firstfile).start_filenum + m)).toNat + l)) ∧
    ((∀ g, firstfile ≤ g → g ≤ lastfile → 0 ≤ nforests_in_file files g) →
      st1.lht.bytes_offset_for_forest k1
        = stored_offset sz f.totnforests f.nhalos_per_forest j ∧
      st1.lht.bytes_offset_for_forest k1 = st2.lht.bytes_offset_for_forest k2 ∧
      (-2 ^ 63 ≤ 8 + 4 * f.totnforests
            + sz * ∑ m in Finset.range j, f.nhalos_per_forest.getD m 0 →
        8 + 4 * f.totnforests
            + sz * ∑ m in Finset.range j, f.nhalos_per_forest.getD m 0 < 2 ^ 63 →
        st1.lht.bytes_offset_for_forest k1
          = 8 + 4 * f.totnforests
            + sz * ∑ m in Finset.range j, f.nhalos_per_forest.getD m 0)) := by
  refine ⟨?_, ?_⟩
  · obtain ⟨tab, T, hcount, hall⟩ :=
      setup_stores_positional sz files info1 firstfile lastfile t1 N1 st1 hf0 h1
    refine ⟨tab, T, hcount, ?_⟩
    intro m l hm hl
    obtain ⟨g, hg, _, v2, _⟩ := hall m l hm hl
    exact ⟨g, hg, v2⟩
  intro hcounts
  obtain ⟨_, a2, _, a4⟩ := setup_spec sz files info1 firstfile lastfile t1 N1 st1 hf0 hcounts h1
  obtain ⟨_, b2, _, b4⟩ := setup_spec sz files info2 firstfile lastfile t2 N2 st2 hf0 hcounts h2
  have hE : ∀ T t N, end_forestnum T t N = start_forestnum T t N + nforests_this_task T t N :=
    fun _ _ _ => rfl
  obtain ⟨_, u, _⟩ := a4 i f j hi hf hj (by omega) (by rw [hE, ← a2]; omega)
  obtain ⟨_, v, _⟩ := b4 i f j hi hf hj (by omega) (by rw [hE, ← b2]; omega)
  have e1 : forests_in_files (nforests_in_file files) firstfile i + (j : Int)
      - start_forestnum (total_forests files firstfile lastfile) t1 N1 = k1 := by omega
  have e2 : forests_in_files (nforests_in_file files) firstfile i + (j : Int)
      - start_forestnum (total_forests files firstfile lastfile) t2 N2 = k2 := by omega
  rw [e1] at u
  rw [e2] at v
  refine ⟨u, by rw [u, v], ?_⟩
  intro hlo hhi
  rw [u, stored_offset_eq, toInt64_of_fits _ hlo hhi]

/-- C3, instantiated: the second forest of file 1 of `two_files` (global forest 6) is owned by
task 1 of 2 as local forest 2 and by task 2 of 3 as local forest 0; both store offset 540. -/
theorem bytes_offset_positional_witness :
    (forest_info_of (setup_forests_io_lht_binary 104 two_files blank_info 0 1 1 2)
        blank_info).lht.bytes_offset_for_forest 2 = stored_offset 104 3 [5, 6, 7] 1 ∧
    (forest_info_of (setup_forests_io_lht_binary 104 two_files blank_info 0 1 1 2)
        blank_info).lht.bytes_offset_for_forest 2
      = (forest_info_of (setup_forests_io_lht_binary 104 two_files blank_info 0 1 2 3)
        blank_info).lht.bytes_offset_for_forest 0 ∧
    (forest_info_of (setup_forests_io_lht_binary 104 two_files blank_info 0 1 1 2)
        blank_info).lht.bytes_offset_for_forest 2 = 540 := by
  have h := bytes_offset_positional 104 two_files blank_info blank_info 0 1 1 2 2 3
    (forest_info_of (setup_forests_io_lht_binary 104 two_files blank_info 0 1 1 2) blank_info)
    (forest_info_of (setup_forests_io_lht_binary 104 two_files blank_info 0 1 2 3) blank_info)
    (by decide) rfl rfl 1 ⟨4, 3, [5, 6, 7]⟩ 1 (by decide) rfl (by decide) 2 0
    (by decide) (by decide) (by decide) (by decide)
  have h := h.2 two_files_counts
  refine ⟨h.1, h.2.1, ?_⟩
  have h3 := h.2.2 (by decide) (by decide)
  rw [h3]
  decide

/-! ## Global forest numbers and the concatenated header tables -/

theorem header_table_length (f : LHaloFile) (h : 0 ≤ f.totnforests) :
    ((header_table f).length : Int) = f.totnforests := by
  unfold header_table
  rw [List.length_map, List.length_range]
  omega

theorem header_table_getD (f : LHaloFile) (j : Nat) (hj : (j : Int) < f.totnforests) :
    (header_table f).getD j 0 = f.nhalos_per_forest.getD j 0 := by
  have hlt : j < (header_table f).length := by
    unfold header_table
    rw [List.length_map, List.length_range]
    omega
  rw [List.getD_eq_getElem _ _ hlt]
  unfold header_table
  rw [List.getElem_map, List.getElem_range]

theorem all_nhalos_length (files : Int → Option LHaloFile) (f0 : Int) (n : Nat)
    (hnn : ∀ m : Nat, m < n → 0 ≤ nforests_in_file files (f0 + m)) :
    ((all_nhalos files f0 n).length : Int) = forests_in_files (nforests_in_file files) f0 n := by
  induction n with
  | zero => rfl
  | succ k ih =>
    have e : all_nhalos files f0 (k + 1) = all_nhalos files f0 k ++
        (match files (f0 + k) with
          | some f => header_table f
          | none => []) := rfl
    have hk := hnn k (by omega)
    rw [e, List.length_append, forests_in_files_succ, Nat.cast_add,
      ih (fun m hm => hnn m (by omega))]
    unfold nforests_in_file at hk ⊢
    cases hf : files (f0 + (k : Int)) with
    | none => rfl
    | some f =>
      rw [hf] at hk
      simp only
      rw [header_table_length f hk]

theorem locate_forest (files : Int → Option LHaloFile) (f0 : Int) :
    ∀ (n g : Nat), (∀ m : Nat, m < n → 0 ≤ nforests_in_file files (f0 + m)) →
      (g : Int) < forests_in_files (nforests_in_file files) f0 n →
      ∃ (i : Nat) (f : LHaloFile) (j : Nat), i < n ∧ files (f0 + i) = some f ∧
        (j : Int) < f.totnforests ∧
        forests_in_files (nforests_in_file files) f0 i + j = g ∧
        (all_nhalos files f0 n).getD g 0 = f.nhalos_per_forest.getD j 0 := by
  intro n
  induction n with
  | zero =>
    intro g _ hg
    have : forests_in_files (nforests_in_file files) f0 0 = 0 := rfl
    omega
  | succ k ih =>
    intro g hnn hg
    have e : all_nhalos files f0 (k + 1) = all_nhalos files f0 k ++
        (match files (f0 + k) with
          | some f => header_table f
          | none => []) := rfl
    have hlen := all_nhalos_length files f0 k (fun m hm => hnn m (by omega))
    by_cases hlt : (g : Int) < forests_in_files (nforests_in_file files) f0 k
    · obtain ⟨i, f, j, hi, hf, hj, hsum, hget⟩ := ih g (fun m hm => hnn m (by omega)) hlt
      refine ⟨i, f, j, by omega, hf, hj, hsum, ?_⟩
      rw [e, List.getD_append _ _ _ _ (by omega)]
      exact hget
    · rw [forests_in_files_succ] at hg
      cases hfk : files (f0 + (k : Int)) with
      | none =>
        have : nforests_in_file files (f0 + (k : Int)) = 0 := by
          unfold nforests_in_file
          rw [hfk]
        omega
      | some f =>
        have hnf : nforests_in_file files (f0 + (k : Int)) = f.totnforests := by
          unfold nforests_in_file
          rw [hfk]
        have hjlt : ((g - (all_nhalos files f0 k).length : Nat) : Int) < f.totnforests := by
          omega
        refine ⟨k, f, g - (all_nhalos files f0 k).length, by omega, hfk, hjlt, by omega, ?_⟩
        rw [e, hfk, List.getD_append_right _ _ _ _ (by omega)]
        simp only
        exact header_table_getD f _ hjlt

/-- After a successful setup on files whose header counts are not negative, for every
task-local forest id `k` of the task,
`nhalos_per_forest[k]` is the halo count the headers declare for global forest
`start_forestnum + k` (the entry of that number in the header tables laid end to end, which is
entry `j` of the table of the file holding the forest, whose descriptor is `fd[k]`); and
`load_forest_lht_binary(k)`, when the stored descriptor is positive and the stored offset is
not negative (the tests of lines 246 and 252), returns exactly that count and issues exactly
one read, of `count * sizeof(struct halo_data)` bytes (the product being a `size_t`) at
`bytes_offset_for_forest[k]` on `fd[k]`. -/
theorem load_returns_declared_count {β : Type} (sz : Int) (mypread : Int → Int → Int → β)
    (files : Int → Option LHaloFile) (info : forest_info) (firstfile lastfile t NT : Int)
    (st : forest_info) (hf0 : 0 ≤ firstfile) (ht0 : 0 ≤ t) (htN : t < NT)
    (hcounts : ∀ g, firstfile ≤ g → g ≤ lastfile → 0 ≤ nforests_in_file files g)
    (h : setup_forests_io_lht_binary sz files info firstfile lastfile t NT = .ok st)
    (k : Int) (hk0 : 0 ≤ k) (hk : k < st.nforests_this_task) :
    st.lht.nhalos_per_forest k
      = (all_nhalos files firstfile (lastfile - firstfile + 1).toNat).getD
          (start_forestnum (total_forests files firstfile lastfile) t NT + k).toNat 0 ∧
    (∃ (i : Nat) (f : LHaloFile) (j : Nat),
      (i : Int) < lastfile - firstfile + 1 ∧ files (firstfile + i) = some f ∧
      (j : Int) < f.totnforests ∧
      forests_in_files (nforests_in_file files) firstfile i + j
        = start_forestnum (total_forests files firstfile lastfile) t NT + k ∧
      st.lht.nhalos_per_forest k = f.nhalos_per_forest.getD j 0 ∧
      st.lht.fd k = f.fd) ∧
    (0 < st.lht.fd k → 0 ≤ st.lht.bytes_offset_for_forest k →
      0 ≤ st.lht.nhalos_per_forest k * sz → st.lht.nhalos_per_forest k * sz < 2 ^ 64 →
      (load_forest_lht_binary sz mypread k st).status = .ok (st.lht.nhalos_per_forest k) ∧
      (load_forest_lht_binary sz mypread k st).reads
        = [⟨st.lht.fd k, st.lht.nhalos_per_forest k * sz, st.lht.bytes_offset_for_forest k⟩]) := by
  obtain ⟨_, a2, a3, a4⟩ := setup_spec sz files info firstfile lastfile t NT st hf0 hcounts h
  have hnZ : (((lastfile - firstfile + 1).toNat : Nat) : Int) = lastfile - firstfile + 1 := by
    obtain ⟨hn, _⟩ := setup_inv sz files info firstfile lastfile t NT st h
    exact Int.toNat_of_nonneg (by omega)
  have hcn : ∀ m : Nat, m < (lastfile - firstfile + 1).toNat →
      0 ≤ nforests_in_file files (firstfile + m) :=
    fun m hm => hcounts _ (by omega) (by omega)
  have hT0 : 0 ≤ total_forests files firstfile lastfile :=
    forests_in_files_nonneg _ _ _ hcn
  obtain ⟨hS0, _, hET⟩ := partition_bounds (total_forests files firstfile lastfile) t NT hT0 ht0 htN
  have hE : end_forestnum (total_forests files firstfile lastfile) t NT
      = start_forestnum (total_forests files firstfile lastfile) t NT
        + nforests_this_task (total_forests files firstfile lastfile) t NT := rfl
  have hg : (((start_forestnum (total_forests files firstfile lastfile) t NT + k).toNat : Nat) : Int)
      = start_forestnum (total_forests files firstfile lastfile) t NT + k :=
    Int.toNat_of_nonneg (by omega)
  obtain ⟨i, f, j, hi, hf, hj, hsum, hget⟩ := locate_forest files firstfile
    (lastfile - firstfile + 1).toNat
    (start_forestnum (total_forests files firstfile lastfile) t NT + k).toNat hcn
    (by
      rw [hg]
      have hTdef : total_forests files firstfile lastfile
          = forests_in_files (nforests_in_file files) firstfile
            (lastfile - firstfile + 1).toNat := rfl
      omega)
  rw [hg] at hsum
  obtain ⟨v1, _, v3⟩ := a4 i f j (by omega) hf hj (by omega) (by omega)
  have e1 : forests_in_files (nforests_in_file files) firstfile i + (j : Int)
      - start_forestnum (total_forests files firstfile lastfile) t NT = k := by omega
  rw [e1] at v1 v3
  refine ⟨by rw [v1, hget], ⟨i, f, j, by omega, hf, hj, hsum, v1, v3⟩, ?_⟩
  intro hfd hoff hlo hhi
  have hw : wrap64 (sz * st.lht.nhalos_per_forest k) = st.lht.nhalos_per_forest k * sz := by
    unfold wrap64
    rw [mul_comm]
    exact Int.emod_eq_of_lt hlo hhi
  unfold load_forest_lht_binary
  simp only
  rw [if_neg (by rw [a3, ← a2]; omega), if_neg (by omega), if_neg (by omega), hw]
  exact ⟨rfl, rfl⟩

/-- The same, instantiated: task 1 of 2 on `two_files`, local forest 1 (global forest 5, the first
forest of file 1, 5 halos, descriptor 4, byte offset 20). -/
theorem load_returns_declared_count_witness :
    (forest_info_of (setup_forests_io_lht_binary 104 two_files blank_info 0 1 1 2)
        blank_info).lht.nhalos_per_forest 1 = 5 ∧
    (load_forest_lht_binary 104 (fun _ _ _ => ()) 1
      (forest_info_of (setup_forests_io_lht_binary 104 two_files blank_info 0 1 1 2)
        blank_info)).status = .ok 5 ∧
    (load_forest_lht_binary 104 (fun _ _ _ => ()) 1
      (forest_info_of (setup_forests_io_lht_binary 104 two_files blank_info 0 1 1 2)
        blank_info)).reads = [⟨4, 520, 20⟩] := by
  have h := load_returns_declared_count 104 (fun _ _ _ => ()) two_files blank_info 0 1 1 2
    (forest_info_of (setup_forests_io_lht_binary 104 two_files blank_info 0 1 1 2) blank_info)
    (by decide) (by decide) (by decide) two_files_counts rfl 1 (by decide) (by decide)
  obtain ⟨h1, _, h3⟩ := h
  obtain ⟨h4, h5⟩ := h3 (by decide) (by decide) (by decide) (by decide)
  refine ⟨?_, ?_, ?_⟩
  · rw [h1]
    decide
  · rw [h4]
    exact congrArg Except.ok (by rw [h1]; decide)
  · rw [h5]
    decide

/-- C4 (the code at the failing input). `open` may hand out the descriptor 0, which the test
`fd < 0` of line 170 of the setup accepts: on `zero_fd_file` (one file of 2 forests with the
halo counts 5 and 6) the setup of task 0 of 1 succeeds and stores for the forest 0 the
declared halo count 5, a byte offset that is not negative and the descriptor 0; then
`load_forest_lht_binary(0)` does not return the count: the test `fd <= 0` of line 246 ends it
with `INVALID_FILE_POINTER`, and no read is issued. -/
theorem load_refuses_descriptor_zero :
    ∃ st, setup_forests_io_lht_binary 104 zero_fd_file blank_info 0 0 0 1 = .ok st ∧
      st.nforests_this_task = 2 ∧ st.lht.nhalos_per_forest 0 = 5 ∧ st.lht.fd 0 = 0 ∧
      st.lht.bytes_offset_for_forest 0 = 16 ∧
      (load_forest_lht_binary 104 (fun _ _ _ => ()) 0 st).status
        = .error .INVALID_FILE_POINTER ∧
      (load_forest_lht_binary 104 (fun _ _ _ => ()) 0 st).reads = [] ∧
      (load_forest_lht_binary 104 (fun _ _ _ => ()) 0 st).halos = none :=
  ⟨forest_info_of (setup_forests_io_lht_binary 104 zero_fd_file blank_info 0 0 0 1) blank_info,
    rfl, by decide, by decide, by decide, by decide, by rfl, by decide, by rfl⟩

/-! ## Claims on `load_forest_lht_binary` -/

theorem load_keeps_forests_info {β : Type} (sz : Int) (mypread : Int → Int → Int → β)
    (forestnr : Int) (info : forest_info) :
    (load_forest_lht_binary sz mypread forestnr info).forests_info = info := by
  unfold load_forest_lht_binary
  simp only
  split_ifs <;> rfl

theorem load_forests_keeps_forests_info {β : Type} (sz : Int) (mypread : Int → Int → Int → β) :
    ∀ (ids : List Int) (info : forest_info), load_forests sz mypread ids info = info := by
  intro ids
  induction ids with
  | nil =>
    intro info
    rfl
  | cons a rest ih =>
    intro info
    unfold load_forests
    rw [load_keeps_forests_info, ih]

/-- C5. `load_forest_lht_binary` leaves every field of `forests_info` unchanged, and so does
any run of calls; hence, the file contents (`mypread`) being fixed, a call for `forestnr` made
after any calls `before`, and a second call for it made after any further calls `between`,
return the same value and hand back the same records. -/
theorem load_idempotent {β : Type} (sz : Int) (mypread : Int → Int → Int → β)
    (forestnr : Int) (info : forest_info) (before between : List Int) :
    (load_forest_lht_binary sz mypread forestnr info).forests_info = info ∧
    load_forests sz mypread before info = info ∧
    (load_forest_lht_binary sz mypread forestnr
        (load_forests sz mypread between
          (load_forest_lht_binary sz mypread forestnr
            (load_forests sz mypread before info)).forests_info)).status
      = (load_forest_lht_binary sz mypread forestnr
          (load_forests sz mypread before info)).status ∧
    (load_forest_lht_binary sz mypread forestnr
        (load_forests sz mypread between
          (load_forest_lht_binary sz mypread forestnr
            (load_forests sz mypread before info)).forests_info)).halos
      = (load_forest_lht_binary sz mypread forestnr
          (load_forests sz mypread before info)).halos := by
  refine ⟨load_keeps_forests_info sz mypread forestnr info,
    load_forests_keeps_forests_info sz mypread before info, ?_, ?_⟩ <;>
  · rw [load_forests_keeps_forests_info sz mypread before info,
      load_keeps_forests_info sz mypread forestnr info,
      load_forests_keeps_forests_info sz mypread between info]

/-- The statuses of `load_forest_lht_binary`: the partition test looks at the upper end only,
then the descriptor and the offset are tested. -/
theorem load_status {β : Type} (sz : Int) (mypread : Int → Int → Int → β)
    (forestnr : Int) (info : forest_info) :
    (load_forest_lht_binary sz mypread forestnr info).status
      = if forestnr ≥ info.lht.nforests then .error .INVALID_MEMORY_ACCESS_REQUESTED
        else if info.lht.fd forestnr ≤ 0 then .error .INVALID_FILE_POINTER
        else if info.lht.bytes_offset_for_forest forestnr < 0 then .error .FILE_READ_ERROR
        else .ok (info.lht.nhalos_per_forest forestnr) := by
  unfold load_forest_lht_binary
  simp only
  split_ifs <;> rfl

/-- C6 (the code at the failing inputs). With two forests on the task, the call for forest
`-1` is not refused: it reads the three per-forest arrays at index `-1`, returns the halo count
found there and issues a read; the call for forest `2`, the first number past the partition,
is refused with `INVALID_MEMORY_ACCESS_REQUESTED` only after `nhalos_per_forest` was read at
index `2`. -/
theorem load_outside_partition :
    (load_forest_lht_binary 104 (fun _ _ _ => ()) (-1) uniform_info).status = .ok 1 ∧
    (load_forest_lht_binary 104 (fun _ _ _ => ()) (-1) uniform_info).indexed = [-1, -1, -1] ∧
    (load_forest_lht_binary 104 (fun _ _ _ => ()) (-1) uniform_info).reads = [⟨3, 104, 16⟩] ∧
    (load_forest_lht_binary 104 (fun _ _ _ => ()) 2 uniform_info).status
      = .error .INVALID_MEMORY_ACCESS_REQUESTED ∧
    (load_forest_lht_binary 104 (fun _ _ _ => ()) 2 uniform_info).indexed = [2] :=
  ⟨rfl, by decide, by decide, rfl, by decide⟩

/-! ## The index generator -/

theorem generate_galaxy_index_ok (halos : Int → halo_data) (haloaux : Int → halo_aux_data)
    (forestnr filenr flm fm : Int) (halogal : Int → GALAXY) (idx : Int) (out : Int → GALAXY)
    (h : generate_galaxy_index halos haloaux forestnr filenr flm fm halogal idx = .ok out) :
    index_checks_pass (GalaxyNr_of halogal idx) (CentralGalaxyNr_of halos haloaux halogal idx)
      forestnr filenr flm fm ∧
    out = Function.update halogal idx
      { halogal idx with
        GalaxyIndex :=
          wrap64 (GalaxyNr_of halogal idx + id_from_forest_and_file forestnr filenr flm fm)
        CentralGalaxyIndex :=
          wrap64 (CentralGalaxyNr_of halos haloaux halogal idx
            + id_from_forest_and_file forestnr filenr flm fm) } := by
  unfold generate_galaxy_index at h
  simp only at h
  split_ifs at h with c1 c2 c3 c4 c5 c6 c7
  simp only [Except.ok.injEq] at h
  refine ⟨⟨?_, ?_, ?_, ?_, ?_, ?_, ?_⟩, h.symm⟩
  · by_contra hc
    exact c1 (Or.inl (by omega))
  · intro hpos
    by_contra hc
    exact c1 (Or.inr ⟨hpos, by omega⟩)
  · intro hpos
    refine ⟨fun hz => c2 ⟨hpos, hz⟩, ?_⟩
    by_contra hc
    exact c3 ⟨hpos, by omega⟩
  · intro hpos
    refine ⟨fun hz => c4 ⟨hpos, hz⟩, ?_⟩
    by_contra hc
    exact c5 ⟨hpos, by omega⟩
  · omega
  · by_contra hc
    exact c7 (Or.inl (by unfold id_from_forest_and_file at hc; omega))
  · by_contra hc
    exact c7 (Or.inr (by unfold id_from_forest_and_file at hc; omega))

theorem generate_galaxy_index_error (halos : Int → halo_data) (haloaux : Int → halo_aux_data)
    (forestnr filenr flm fm : Int) (halogal : Int → GALAXY) (idx : Int) (e : Status)
    (h : generate_galaxy_index halos haloaux forestnr filenr flm fm halogal idx = .error e) :
    e = .EXIT_FAILURE ∨
      (e = .SIGFPE ∧ ((forestnr > 0 ∧ wrap64 fm = 0) ∨ (filenr > 0 ∧ wrap64 flm = 0))) := by
  unfold generate_galaxy_index at h
  simp only at h
  split_ifs at h with c1 c2 c3 c4 c5 c6 c7 <;> simp only [Except.error.injEq] at h
  · exact Or.inl h.symm
  · exact Or.inr ⟨h.symm, Or.inl c2⟩
  · exact Or.inl h.symm
  · exact Or.inr ⟨h.symm, Or.inr c4⟩
  · exact Or.inl h.symm
  · exact Or.inl h.symm
  · exact Or.inl h.symm

theorem GalaxyNr_of_congr (g g' : Int → GALAXY)
    (h : ∀ k, (g' k).GalaxyNr = (g k).GalaxyNr ∧ (g' k).HaloNr = (g k).HaloNr) (i : Int) :
    GalaxyNr_of g' i = GalaxyNr_of g i := by
  unfold GalaxyNr_of
  rw [(h i).1]

theorem CentralGalaxyNr_of_congr (halos : Int → halo_data) (haloaux : Int → halo_aux_data)
    (g g' : Int → GALAXY)
    (h : ∀ k, (g' k).GalaxyNr = (g k).GalaxyNr ∧ (g' k).HaloNr = (g k).HaloNr) (i : Int) :
    CentralGalaxyNr_of halos haloaux g' i = CentralGalaxyNr_of halos haloaux g i := by
  unfold CentralGalaxyNr_of
  rw [(h i).2, (h _).1]

/-- What a successful run of the loop over the galaxies has done: every galaxy of the run
passed all tests and carries the two identifiers; local numbers and halo numbers are
untouched. -/
theorem generate_galaxy_indices_loop_spec (halos : Int → halo_data)
    (haloaux : Int → halo_aux_data) (forestnr filenr flm fm : Int) :
    ∀ (n : Nat) (idx : Int) (g out : Int → GALAXY),
      generate_galaxy_indices_loop halos haloaux forestnr filenr flm fm n idx g = .ok out →
      (∀ k, (out k).GalaxyNr = (g k).GalaxyNr ∧ (out k).HaloNr = (g k).HaloNr) ∧
      (∀ m : Nat, m < n →
        index_checks_pass (GalaxyNr_of g (idx + m)) (CentralGalaxyNr_of halos haloaux g (idx + m))
          forestnr filenr flm fm ∧
        (out (idx + m)).GalaxyIndex
          = wrap64 (GalaxyNr_of g (idx + m) + id_from_forest_and_file forestnr filenr flm fm) ∧
        (out (idx + m)).CentralGalaxyIndex
          = wrap64 (CentralGalaxyNr_of halos haloaux g (idx + m)
              + id_from_forest_and_file forestnr filenr flm fm)) ∧
      (∀ k, (k < idx ∨ idx + n ≤ k) → out k = g k) := by
  intro n
  induction n with
  | zero =>
    intro idx g out h
    simp only [generate_galaxy_indices_loop, Except.ok.injEq] at h
    subst h
    exact ⟨fun k => ⟨rfl, rfl⟩, fun m hm => by omega, fun k _ => rfl⟩
  | succ n ih =>
    intro idx g out h
    unfold generate_galaxy_indices_loop at h
    cases h1 : generate_galaxy_index halos haloaux forestnr filenr flm fm g idx with
    | error e =>
      rw [h1] at h
      cases h
    | ok g1 =>
      rw [h1] at h
      simp only at h
      obtain ⟨hchk, hg1⟩ := generate_galaxy_index_ok halos haloaux forestnr filenr flm fm g idx g1 h1
      obtain ⟨i1, i2, i3⟩ := ih (idx + 1) g1 out h
      have hsame : ∀ k, (g1 k).GalaxyNr = (g k).GalaxyNr ∧ (g1 k).HaloNr = (g k).HaloNr := by
        intro k
        rw [hg1]
        by_cases hk : k = idx
        · subst hk
          rw [Function.update_same]
          exact ⟨rfl, rfl⟩
        · rw [Function.update_noteq hk]
          exact ⟨rfl, rfl⟩
      refine ⟨?_, ?_, ?_⟩
      · intro k
        obtain ⟨a, b⟩ := i1 k
        obtain ⟨c, d⟩ := hsame k
        exact ⟨a.trans c, b.trans d⟩
      · intro m hm
        cases m with
        | zero =>
          simp only [Nat.cast_zero, add_zero]
          refine ⟨hchk, ?_, ?_⟩
          · rw [i3 idx (Or.inl (by omega)), hg1, Function.update_same]
          · rw [i3 idx (Or.inl (by omega)), hg1, Function.update_same]
        | succ m' =>
          have eidx : idx + ((m' + 1 : Nat) : Int) = idx + 1 + (m' : Int) := by push_cast; ring
          rw [eidx]
          have := i2 m' (by omega)
          rw [GalaxyNr_of_congr g g1 hsame, CentralGalaxyNr_of_congr halos haloaux g g1 hsame]
            at this
          exact this
      · intro k hk
        rw [i3 k (by push_cast at hk; omega), hg1]
        exact Function.update_noteq (by push_cast at hk; omega) _ _

theorem generate_galaxy_indices_loop_error (halos : Int → halo_data)
    (haloaux : Int → halo_aux_data) (forestnr filenr flm fm : Int) :
    ∀ (n : Nat) (idx : Int) (g : Int → GALAXY) (e : Status),
      generate_galaxy_indices_loop halos haloaux forestnr filenr flm fm n idx g = .error e →
      e = .EXIT_FAILURE ∨
        (e = .SIGFPE ∧ ((forestnr > 0 ∧ wrap64 fm = 0) ∨ (filenr > 0 ∧ wrap64 flm = 0))) := by
  intro n
  induction n with
  | zero =>
    intro idx g e h
    simp only [generate_galaxy_indices_loop] at h
    cases h
  | succ n ih =>
    intro idx g e h
    unfold generate_galaxy_indices_loop at h
    cases h1 : generate_galaxy_index halos haloaux forestnr filenr flm fm g idx with
    | error e1 =>
      rw [h1] at h
      simp only [Except.error.injEq] at h
      subst h
      exact generate_galaxy_index_error halos haloaux forestnr filenr flm fm g idx e1 h1
    | ok g1 =>
      rw [h1] at h
      exact ih (idx + 1) g1 e h

theorem GalaxyNr_of_nonneg (g : Int → GALAXY) (i : Int) : 0 ≤ GalaxyNr_of g i := by
  unfold GalaxyNr_of toUInt32
  omega

theorem CentralGalaxyNr_of_nonneg (halos : Int → halo_data) (haloaux : Int → halo_aux_data)
    (g : Int → GALAXY) (i : Int) : 0 ≤ CentralGalaxyNr_of halos haloaux g i := by
  unfold CentralGalaxyNr_of toUInt32
  omega

theorem product_fits (x m : Int) (hx0 : 0 ≤ x) (hx : x < 2 ^ 63) (hm0 : 0 ≤ m) (hm : m < 2 ^ 63)
    (h : x > 0 → wrap64 m ≠ 0 ∧ wrap64 x ≤ (2 ^ 64 - 1) / wrap64 m) :
    0 ≤ x * m ∧ x * m < 2 ^ 64 := by
  refine ⟨mul_nonneg hx0 hm0, ?_⟩
  by_cases hx1 : x > 0
  · obtain ⟨h1, h2⟩ := h hx1
    have em : wrap64 m = m := by
      unfold wrap64
      omega
    have ex : wrap64 x = x := by
      unfold wrap64
      omega
    rw [em] at h1 h2
    rw [ex] at h2
    have hmpos : 0 < m := by omega
    have := (Int.le_ediv_iff_mul_le hmpos).mp h2
    omega
  · have : x = 0 := by omega
    subst this
    simp

theorem wrap64_toInt64 (x : Int) : wrap64 (toInt64 x) = wrap64 x := by
  unfold wrap64 toInt64
  split_ifs <;> omega

theorem id_from_forest_and_file_eq (forestnr filenr flm fm : Int) :
    id_from_forest_and_file forestnr filenr flm fm
      = wrap64 (forestnr * fm + filenr * flm) := by
  unfold id_from_forest_and_file
  rw [wrap64_toInt64, wrap64_toInt64, mul_comm fm forestnr, mul_comm flm filenr]
  unfold wrap64
  omega

/-- With coordinates and multipliers that are not negative, a galaxy that passed all tests has
products and sums that stay below `2^64`. -/
theorem index_exact (G C forestnr filenr flm fm : Int) (hG : 0 ≤ G) (_hC : 0 ≤ C)
    (hf0 : 0 ≤ forestnr) (hf : forestnr < 2 ^ 63) (hl0 : 0 ≤ filenr) (hl : filenr < 2 ^ 63)
    (hflm0 : 0 ≤ flm) (hflm : flm < 2 ^ 63) (hfm : fm < 2 ^ 63)
    (h : index_checks_pass G C forestnr filenr flm fm) :
    (0 ≤ forestnr * fm ∧ forestnr * fm < 2 ^ 64) ∧
    (0 ≤ filenr * flm ∧ filenr * flm < 2 ^ 64) ∧
    forestnr * fm + filenr * flm < 2 ^ 64 ∧
    G + forestnr * fm + filenr * flm < 2 ^ 64 ∧
    C + forestnr * fm + filenr * flm < 2 ^ 64 ∧
    id_from_forest_and_file forestnr filenr flm fm = forestnr * fm + filenr * flm := by
  obtain ⟨c1, _, c3, c4, c5, c6, c7⟩ := h
  have hfm0 : 0 ≤ fm := by omega
  obtain ⟨p1, p2⟩ := product_fits forestnr fm hf0 hf hfm0 hfm c3
  obtain ⟨q1, q2⟩ := product_fits filenr flm hl0 hl hflm0 hflm c4
  rw [id_from_forest_and_file_eq] at c6 c7
  rw [wrap64_toInt64, wrap64_toInt64, mul_comm fm forestnr, mul_comm flm filenr] at c5
  rw [id_from_forest_and_file_eq]
  unfold wrap64 at c5 c6 c7 ⊢
  refine ⟨⟨p1, p2⟩, ⟨q1, q2⟩, ?_, ?_, ?_, ?_⟩ <;> omega

/-! ## Claims on `generate_galaxy_indices` -/

/-- C7 (as stated, refuted). For `forestnr = -2`, `forestnr_mulfac = 3`, file number 0 and one
galaxy with `GalaxyNr = 0` the call returns success; `GalaxyNr + forestnr * forestnr_mulfac
+ filenr * filenr_mulfac` is `-6`, and the stored `GalaxyIndex` and `CentralGalaxyIndex` are
`2^64 - 6`. -/
theorem index_of_negative_forest :
    ∃ out, generate_galaxy_indices one_halo one_haloaux (galaxies_nr 0) 1 (-2) 0 0 3 = .ok out
      ∧ GalaxyNr_of (galaxies_nr 0) 0 + (-2) * 3 + 0 * 0 = -6
      ∧ CentralGalaxyNr_of one_halo one_haloaux (galaxies_nr 0) 0 + (-2) * 3 + 0 * 0 = -6
      ∧ (out 0).GalaxyIndex = 18446744073709551610
      ∧ (out 0).CentralGalaxyIndex = 18446744073709551610
      ∧ (out 0).GalaxyIndex ≠ GalaxyNr_of (galaxies_nr 0) 0 + (-2) * 3 + 0 * 0
      ∧ (out 0).CentralGalaxyIndex
          ≠ CentralGalaxyNr_of one_halo one_haloaux (galaxies_nr 0) 0 + (-2) * 3 + 0 * 0 :=
  ⟨galaxies_of (generate_galaxy_indices one_halo one_haloaux (galaxies_nr 0) 1 (-2) 0 0 3)
      (galaxies_nr 0), by rfl, by decide, by decide, by decide, by decide, by decide,
    by decide⟩

/-- C7 (amended). Whenever `generate_galaxy_indices` returns success, for every galaxy `i`,
with `CentralGalaxyNr` the `GalaxyNr` of the first galaxy of the first halo of the FOF group
of the galaxy's halo: when file number, forest number and file multiplier are not negative
(and within their C types), the stored `GalaxyIndex` is `GalaxyNr + forestnr *
forestnr_mulfac + filenr * filenr_mulfac` and the stored `CentralGalaxyIndex` is
`CentralGalaxyNr + forestnr * forestnr_mulfac + filenr * filenr_mulfac`; for every input the
two equalities hold as unsigned 64-bit values; and with `forestnr_mulfac = 1000000`,
`filenr_mulfac = 1000000000000`, `filenr = 2`, `forestnr = 5` and local number 7 for the
galaxy and its central the call succeeds and both identifiers are `2000005000007`. -/
theorem galaxy_index_formula (halos : Int → halo_data) (haloaux : Int → halo_aux_data)
    (halogal : Int → GALAXY) (numgals forestnr filenr flm fm : Int) (out : Int → GALAXY)
    (h : generate_galaxy_indices halos haloaux halogal numgals forestnr filenr flm fm = .ok out)
    (i : Int) (hi0 : 0 ≤ i) (hi : i < numgals) :
    (out i).GalaxyIndex
      = wrap64 (GalaxyNr_of halogal i + forestnr * fm + filenr * flm) ∧
    (out i).CentralGalaxyIndex
      = wrap64 (CentralGalaxyNr_of halos haloaux halogal i + forestnr * fm + filenr * flm) ∧
    CentralGalaxyNr_of halos haloaux halogal i
      = GalaxyNr_of halogal
          (haloaux (halos (halogal i).HaloNr).FirstHaloInFOFgroup).FirstGalaxy ∧
    (0 ≤ forestnr → forestnr < 2 ^ 63 → 0 ≤ filenr → filenr < 2 ^ 31 →
      0 ≤ flm → flm < 2 ^ 63 → fm < 2 ^ 63 →
      (out i).GalaxyIndex = GalaxyNr_of halogal i + forestnr * fm + filenr * flm ∧
      (out i).CentralGalaxyIndex
        = CentralGalaxyNr_of halos haloaux halogal i + forestnr * fm + filenr * flm) ∧
    (∃ out7, generate_galaxy_indices one_halo one_haloaux (galaxies_nr 7) 1 5 2
        1000000000000 1000000 = .ok out7
      ∧ (out7 0).GalaxyIndex = 2000005000007 ∧ (out7 0).CentralGalaxyIndex = 2000005000007) := by
  unfold generate_galaxy_indices at h
  obtain ⟨_, l2, _⟩ := generate_galaxy_indices_loop_spec halos haloaux forestnr filenr flm fm
    _ _ _ _ h
  obtain ⟨chk, e1, e2⟩ := l2 i.toNat (by omega)
  have eidx : (0 : Int) + (i.toNat : Int) = i := by omega
  rw [eidx] at chk e1 e2
  have hw : ∀ x : Int, wrap64 (x + id_from_forest_and_file forestnr filenr flm fm)
      = wrap64 (x + forestnr * fm + filenr * flm) := by
    intro x
    rw [id_from_forest_and_file_eq]
    unfold wrap64
    omega
  refine ⟨by rw [e1, hw], by rw [e2, hw], rfl, ?_, ?_⟩
  · intro hf0 hf hl0 hl hflm0 hflm hfm
    obtain ⟨_, _, _, x4, x5, x6⟩ := index_exact _ _ forestnr filenr flm fm
      (GalaxyNr_of_nonneg halogal i) (CentralGalaxyNr_of_nonneg halos haloaux halogal i)
      hf0 hf hl0 (by omega) hflm0 hflm hfm chk
    have g0 := GalaxyNr_of_nonneg halogal i
    have c0 := CentralGalaxyNr_of_nonneg halos haloaux halogal i
    have p0 : 0 ≤ forestnr * fm + filenr * flm := by
      rw [← x6, id_from_forest_and_file_eq]
      unfold wrap64
      omega
    rw [e1, e2, x6]
    unfold wrap64
    constructor <;> omega
  · exact ⟨galaxies_of (generate_galaxy_indices one_halo one_haloaux (galaxies_nr 7) 1 5 2
      1000000000000 1000000) (galaxies_nr 7), rfl, by decide, by decide⟩

/-- C7 (amended), instantiated at the input of its last sentence. -/
theorem galaxy_index_formula_witness :
    (galaxies_of (generate_galaxy_indices one_halo one_haloaux (galaxies_nr 7) 1 5 2
        1000000000000 1000000) (galaxies_nr 7) 0).GalaxyIndex
      = GalaxyNr_of (galaxies_nr 7) 0 + 5 * 1000000 + 2 * 1000000000000 ∧
    (galaxies_of (generate_galaxy_indices one_halo one_haloaux (galaxies_nr 7) 1 5 2
        1000000000000 1000000) (galaxies_nr 7) 0).CentralGalaxyIndex
      = CentralGalaxyNr_of one_halo one_haloaux (galaxies_nr 7) 0
          + 5 * 1000000 + 2 * 1000000000000 :=
  (galaxy_index_formula one_halo one_haloaux (galaxies_nr 7) 1 5 2 1000000000000 1000000
    (galaxies_of (generate_galaxy_indices one_halo one_haloaux (galaxies_nr 7) 1 5 2
      1000000000000 1000000) (galaxies_nr 7)) rfl 0 (by decide) (by decide)).2.2.2.1
    (by decide) (by decide) (by decide) (by decide) (by decide) (by decide) (by decide)

/-- C8 (the code at the failing inputs). With `forestnr_mulfac = 10` and
`filenr_mulfac = 100` the triples `(filenr, forestnr, GalaxyNr) = (0, 0, 10)` and `(0, 1, 0)`
both pass every test and both receive `GalaxyIndex = 10`; likewise `(0, 10, 0)` and
`(1, 0, 0)` both receive `GalaxyIndex = 100`. -/
theorem galaxy_index_collision :
    (∃ a b,
      generate_galaxy_indices one_halo one_haloaux (galaxies_nr 10) 1 0 0 100 10 = .ok a ∧
      generate_galaxy_indices one_halo one_haloaux (galaxies_nr 0) 1 1 0 100 10 = .ok b ∧
      (a 0).GalaxyIndex = 10 ∧ (b 0).GalaxyIndex = 10) ∧
    (∃ a b,
      generate_galaxy_indices one_halo one_haloaux (galaxies_nr 0) 1 10 0 100 10 = .ok a ∧
      generate_galaxy_indices one_halo one_haloaux (galaxies_nr 0) 1 0 1 100 10 = .ok b ∧
      (a 0).GalaxyIndex = 100 ∧ (b 0).GalaxyIndex = 100) :=
  ⟨⟨galaxies_of (generate_galaxy_indices one_halo one_haloaux (galaxies_nr 10) 1 0 0 100 10)
      (galaxies_nr 10),
    galaxies_of (generate_galaxy_indices one_halo one_haloaux (galaxies_nr 0) 1 1 0 100 10)
      (galaxies_nr 0),
    rfl, rfl, by decide, by decide⟩,
   ⟨galaxies_of (generate_galaxy_indices one_halo one_haloaux (galaxies_nr 0) 1 10 0 100 10)
      (galaxies_nr 0),
    galaxies_of (generate_galaxy_indices one_halo one_haloaux (galaxies_nr 0) 1 0 1 100 10)
      (galaxies_nr 0),
    rfl, rfl, by decide, by decide⟩⟩

/-- C9 (as stated, refuted). With both multipliers `≥ 0` the call succeeds for
`forestnr = -1`, `forestnr_mulfac = 1` (and for `filenr = -1`, `filenr_mulfac = 1`): the
product over the integers is `-1`, outside `[0, 2^64)`, and the stored `GalaxyIndex` is
`2^64 - 1`, not `GalaxyNr - 1`. -/
theorem negative_coordinate_wraps :
    (∃ out, generate_galaxy_indices one_halo one_haloaux (galaxies_nr 0) 1 (-1) 0 0 1 = .ok out
      ∧ (out 0).GalaxyIndex = 18446744073709551615
      ∧ ¬ (0 ≤ (-1 : Int) * 1)
      ∧ (out 0).GalaxyIndex ≠ GalaxyNr_of (galaxies_nr 0) 0 + (-1) * 1 + 0 * 0) ∧
    (∃ out, generate_galaxy_indices one_halo one_haloaux (galaxies_nr 0) 1 0 (-1) 1 1 = .ok out
      ∧ (out 0).GalaxyIndex = 18446744073709551615
      ∧ ¬ (0 ≤ (-1 : Int) * 1)
      ∧ (out 0).GalaxyIndex ≠ GalaxyNr_of (galaxies_nr 0) 0 + 0 * 1 + (-1) * 1) :=
  ⟨⟨galaxies_of (generate_galaxy_indices one_halo one_haloaux (galaxies_nr 0) 1 (-1) 0 0 1)
      (galaxies_nr 0), by rfl, by decide, by decide, by decide⟩,
   ⟨galaxies_of (generate_galaxy_indices one_halo one_haloaux (galaxies_nr 0) 1 0 (-1) 1 1)
      (galaxies_nr 0), by rfl, by decide, by decide, by decide⟩⟩

/-- C9 (amended). For every input with both multipliers `≥ 0`, a forest number `≥ 0` and a
file number `≥ 0` (all within their C types), if the call returns success then for every
galaxy `forestnr * forestnr_mulfac`, `filenr * filenr_mulfac`, their sum and the sums with
`GalaxyNr` and `CentralGalaxyNr`, computed over the integers, lie in `[0, 2^64)` and the two
stored identifiers equal those integers. -/
theorem no_silent_wrap (halos : Int → halo_data) (haloaux : Int → halo_aux_data)
    (halogal : Int → GALAXY) (numgals forestnr filenr flm fm : Int) (out : Int → GALAXY)
    (h : generate_galaxy_indices halos haloaux halogal numgals forestnr filenr flm fm = .ok out)
    (_hfm0 : 0 ≤ fm) (hfm : fm < 2 ^ 63) (hflm0 : 0 ≤ flm) (hflm : flm < 2 ^ 63)
    (hf0 : 0 ≤ forestnr) (hf : forestnr < 2 ^ 63) (hl0 : 0 ≤ filenr) (hl : filenr < 2 ^ 31)
    (i : Int) (hi0 : 0 ≤ i) (hi : i < numgals) :
    (0 ≤ forestnr * fm ∧ forestnr * fm < 2 ^ 64) ∧
    (0 ≤ filenr * flm ∧ filenr * flm < 2 ^ 64) ∧
    (0 ≤ forestnr * fm + filenr * flm ∧ forestnr * fm + filenr * flm < 2 ^ 64) ∧
    (0 ≤ GalaxyNr_of halogal i + forestnr * fm + filenr * flm
      ∧ GalaxyNr_of halogal i + forestnr * fm + filenr * flm < 2 ^ 64) ∧
    (0 ≤ CentralGalaxyNr_of halos haloaux halogal i + forestnr * fm + filenr * flm
      ∧ CentralGalaxyNr_of halos haloaux halogal i + forestnr * fm + filenr * flm < 2 ^ 64) ∧
    (out i).GalaxyIndex = GalaxyNr_of halogal i + forestnr * fm + filenr * flm ∧
    (out i).CentralGalaxyIndex
      = CentralGalaxyNr_of halos haloaux halogal i + forestnr * fm + filenr * flm := by
  unfold generate_galaxy_indices at h
  obtain ⟨_, l2, _⟩ := generate_galaxy_indices_loop_spec halos haloaux forestnr filenr flm fm
    _ _ _ _ h
  obtain ⟨chk, e1, e2⟩ := l2 i.toNat (by omega)
  have eidx : (0 : Int) + (i.toNat : Int) = i := by omega
  rw [eidx] at chk e1 e2
  have g0 := GalaxyNr_of_nonneg halogal i
  have c0 := CentralGalaxyNr_of_nonneg halos haloaux halogal i
  obtain ⟨x1, x2, x3, x4, x5, x6⟩ := index_exact _ _ forestnr filenr flm fm g0 c0
    hf0 hf hl0 (by omega) hflm0 hflm hfm chk
  rw [e1, e2, x6]
  unfold wrap64
  refine ⟨x1, x2, ⟨by omega, x3⟩, ⟨by omega, x4⟩, ⟨by omega, x5⟩, ?_, ?_⟩ <;> omega

/-- C9 (amended), instantiated: file 2, forest 5, local number 7. -/
theorem no_silent_wrap_witness :
    (galaxies_of (generate_galaxy_indices one_halo one_haloaux (galaxies_nr 7) 1 5 2
        1000000000000 1000000) (galaxies_nr 7) 0).GalaxyIndex
      = GalaxyNr_of (galaxies_nr 7) 0 + 5 * 1000000 + 2 * 1000000000000 :=
  (no_silent_wrap one_halo one_haloaux (galaxies_nr 7) 1 5 2 1000000000000 1000000
    (galaxies_of (generate_galaxy_indices one_halo one_haloaux (galaxies_nr 7) 1 5 2
      1000000000000 1000000) (galaxies_nr 7)) rfl
    (by decide) (by decide) (by decide) (by decide) (by decide) (by decide) (by decide)
    (by decide) 0 (by decide) (by decide)).2.2.2.2.2.1

/-- Inputs on which the range validation is not reached. With no galaxy the call returns
success although `filenr_mulfac = 1 > 0` and `forestnr * forestnr_mulfac = 50` exceeds it;
and with
`forestnr_mulfac = 0` and `forestnr = 1` the call for two galaxies, the second of which has
`GalaxyNr = 1 > forestnr_mulfac`, does not return a failure status: it divides by zero at the
first galaxy. -/
theorem range_validation_not_reached :
    (∃ out, generate_galaxy_indices one_halo one_haloaux (galaxies_nr 0) 0 5 0 1 10 = .ok out
      ∧ (0 : Int) < 1 ∧ (1 : Int) < 5 * 10) ∧
    (generate_galaxy_indices one_halo one_haloaux galaxies_zero_one 2 1 0 0 0 = .error .SIGFPE
      ∧ GalaxyNr_of galaxies_zero_one 1 > 0) :=
  ⟨⟨galaxies_nr 0, rfl, by decide, by decide⟩, rfl, by decide⟩

/-- C10 (the code at the failing input). The range test of line 212 is made on the signed
64-bit product: with one galaxy, `forestnr = 2^32`, `forestnr_mulfac = 2^31` and
`filenr_mulfac = 1 > 0` the exact product `2^63` exceeds `filenr_mulfac`, the product
reduced to `int64_t` is negative and passes the test, and the call returns success with
`GalaxyIndex = 2^63`. -/
theorem range_test_on_wrapped_product :
    ∃ out, generate_galaxy_indices one_halo one_haloaux (galaxies_nr 0) 1 4294967296 0 1
        2147483648 = .ok out
      ∧ (out 0).GalaxyIndex = 9223372036854775808
      ∧ (1 : Int) < 4294967296 * 2147483648 :=
  ⟨galaxies_of (generate_galaxy_indices one_halo one_haloaux (galaxies_nr 0) 1 4294967296 0 1
      2147483648) (galaxies_nr 0), rfl, by decide, by decide⟩

/-- The range validation where it is reached and the product fits.
`generate_galaxy_indices` returns failure for every input with at least
one galaxy in which `filenr_mulfac > 0` and the product `forestnr * forestnr_mulfac`, lying in
the signed 64-bit range, exceeds `filenr_mulfac` (the test is the first one made, at the first
galaxy); and for every input in which some galaxy has `GalaxyNr > forestnr_mulfac` and no
test divides by a zero multiplier (`forestnr ≤ 0` or `forestnr_mulfac ≠ 0`, and `filenr ≤ 0`
or `filenr_mulfac ≠ 0`, as unsigned 64-bit values). -/
theorem range_validation (halos : Int → halo_data) (haloaux : Int → halo_aux_data)
    (halogal : Int → GALAXY) (numgals forestnr filenr flm fm : Int) :
    (1 ≤ numgals → 0 < flm → -2 ^ 63 ≤ forestnr * fm → forestnr * fm < 2 ^ 63 →
      flm < forestnr * fm →
      generate_galaxy_indices halos haloaux halogal numgals forestnr filenr flm fm
        = .error .EXIT_FAILURE) ∧
    (∀ i : Int, 0 ≤ i → i < numgals → fm < GalaxyNr_of halogal i →
      (forestnr ≤ 0 ∨ wrap64 fm ≠ 0) → (filenr ≤ 0 ∨ wrap64 flm ≠ 0) →
      generate_galaxy_indices halos haloaux halogal numgals forestnr filenr flm fm
        = .error .EXIT_FAILURE) := by
  constructor
  · intro hn hflm hlo hhi hex
    obtain ⟨k, hk⟩ : ∃ k, numgals.toNat = k + 1 := ⟨numgals.toNat - 1, by omega⟩
    unfold generate_galaxy_indices
    rw [hk]
    unfold generate_galaxy_indices_loop
    have hstep : generate_galaxy_index halos haloaux forestnr filenr flm fm halogal 0
        = .error .EXIT_FAILURE := by
      unfold generate_galaxy_index
      simp only
      rw [if_pos (Or.inr ⟨hflm, by rw [toInt64_of_fits _ hlo hhi]; exact hex⟩)]
    rw [hstep]
  · intro i hi0 hi hG hz1 hz2
    cases hres : generate_galaxy_indices halos haloaux halogal numgals forestnr filenr flm fm with
    | ok out =>
      unfold generate_galaxy_indices at hres
      obtain ⟨_, l2, _⟩ := generate_galaxy_indices_loop_spec halos haloaux forestnr filenr
        flm fm _ _ _ _ hres
      obtain ⟨chk, _, _⟩ := l2 i.toNat (by omega)
      have eidx : (0 : Int) + (i.toNat : Int) = i := by omega
      rw [eidx] at chk
      have := chk.1
      omega
    | error e =>
      unfold generate_galaxy_indices at hres
      rcases generate_galaxy_indices_loop_error halos haloaux forestnr filenr flm fm
        _ _ _ _ hres with he | ⟨_, hz⟩
      · rw [he]
      · rcases hz with ⟨a, b⟩ | ⟨a, b⟩
        · rcases hz1 with c | c
          · omega
          · exact absurd b c
        · rcases hz2 with c | c
          · omega
          · exact absurd b c

/-- The range validation, instantiated: one galaxy, `forestnr * forestnr_mulfac = 50 > 1`; and one
galaxy with `GalaxyNr = 7 > forestnr_mulfac = 5`. -/
theorem range_validation_witness :
    generate_galaxy_indices one_halo one_haloaux (galaxies_nr 0) 1 5 0 1 10
      = .error .EXIT_FAILURE ∧
    generate_galaxy_indices one_halo one_haloaux (galaxies_nr 7) 1 0 0 0 5
      = .error .EXIT_FAILURE :=
  ⟨(range_validation one_halo one_haloaux (galaxies_nr 0) 1 5 0 1 10).1
      (by decide) (by decide) (by decide) (by decide) (by decide),
   (range_validation one_halo one_haloaux (galaxies_nr 7) 1 0 0 0 5).2 0
      (by decide) (by decide) (by decide) (Or.inl (by decide)) (Or.inl (by decide))⟩

/-! ## Claims on `setup_forests_io` -/

theorem not_le_zero_iff (x : CDouble) : ¬ x.le_zero ↔ (x.gt_zero ∨ x = .nan) := by
  cases x with
  | val q =>
    simp only [CDouble.le_zero, CDouble.gt_zero, not_le, reduceCtorEq, or_false]
  | pinf => simp [CDouble.le_zero, CDouble.gt_zero]
  | ninf => simp [CDouble.le_zero, CDouble.gt_zero]
  | nan => simp [CDouble.le_zero, CDouble.gt_zero]

/-- What `setup_forests_io` returns: `INVALID_OPTION_IN_PARAMS`, whatever the readers are, for
a tree type outside the recognised set (`lhalo_binary`, `consistent_trees_ascii`, and
`illustris_lhalo_hdf5` when HDF5 is compiled in), in which case no reader is called; the
reader's status unchanged when the reader fails; a failure status when the reader reports
success but leaves `FileNr_Mulfac < 0`, `ForestNr_Mulfac < 0` or `frac_volume_processed <= 0.0`;
and success exactly when the reader reports success with both multipliers `>= 0` and a
fraction that is `> 0.0` or a NaN. -/
theorem router_status (HDF5 : Bool) (readers : TreeReaders) (sz : Int)
    (files : Int → Option LHaloFile) (run_params : params) (forests_info : forest_info)
    (ThisTask NTasks : Int) :
    ((run_params.TreeType ≠ .lhalo_binary ∧ run_params.TreeType ≠ .consistent_trees_ascii
        ∧ ¬ (HDF5 = true ∧ run_params.TreeType = .illustris_lhalo_hdf5)) →
      dispatch_setup HDF5 readers sz files (reset_multipliers run_params)
          (reset_fraction forests_info) run_params.FirstFile run_params.LastFile
          ThisTask NTasks = none ∧
      ∀ readers' : TreeReaders,
        setup_forests_io HDF5 readers' sz files run_params forests_info ThisTask NTasks
          = .error .INVALID_OPTION_IN_PARAMS) ∧
    (∀ status : Status,
      dispatch_setup HDF5 readers sz files (reset_multipliers run_params)
          (reset_fraction forests_info) run_params.FirstFile run_params.LastFile
          ThisTask NTasks = some (.error status) →
      setup_forests_io HDF5 readers sz files run_params forests_info ThisTask NTasks
        = .error status) ∧
    (∀ (fi : forest_info) (rp : params),
      dispatch_setup HDF5 readers sz files (reset_multipliers run_params)
          (reset_fraction forests_info) run_params.FirstFile run_params.LastFile
          ThisTask NTasks = some (.ok (fi, rp)) →
      (rp.FileNr_Mulfac < 0 ∨ rp.ForestNr_Mulfac < 0 ∨ fi.frac_volume_processed.le_zero) →
      setup_forests_io HDF5 readers sz files run_params forests_info ThisTask NTasks
        = .error .EXIT_FAILURE) ∧
    (∀ out : params × forest_info,
      setup_forests_io HDF5 readers sz files run_params forests_info ThisTask NTasks = .ok out
      ↔ (dispatch_setup HDF5 readers sz files (reset_multipliers run_params)
            (reset_fraction forests_info) run_params.FirstFile run_params.LastFile
            ThisTask NTasks = some (.ok (out.2, out.1))
          ∧ 0 ≤ out.1.FileNr_Mulfac ∧ 0 ≤ out.1.ForestNr_Mulfac
          ∧ (out.2.frac_volume_processed.gt_zero ∨ out.2.frac_volume_processed = .nan))) := by
  refine ⟨?_, ?_, ?_, ?_⟩
  · intro h
    obtain ⟨h1, h2, h3⟩ := h
    have hd : ∀ r : TreeReaders, dispatch_setup HDF5 r sz files (reset_multipliers run_params)
        (reset_fraction forests_info) run_params.FirstFile run_params.LastFile
        ThisTask NTasks = none := by
      intro r
      unfold dispatch_setup
      have e : (reset_multipliers run_params).TreeType = run_params.TreeType := rfl
      rw [e]
      cases hT : run_params.TreeType with
      | lhalo_binary => exact absurd hT h1
      | consistent_trees_ascii => exact absurd hT h2
      | illustris_lhalo_hdf5 =>
        cases hH : HDF5 with
        | true => exact absurd ⟨hH, hT⟩ h3
        | false => rfl
      | genesis_standard_hdf5 => rfl
      | other_tree_type => rfl
    refine ⟨hd readers, ?_⟩
    intro r
    unfold setup_forests_io
    simp only
    rw [hd r]
  · intro status h
    unfold setup_forests_io
    simp only
    rw [h]
  · intro fi rp h hbad
    unfold setup_forests_io
    simp only
    rw [h]
    simp only
    by_cases hm : rp.FileNr_Mulfac < 0 ∨ rp.ForestNr_Mulfac < 0
    · rw [if_pos hm]
    · rw [if_neg hm]
      rcases hbad with b | b | b
      · exact absurd (Or.inl b) hm
      · exact absurd (Or.inr b) hm
      · rw [if_pos b]
  · intro out
    unfold setup_forests_io
    simp only
    cases hd : dispatch_setup HDF5 readers sz files (reset_multipliers run_params)
        (reset_fraction forests_info) run_params.FirstFile run_params.LastFile
        ThisTask NTasks with
    | none => simp
    | some r =>
      cases r with
      | error e => simp
      | ok v =>
        obtain ⟨fi, rp⟩ := v
        simp only
        by_cases hm : rp.FileNr_Mulfac < 0 ∨ rp.ForestNr_Mulfac < 0
        · rw [if_pos hm]
          constructor
          · intro h
            cases h
          · rintro ⟨h1, h2, h3, _⟩
            simp only [Option.some.injEq, Except.ok.injEq, Prod.mk.injEq] at h1
            obtain ⟨e1, e2⟩ := h1
            rw [← e2] at h2 h3
            omega
        · rw [if_neg hm]
          by_cases hf : fi.frac_volume_processed.le_zero
          · rw [if_pos hf]
            constructor
            · intro h
              cases h
            · rintro ⟨h1, _, _, h4⟩
              simp only [Option.some.injEq, Except.ok.injEq, Prod.mk.injEq] at h1
              obtain ⟨e1, e2⟩ := h1
              rw [← e1] at h4
              exact absurd hf ((not_le_zero_iff _).mpr h4)
          · rw [if_neg hf]
            constructor
            · intro h
              simp only [Except.ok.injEq] at h
              subst h
              exact ⟨rfl, not_lt.mp (fun h => hm (Or.inl h)), not_lt.mp (fun h => hm (Or.inr h)),
                (not_le_zero_iff _).mp hf⟩
            · rintro ⟨h1, _, _, _⟩
              simp only [Option.some.injEq, Except.ok.injEq, Prod.mk.injEq] at h1
              obtain ⟨e1, e2⟩ := h1
              simp only [Except.ok.injEq]
              exact Prod.ext e2 e1

/-- The same, instantiated: a consistent-trees reader that reports success with multipliers 1000
and fraction 1 makes the router succeed; a reader that fails with `EXIT_FAILURE` makes it
return that status; an unrecognised tree type gives `INVALID_OPTION_IN_PARAMS`. -/
theorem router_status_witness :
    setup_forests_io false succeeding_readers 104 two_files ctrees_params blank_info 0 2
      = .ok ({ reset_multipliers ctrees_params with
                FileNr_Mulfac := 1000, ForestNr_Mulfac := 1000 },
             { reset_fraction blank_info with frac_volume_processed := .val 1 }) ∧
    setup_forests_io false failing_readers 104 two_files ctrees_params blank_info 0 2
      = .error .EXIT_FAILURE ∧
    setup_forests_io false failing_readers 104 two_files other_params blank_info 0 2
      = .error .INVALID_OPTION_IN_PARAMS :=
  ⟨((router_status false succeeding_readers 104 two_files ctrees_params blank_info 0 2).2.2.2
      _).mpr ⟨rfl, by decide, by decide, Or.inl (by show (0 : Rat) < 1; norm_num)⟩,
   (router_status false failing_readers 104 two_files ctrees_params blank_info 0 2).2.1
      _ rfl,
   ((router_status false failing_readers 104 two_files other_params blank_info 0 2).1
      ⟨by decide, by decide, by decide⟩).2 failing_readers⟩

/-- C12 (the code at the failing input). A `consistent_trees_ascii` reader that reports
success with both multipliers 1000 and leaves `frac_volume_processed` a NaN: the test
`frac_volume_processed <= 0.0` of line 80 is false for a NaN, and `setup_forests_io` returns
success although the fraction is not `> 0.0`. -/
theorem nan_fraction_accepted :
    ∃ rp fi,
      setup_forests_io false nan_readers 104 two_files ctrees_params blank_info 0 2
        = .ok (rp, fi) ∧
      rp.FileNr_Mulfac = 1000 ∧ rp.ForestNr_Mulfac = 1000 ∧
      fi.frac_volume_processed = .nan ∧
      ¬ fi.frac_volume_processed.gt_zero ∧ ¬ fi.frac_volume_processed.le_zero :=
  ⟨{ reset_multipliers ctrees_params with FileNr_Mulfac := 1000, ForestNr_Mulfac := 1000 },
    { reset_fraction blank_info with frac_volume_processed := .nan },
    rfl, rfl, rfl, rfl, fun h => h, fun h => h⟩

theorem setup_keeps_bookkeeping (sz : Int) (files : Int → Option LHaloFile)
    (info : forest_info) (f0 lastfile t NT : Int) (st : forest_info)
    (h : setup_forests_io_lht_binary sz files info f0 lastfile t NT = .ok st) :
    st.FileNr = info.FileNr ∧ st.original_treenr = info.original_treenr := by
  obtain ⟨_, _, tab, T, fl, _, _, _, _, hst⟩ := setup_inv sz files info f0 lastfile t NT st h
  subst hst
  exact ⟨rfl, rfl⟩

/-- C14 (the code at the failing input). Task 1 of 2 on `two_files` owns the global forests
4 to 7; its local forest 0 is forest 4 of file 0 and its local forest 1 is forest 0 of file 1.
After the successful setup `FileNr` and `original_treenr` hold what they held before the call
(9 at every index): `FileNr[1]` is not 1 and `original_treenr[0]` is not 4. -/
theorem bookkeeping_not_stored :
    ∃ st, setup_forests_io_lht_binary 104 two_files stale_info 0 1 1 2 = .ok st ∧
      start_forestnum st.totnforests 1 2 + 0
        = forests_in_files (nforests_in_file two_files) 0 0 + 4 ∧
      start_forestnum st.totnforests 1 2 + 1
        = forests_in_files (nforests_in_file two_files) 0 1 + 0 ∧
      st.FileNr 0 = 9 ∧ st.original_treenr 0 = 9 ∧
      st.FileNr 1 = 9 ∧ st.original_treenr 1 = 9 ∧
      st.FileNr = stale_info.FileNr ∧ st.original_treenr = stale_info.original_treenr :=
  ⟨forest_info_of (setup_forests_io_lht_binary 104 two_files stale_info 0 1 1 2) stale_info,
    rfl, by decide, by decide, by decide, by decide, by decide, by decide, rfl, rfl⟩

/-! ## Claims on `save_galaxies` and the index generator, continued -/

/-- C20. Whenever `generate_galaxy_indices` fails for the forest, `save_galaxies` returns a
failure status (`EXIT_FAILURE`; a division by zero ends the run instead) and makes no call of
the write operation of the output backend: its outcome is the same for every write
operation. -/
theorem no_output_on_index_failure (HDF5 : Bool) (write : WriteCall → Except Status Unit)
    (stack : Int → Int) (task_forestnr numgals : Int) (halos : Int → halo_data)
    (forest_info : forest_info) (haloaux : Int → halo_aux_data) (halogal : Int → GALAXY)
    (run_params : params) (e : Status)
    (h : generate_galaxy_indices halos
        (output_order run_params stack numgals halogal haloaux).haloaux
        (remap_merge_targets
          (output_order run_params stack numgals halogal haloaux).OutputGalOrder halogal
          numgals.toNat)
        numgals (forest_info.original_treenr task_forestnr) (forest_info.FileNr task_forestnr)
        run_params.FileNr_Mulfac run_params.ForestNr_Mulfac = .error e) :
    (save_galaxies HDF5 write stack task_forestnr numgals halos forest_info haloaux halogal
        run_params).written = [] ∧
    (save_galaxies HDF5 write stack task_forestnr numgals halos forest_info haloaux halogal
        run_params).status = .error (if e = .SIGFPE then .SIGFPE else .EXIT_FAILURE) ∧
    (∀ write' : WriteCall → Except Status Unit,
      (save_galaxies HDF5 write' stack task_forestnr numgals halos forest_info haloaux halogal
          run_params).written = [] ∧
      (save_galaxies HDF5 write' stack task_forestnr numgals halos forest_info haloaux halogal
          run_params).status
        = (save_galaxies HDF5 write stack task_forestnr numgals halos forest_info haloaux
            halogal run_params).status) := by
  have key : ∀ w : WriteCall → Except Status Unit,
      save_galaxies HDF5 w stack task_forestnr numgals halos forest_info haloaux halogal
        run_params
      = { status := .error (if e = .SIGFPE then .SIGFPE else .EXIT_FAILURE), written := [] } := by
    intro w
    unfold save_galaxies
    simp only
    rw [h]
  refine ⟨by rw [key write], by rw [key write], ?_⟩
  intro w
  rw [key w, key write]
  exact ⟨rfl, rfl⟩

/-- C20, instantiated: five galaxies of a forest with original tree number 9 and multipliers
5 and 5 (`9 * 5 > 5`): the index generator fails, no write call is made. -/
theorem no_output_on_index_failure_witness :
    (save_galaxies false (fun _ => .ok ()) (fun _ => 0) 0 5 one_halo stale_info one_haloaux
        five_galaxies binary_params).written = [] ∧
    (save_galaxies false (fun _ => .ok ()) (fun _ => 0) 0 5 one_halo stale_info one_haloaux
        five_galaxies binary_params).status = .error .EXIT_FAILURE :=
  ⟨(no_output_on_index_failure false (fun _ => .ok ()) (fun _ => 0) 0 5 one_halo stale_info
      one_haloaux five_galaxies binary_params .EXIT_FAILURE (by rfl)).1,
   (no_output_on_index_failure false (fun _ => .ok ()) (fun _ => 0) 0 5 one_halo stale_info
      one_haloaux five_galaxies binary_params .EXIT_FAILURE (by rfl)).2.1⟩

theorem generate_fails (halos : Int → halo_data) (haloaux : Int → halo_aux_data)
    (halogal : Int → GALAXY) (numgals forestnr filenr flm fm : Int)
    (i : Int) (hi0 : 0 ≤ i) (hi : i < numgals)
    (hv : ¬ index_checks_pass (GalaxyNr_of halogal i)
      (CentralGalaxyNr_of halos haloaux halogal i) forestnr filenr flm fm)
    (hz1 : forestnr ≤ 0 ∨ wrap64 fm ≠ 0) (hz2 : filenr ≤ 0 ∨ wrap64 flm ≠ 0) :
    generate_galaxy_indices halos haloaux halogal numgals forestnr filenr flm fm
      = .error .EXIT_FAILURE := by
  cases hres : generate_galaxy_indices halos haloaux halogal numgals forestnr filenr flm fm with
  | ok out =>
    unfold generate_galaxy_indices at hres
    obtain ⟨_, l2, _⟩ := generate_galaxy_indices_loop_spec halos haloaux forestnr filenr
      flm fm _ _ _ _ hres
    obtain ⟨chk, _, _⟩ := l2 i.toNat (by omega)
    have eidx : (0 : Int) + (i.toNat : Int) = i := by omega
    rw [eidx] at chk
    exact absurd chk hv
  | error e =>
    unfold generate_galaxy_indices at hres
    rcases generate_galaxy_indices_loop_error halos haloaux forestnr filenr flm fm
      _ _ _ _ hres with he | ⟨_, hz⟩
    · rw [he]
    · rcases hz with ⟨a, b⟩ | ⟨a, b⟩
      · rcases hz1 with c | c
        · omega
        · exact absurd b c
      · rcases hz2 with c | c
        · omega
        · exact absurd b c

/-- C11. In every call of `generate_galaxy_indices` in which no test divides by a zero
multiplier: the call returns failure whenever the central local id of one of its galaxies
exceeds `forestnr_mulfac`, the central galaxy being one of the galaxies of the call (the test
that fires is the one on the central galaxy's own `GalaxyNr`), as it does whenever a
`GalaxyNr` exceeds `forestnr_mulfac`; and it returns failure whenever adding
`CentralGalaxyNr` to `id_from_forest_and_file` would overflow 64 bits, as it does for
`GalaxyNr`. -/
theorem central_validation (halos : Int → halo_data) (haloaux : Int → halo_aux_data)
    (halogal : Int → GALAXY) (numgals forestnr filenr flm fm : Int)
    (hz1 : forestnr ≤ 0 ∨ wrap64 fm ≠ 0) (hz2 : filenr ≤ 0 ∨ wrap64 flm ≠ 0)
    (i : Int) (hi0 : 0 ≤ i) (hi : i < numgals) :
    (0 ≤ (haloaux (halos (halogal i).HaloNr).FirstHaloInFOFgroup).FirstGalaxy →
      (haloaux (halos (halogal i).HaloNr).FirstHaloInFOFgroup).FirstGalaxy < numgals →
      fm < CentralGalaxyNr_of halos haloaux halogal i →
      generate_galaxy_indices halos haloaux halogal numgals forestnr filenr flm fm
        = .error .EXIT_FAILURE) ∧
    (fm < GalaxyNr_of halogal i →
      generate_galaxy_indices halos haloaux halogal numgals forestnr filenr flm fm
        = .error .EXIT_FAILURE) ∧
    (2 ^ 64 ≤ CentralGalaxyNr_of halos haloaux halogal i
        + id_from_forest_and_file forestnr filenr flm fm →
      generate_galaxy_indices halos haloaux halogal numgals forestnr filenr flm fm
        = .error .EXIT_FAILURE) ∧
    (2 ^ 64 ≤ GalaxyNr_of halogal i + id_from_forest_and_file forestnr filenr flm fm →
      generate_galaxy_indices halos haloaux halogal numgals forestnr filenr flm fm
        = .error .EXIT_FAILURE) := by
  refine ⟨?_, ?_, ?_, ?_⟩
  · intro hc0 hc hgt
    refine generate_fails halos haloaux halogal numgals forestnr filenr flm fm
      (haloaux (halos (halogal i).HaloNr).FirstHaloInFOFgroup).FirstGalaxy hc0 hc ?_ hz1 hz2
    intro hchk
    have h1 := hchk.1
    have e : CentralGalaxyNr_of halos haloaux halogal i
        = GalaxyNr_of halogal
            (haloaux (halos (halogal i).HaloNr).FirstHaloInFOFgroup).FirstGalaxy := rfl
    omega
  · intro hgt
    refine generate_fails halos haloaux halogal numgals forestnr filenr flm fm i hi0 hi ?_
      hz1 hz2
    intro hchk
    have h1 := hchk.1
    omega
  · intro hov
    refine generate_fails halos haloaux halogal numgals forestnr filenr flm fm i hi0 hi ?_
      hz1 hz2
    intro hchk
    have h7 := hchk.2.2.2.2.2.2
    omega
  · intro hov
    refine generate_fails halos haloaux halogal numgals forestnr filenr flm fm i hi0 hi ?_
      hz1 hz2
    intro hchk
    have h6 := hchk.2.2.2.2.2.1
    omega

/-- C11, instantiated: two galaxies, the central of galaxy 0 is galaxy 1 with
`GalaxyNr = 1 > forestnr_mulfac = 0`. -/
theorem central_validation_witness :
    generate_galaxy_indices one_halo haloaux_first_one galaxies_zero_one 2 0 0 0 0
      = .error .EXIT_FAILURE :=
  (central_validation one_halo haloaux_first_one galaxies_zero_one 2 0 0 0 0
    (Or.inl (by decide)) (Or.inl (by decide)) 0 (by decide) (by decide)).1
    (by decide) (by decide) (by decide)

/-- C15 (as stated, refuted). The header counts 3 and -3 of `cancelling_files` sum to zero.
For task 0 of 1 the range is `[0, 0)`; file 0 passes the start test of line 108 (`0 >= 0` and
`0 < 3`) and the end test of line 118, and the setup returns success with
`nforests_this_task = 0`, having opened file 0 (descriptor 3 in `open_fds[0]`). -/
theorem cancelling_headers_succeed :
    total_forests cancelling_files 0 1 = 0 ∧
    ∃ st, setup_forests_io_lht_binary 104 cancelling_files blank_info 0 1 0 1 = .ok st ∧
      st.totnforests = 0 ∧ st.nforests_this_task = 0 ∧
      st.lht.numfiles = 1 ∧ st.lht.open_fds 0 = 3 :=
  ⟨by decide,
    forest_info_of (setup_forests_io_lht_binary 104 cancelling_files blank_info 0 1 0 1)
      blank_info,
    rfl, by decide, by decide, by decide, by decide⟩

/-- C15 (amended). When the forest counts of the headers of all files `firstfile .. lastfile`
are not negative and sum to zero, `setup_forests_io_lht_binary` returns `-1` for every
`ThisTask` and every `NTasks ≥ 1`; the file scan leaves `start_filenum = -1`, so the return is
the one of line 143 (or of line 24, when the range of files is empty), ahead of the per-file
pass with its assertions and its `open` calls. -/
theorem zero_forests_fail (sz : Int) (files : Int → Option LHaloFile) (info : forest_info)
    (f0 lastfile t NT : Int) (hf0 : 0 ≤ f0) (hNT : 1 ≤ NT)
    (hfiles : ∀ g, f0 ≤ g → g ≤ lastfile → ∃ f, files g = some f)
    (hcounts : ∀ g, f0 ≤ g → g ≤ lastfile → 0 ≤ nforests_in_file files g)
    (hzero : total_forests files f0 lastfile = 0) :
    setup_forests_io_lht_binary sz files info f0 lastfile t NT = .error .MINUS_ONE ∧
    (∀ (tab : Int → Int) (T : Int),
      count_forests files (lastfile - f0 + 1).toNat f0 (fun _ => 0) 0 = .ok (tab, T) →
      (scan_result tab T t NT (lastfile - f0 + 1).toNat f0).start_filenum = -1) := by
  have hscan : ∀ (tab : Int → Int) (T : Int),
      count_forests files (lastfile - f0 + 1).toNat f0 (fun _ => 0) 0 = .ok (tab, T) →
      (scan_result tab T t NT (lastfile - f0 + 1).toNat f0).start_filenum = -1 := by
    intro tab T hcount
    obtain ⟨hc1, hc2, hc3⟩ := count_forests_spec files _ _ _ _ _ _ hcount
    have hnn : ∀ g, 0 ≤ tab g :=
      header_counts_nonneg files _ f0 tab T hcount (fun g h1 h2 => hcounts g h1 (by omega))
    have hTtab : forests_in_files tab f0 (lastfile - f0 + 1).toNat = 0 := by
      rw [← hzero]
      unfold total_forests
      exact (forests_in_files_congr _ _ _ _ (fun g h1 h2 => (hc1 g h1 h2).2.symm)).symm
    have hall : ∀ i : Nat, i ≤ (lastfile - f0 + 1).toNat → forests_in_files tab f0 i = 0 := by
      intro i hi
      have h1 := forests_in_files_mono tab f0 hnn i _ hi
      have h2 := forests_in_files_nonneg tab f0 i (fun m _ => hnn _)
      omega
    obtain ⟨_, _, _, s4, _⟩ := scan_files_spec tab f0 (start_forestnum T t NT)
      (end_forestnum T t NT) (nforests_this_task T t NT) hf0 (lastfile - f0 + 1).toNat
    rcases s4 with ⟨h, _⟩ | ⟨i, hi, _, ht⟩
    · exact h
    · unfold start_test at ht
      have h1 := hall i (by omega)
      have h2 := hall (i + 1) (by omega)
      omega
  refine ⟨?_, hscan⟩
  unfold setup_forests_io_lht_binary
  simp only
  by_cases hn : lastfile - f0 + 1 ≤ 0
  · rw [if_pos hn]
  · rw [if_neg hn]
    obtain ⟨tab, T, hcount⟩ := count_forests_ok files (lastfile - f0 + 1).toNat f0
      (fun _ => 0) 0 (fun g h1 h2 => hfiles g h1 (by omega))
    have hs := hscan tab T hcount
    unfold scan_result scan_init at hs
    rw [hcount]
    simp only
    rw [if_neg (by omega), if_pos (Or.inl hs)]

/-- C15 (amended), instantiated: two files without forests, task 0 of 2. -/
theorem zero_forests_fail_witness :
    setup_forests_io_lht_binary 104 empty_files blank_info 0 1 0 2 = .error .MINUS_ONE :=
  (zero_forests_fail 104 empty_files blank_info 0 1 0 2 (by decide) (by decide)
    (fun g h0 h1 => by
      have hg : g = 0 ∨ g = 1 := by omega
      rcases hg with rfl | rfl
      · exact ⟨_, rfl⟩
      · exact ⟨_, rfl⟩)
    (fun g h0 h1 => by
      have hg : g = 0 ∨ g = 1 := by omega
      rcases hg with rfl | rfl <;> decide)
    (by decide)).1

/-! ## The ordering pass of `save_galaxies` -/

theorem galaxies_at_succ (halogal : Int → GALAXY) (snap : Int) (n : Nat) :
    galaxies_at halogal snap (n + 1)
      = galaxies_at halogal snap n + (if (halogal (n : Int)).SnapNum = snap then 1 else 0) := by
  unfold galaxies_at
  rw [Finset.range_succ, Finset.filter_insert]
  split_ifs with h
  · rw [Finset.card_insert_of_not_mem]
    simp
  · rfl

theorem galaxies_at_mono (halogal : Int → GALAXY) (snap : Int) (a b : Nat) (hab : a ≤ b) :
    galaxies_at halogal snap a ≤ galaxies_at halogal snap b := by
  induction b with
  | zero =>
    have : a = 0 := by omega
    subst this
    exact le_refl _
  | succ k ih =>
    rcases Nat.lt_or_ge a (k + 1) with h | h
    · have h1 := ih (by omega)
      rw [galaxies_at_succ]
      omega
    · have : a = k + 1 := by omega
      subst this
      exact le_refl _

theorem galaxies_at_lt (halogal : Int → GALAXY) (snap : Int) (g n : Nat) (hg : g < n)
    (hs : (halogal (g : Int)).SnapNum = snap) :
    galaxies_at halogal snap g < galaxies_at halogal snap n := by
  have h1 := galaxies_at_mono halogal snap (g + 1) n (by omega)
  rw [galaxies_at_succ, if_pos hs] at h1
  omega

theorem exists_rank (halogal : Int → GALAXY) (snap : Int) (p : Nat) :
    ∀ n : Nat, p < galaxies_at halogal snap n →
      ∃ g : Nat, g < n ∧ (halogal (g : Int)).SnapNum = snap
        ∧ galaxies_at halogal snap g = p := by
  intro n
  induction n with
  | zero =>
    intro h
    simp [galaxies_at] at h
  | succ k ih =>
    intro h
    by_cases hk : p < galaxies_at halogal snap k
    · obtain ⟨g, hg, hs, hr⟩ := ih hk
      exact ⟨g, by omega, hs, hr⟩
    · rw [galaxies_at_succ] at h
      by_cases hs : (halogal (k : Int)).SnapNum = snap
      · rw [if_pos hs] at h
        exact ⟨k, by omega, hs, by omega⟩
      · rw [if_neg hs] at h
        omega

theorem zero_output_count_spec (c : Int → Int) (n : Nat) (s : Int) :
    zero_output_count c n s = if 0 ≤ s ∧ s < n then 0 else c s := by
  induction n with
  | zero =>
    rw [if_neg (by push_cast; omega)]
    rfl
  | succ k ih =>
    show Function.update (zero_output_count c k) (k : Int) 0 s = _
    by_cases hs : s = (k : Int)
    · subst hs
      rw [Function.update_same, if_pos (by push_cast; omega)]
    · rw [Function.update_noteq hs, ih]
      by_cases h : 0 ≤ s ∧ s < (k : Int)
      · rw [if_pos h, if_pos (by push_cast; omega)]
      · rw [if_neg h, if_neg (by push_cast; omega)]

theorem reset_output_order_spec (s : OutputOrder) (n : Nat) :
    (reset_output_order s n).OutputGalCount = s.OutputGalCount ∧
    (∀ g : Int, 0 ≤ g → g < n →
      (reset_output_order s n).OutputGalOrder g = -1 ∧
      (reset_output_order s n).haloaux g = { s.haloaux g with output_snap_n := -1 }) ∧
    (∀ g : Int, ¬ (0 ≤ g ∧ g < n) →
      (reset_output_order s n).OutputGalOrder g = s.OutputGalOrder g ∧
      (reset_output_order s n).haloaux g = s.haloaux g) := by
  induction n with
  | zero =>
    refine ⟨rfl, ?_, ?_⟩
    · intro g h0 h1
      push_cast at h1
      omega
    · intro g _
      exact ⟨rfl, rfl⟩
  | succ k ih =>
    obtain ⟨i1, i2, i3⟩ := ih
    refine ⟨i1, ?_, ?_⟩
    · intro g h0 h1
      show Function.update (reset_output_order s k).OutputGalOrder (k : Int) (-1) g = -1 ∧
        Function.update (reset_output_order s k).haloaux (k : Int)
          { (reset_output_order s k).haloaux (k : Int) with output_snap_n := -1 } g
          = { s.haloaux g with output_snap_n := -1 }
      by_cases hg : g = (k : Int)
      · subst hg
        rw [Function.update_same, Function.update_same]
        refine ⟨rfl, ?_⟩
        rw [(i3 (k : Int) (by omega)).2]
      · rw [Function.update_noteq hg, Function.update_noteq hg]
        exact i2 g h0 (by push_cast at h1; omega)
    · intro g hg
      show Function.update (reset_output_order s k).OutputGalOrder (k : Int) (-1) g
          = s.OutputGalOrder g ∧
        Function.update (reset_output_order s k).haloaux (k : Int)
          { (reset_output_order s k).haloaux (k : Int) with output_snap_n := -1 } g
          = s.haloaux g
      have hne : g ≠ (k : Int) := by push_cast at hg; omega
      rw [Function.update_noteq hne, Function.update_noteq hne]
      exact i3 g (by push_cast at hg; omega)

theorem order_snapshot_spec (halogal : Int → GALAXY) (L : Int → Int) (sidx : Int)
    (s : OutputOrder) (n : Nat) :
    (order_snapshot halogal L sidx s n).OutputGalCount sidx
      = s.OutputGalCount sidx + galaxies_at halogal (L sidx) n ∧
    (∀ s' : Int, s' ≠ sidx →
      (order_snapshot halogal L sidx s n).OutputGalCount s' = s.OutputGalCount s') ∧
    (∀ g : Nat, g < n → (halogal (g : Int)).SnapNum = L sidx →
      (order_snapshot halogal L sidx s n).OutputGalOrder g
        = s.OutputGalCount sidx + galaxies_at halogal (L sidx) g ∧
      (order_snapshot halogal L sidx s n).haloaux g
        = { s.haloaux g with output_snap_n := sidx }) ∧
    (∀ g : Int, (¬ (0 ≤ g ∧ g < n) ∨ (halogal g).SnapNum ≠ L sidx) →
      (order_snapshot halogal L sidx s n).OutputGalOrder g = s.OutputGalOrder g ∧
      (order_snapshot halogal L sidx s n).haloaux g = s.haloaux g) := by
  induction n with
  | zero =>
    refine ⟨by simp [order_snapshot, galaxies_at], fun _ _ => rfl, ?_, fun _ _ => ⟨rfl, rfl⟩⟩
    intro g hg
    omega
  | succ k ih =>
    obtain ⟨i1, i2, i3, i4⟩ := ih
    have e : order_snapshot halogal L sidx s (k + 1)
        = order_galaxy halogal L sidx (order_snapshot halogal L sidx s k) (k : Int) := rfl
    rw [e, galaxies_at_succ]
    unfold order_galaxy
    by_cases hk : (halogal (k : Int)).SnapNum = L sidx
    · rw [if_pos hk, if_pos hk]
      refine ⟨?_, ?_, ?_, ?_⟩
      · simp only [Function.update_same]
        rw [i1]
        push_cast
        ring
      · intro s' hs'
        simp only
        rw [Function.update_noteq hs']
        exact i2 s' hs'
      · intro g hg hsn
        simp only
        by_cases hgk : g = k
        · subst hgk
          rw [Function.update_same, Function.update_same, i1]
          refine ⟨rfl, ?_⟩
          rw [(i4 (g : Int) (Or.inl (by omega))).2]
        · have hne : (g : Int) ≠ (k : Int) := by omega
          rw [Function.update_noteq hne, Function.update_noteq hne]
          exact i3 g (by omega) hsn
      · intro g hg
        simp only
        have hne : g ≠ (k : Int) := by
          rcases hg with hg | hg
          · push_cast at hg
            omega
          · intro hc
            subst hc
            exact hg hk
        rw [Function.update_noteq hne, Function.update_noteq hne]
        refine i4 g ?_
        rcases hg with hg | hg
        · left
          push_cast at hg
          omega
        · exact Or.inr hg
    · rw [if_neg hk, if_neg hk]
      refine ⟨by rw [i1]; simp, i2, ?_, ?_⟩
      · intro g hg hsn
        have hgk : g ≠ k := by
          intro hc
          subst hc
          exact hk hsn
        exact i3 g (by omega) hsn
      · intro g hg
        refine i4 g ?_
        rcases hg with hg | hg
        · by_cases hgk : g = (k : Int)
          · subst hgk
            exact Or.inr hk
          · left
            push_cast at hg
            omega
        · exact Or.inr hg

theorem order_snapshots_spec (halogal : Int → GALAXY) (L : Int → Int) (numgals : Nat)
    (s0 : OutputOrder) (K : Nat)
    (hdist : ∀ a b : Nat, a < K → b < K → L (a : Int) = L (b : Int) → a = b) :
    ∀ k : Nat, k ≤ K →
    (∀ sl : Nat, sl < k →
      (order_snapshots halogal L numgals s0 k).OutputGalCount sl
        = s0.OutputGalCount sl + galaxies_at halogal (L sl) numgals) ∧
    (∀ sl : Int, ¬ (0 ≤ sl ∧ sl < k) →
      (order_snapshots halogal L numgals s0 k).OutputGalCount sl = s0.OutputGalCount sl) ∧
    (∀ sl g : Nat, sl < k → g < numgals → (halogal (g : Int)).SnapNum = L sl →
      (order_snapshots halogal L numgals s0 k).OutputGalOrder g
        = s0.OutputGalCount sl + galaxies_at halogal (L sl) g ∧
      (order_snapshots halogal L numgals s0 k).haloaux g
        = { s0.haloaux g with output_snap_n := sl }) ∧
    (∀ g : Int, (¬ (0 ≤ g ∧ g < numgals) ∨
        ∀ sl : Nat, sl < k → (halogal g).SnapNum ≠ L sl) →
      (order_snapshots halogal L numgals s0 k).OutputGalOrder g = s0.OutputGalOrder g ∧
      (order_snapshots halogal L numgals s0 k).haloaux g = s0.haloaux g) := by
  intro k
  induction k with
  | zero =>
    intro _
    refine ⟨?_, fun _ _ => rfl, ?_, fun _ _ => ⟨rfl, rfl⟩⟩
    · intro sl h
      omega
    · intro sl g h
      omega
  | succ k ih =>
    intro hk
    obtain ⟨i1, i2, i3, i4⟩ := ih (by omega)
    obtain ⟨o1, o2, o3, o4⟩ :=
      order_snapshot_spec halogal L (k : Int) (order_snapshots halogal L numgals s0 k) numgals
    have e : order_snapshots halogal L numgals s0 (k + 1)
        = order_snapshot halogal L (k : Int) (order_snapshots halogal L numgals s0 k)
            numgals := rfl
    rw [e]
    refine ⟨?_, ?_, ?_, ?_⟩
    · intro sl hsl
      by_cases hslk : sl = k
      · subst hslk
        rw [o1, i2 (sl : Int) (by omega)]
      · rw [o2 (sl : Int) (by omega)]
        exact i1 sl (by omega)
    · intro sl hsl
      rw [o2 sl (by push_cast at hsl; omega)]
      exact i2 sl (by push_cast at hsl; omega)
    · intro sl g hsl hg hsn
      by_cases hslk : sl = k
      · subst hslk
        obtain ⟨p1, p2⟩ := o3 g hg hsn
        have hfresh : ∀ a : Nat, a < sl → (halogal (g : Int)).SnapNum ≠ L a := by
          intro a ha hc
          have := hdist a sl (by omega) (by omega) (by rw [← hc, hsn])
          omega
        rw [p1, p2, i2 (sl : Int) (by omega), (i4 (g : Int) (Or.inr hfresh)).2]
        exact ⟨rfl, rfl⟩
      · have hne : (halogal (g : Int)).SnapNum ≠ L (k : Int) := by
          intro hc
          have := hdist sl k (by omega) (by omega) (by rw [← hc, hsn])
          exact hslk this
        obtain ⟨p1, p2⟩ := o4 (g : Int) (Or.inr hne)
        rw [p1, p2]
        exact i3 sl g (by omega) hg hsn
    · intro g hg
      rcases hg with hg | hg
      · obtain ⟨p1, p2⟩ := o4 g (Or.inl hg)
        rw [p1, p2]
        exact i4 g (Or.inl hg)
      · obtain ⟨p1, p2⟩ := o4 g (Or.inr (hg k (by omega)))
        rw [p1, p2]
        exact i4 g (Or.inr (fun sl hsl => hg sl (by omega)))

/-- The ordering pass of `save_galaxies`, for pairwise distinct output snapshots and
`NOUT ≤ MAXSNAPS`: counts, write positions and recorded slots. -/
theorem output_order_spec (run_params : params) (stack : Int → Int) (numgals : Int)
    (halogal : Int → GALAXY) (haloaux : Int → halo_aux_data)
    (hdist : ∀ a b : Nat, (a : Int) < run_params.NOUT → (b : Int) < run_params.NOUT →
      run_params.ListOutputSnaps a = run_params.ListOutputSnaps b → a = b)
    (hmax : run_params.NOUT ≤ run_params.MAXSNAPS) :
    (∀ sl : Nat, (sl : Int) < run_params.NOUT →
      (output_order run_params stack numgals halogal haloaux).OutputGalCount sl
        = galaxies_at halogal (run_params.ListOutputSnaps sl) numgals.toNat) ∧
    (∀ sl g : Nat, (sl : Int) < run_params.NOUT → (g : Int) < numgals →
      (halogal (g : Int)).SnapNum = run_params.ListOutputSnaps sl →
      (output_order run_params stack numgals halogal haloaux).OutputGalOrder g
        = galaxies_at halogal (run_params.ListOutputSnaps sl) g ∧
      (output_order run_params stack numgals halogal haloaux).haloaux g
        = { haloaux g with output_snap_n := sl }) ∧
    (∀ g : Nat, (g : Int) < numgals →
      (∀ sl : Nat, (sl : Int) < run_params.NOUT →
        (halogal (g : Int)).SnapNum ≠ run_params.ListOutputSnaps sl) →
      (output_order run_params stack numgals halogal haloaux).OutputGalOrder g = -1 ∧
      (output_order run_params stack numgals halogal haloaux).haloaux g
        = { haloaux g with output_snap_n := -1 }) := by
  obtain ⟨r1, r2, _⟩ :=
    reset_output_order_spec
      { OutputGalCount := zero_output_count stack run_params.MAXSNAPS.toNat
        OutputGalOrder := fun _ => 0
        haloaux := haloaux } numgals.toNat
  obtain ⟨i1, _, i3, i4⟩ :=
    order_snapshots_spec halogal run_params.ListOutputSnaps numgals.toNat
      (reset_output_order
        { OutputGalCount := zero_output_count stack run_params.MAXSNAPS.toNat
          OutputGalOrder := fun _ => 0
          haloaux := haloaux } numgals.toNat)
      run_params.NOUT.toNat
      (fun a b ha hb => hdist a b (by omega) (by omega))
      run_params.NOUT.toNat (le_refl _)
  have hzero : ∀ sl : Nat, (sl : Int) < run_params.NOUT →
      (reset_output_order
        { OutputGalCount := zero_output_count stack run_params.MAXSNAPS.toNat
          OutputGalOrder := fun _ => 0
          haloaux := haloaux } numgals.toNat).OutputGalCount sl = 0 := by
    intro sl hsl
    rw [r1]
    show zero_output_count stack run_params.MAXSNAPS.toNat (sl : Int) = 0
    rw [zero_output_count_spec, if_pos (by omega)]
  refine ⟨?_, ?_, ?_⟩
  · intro sl hsl
    show (order_snapshots _ _ _ _ _).OutputGalCount (sl : Int) = _
    rw [i1 sl (by omega), hzero sl hsl, zero_add]
  · intro sl g hsl hg hsn
    obtain ⟨p1, p2⟩ := i3 sl g (by omega) (by omega) hsn
    obtain ⟨_, q2⟩ := r2 (g : Int) (by omega) (by omega)
    refine ⟨?_, ?_⟩
    · show (order_snapshots _ _ _ _ _).OutputGalOrder (g : Int) = _
      rw [p1, hzero sl hsl, zero_add]
    · show (order_snapshots _ _ _ _ _).haloaux (g : Int) = _
      rw [p2, q2]
  · intro g hg hno
    obtain ⟨p1, p2⟩ := i4 (g : Int) (Or.inr (fun sl hsl => hno sl (by omega)))
    obtain ⟨q1, q2⟩ := r2 (g : Int) (by omega) (by omega)
    refine ⟨?_, ?_⟩
    · show (order_snapshots _ _ _ _ _).OutputGalOrder (g : Int) = _
      rw [p1, q1]
    · show (order_snapshots _ _ _ _ _).haloaux (g : Int) = _
      rw [p2, q2]

/-- What `save_galaxies` does once the index generator has returned the galaxy array `out`:
for the binary format it makes one call of `save_binary_galaxies`, with the counts and the
auxiliary array of the ordering pass and with `out`, and returns its status. -/
theorem save_galaxies_binary (HDF5 : Bool) (write : WriteCall → Except Status Unit)
    (stack : Int → Int) (f numgals : Int) (halos : Int → halo_data)
    (fi : forest_info) (haloaux : Int → halo_aux_data) (halogal : Int → GALAXY)
    (run_params : params) (out : Int → GALAXY)
    (hgen : generate_galaxy_indices halos
        (output_order run_params stack numgals halogal haloaux).haloaux
        (remap_merge_targets
          (output_order run_params stack numgals halogal haloaux).OutputGalOrder halogal
          numgals.toNat)
        numgals (fi.original_treenr f) (fi.FileNr f) run_params.FileNr_Mulfac
        run_params.ForestNr_Mulfac = .ok out)
    (hfmt : run_params.OutputFormat = .sage_binary) :
    save_galaxies HDF5 write stack f numgals halos fi haloaux halogal run_params
      = { status := write (.save_binary_galaxies f numgals
            (output_order run_params stack numgals halogal haloaux).OutputGalCount fi halos
            (output_order run_params stack numgals halogal haloaux).haloaux out)
          written := [.save_binary_galaxies f numgals
            (output_order run_params stack numgals halogal haloaux).OutputGalCount fi halos
            (output_order run_params stack numgals halogal haloaux).haloaux out] } := by
  unfold save_galaxies
  simp only [hgen, hfmt]

/-- The same for the HDF5 format, when HDF5 is compiled in: one call of `save_hdf5_galaxies`,
which is handed no counts. -/
theorem save_galaxies_hdf5 (write : WriteCall → Except Status Unit)
    (stack : Int → Int) (f numgals : Int) (halos : Int → halo_data)
    (fi : forest_info) (haloaux : Int → halo_aux_data) (halogal : Int → GALAXY)
    (run_params : params) (out : Int → GALAXY)
    (hgen : generate_galaxy_indices halos
        (output_order run_params stack numgals halogal haloaux).haloaux
        (remap_merge_targets
          (output_order run_params stack numgals halogal haloaux).OutputGalOrder halogal
          numgals.toNat)
        numgals (fi.original_treenr f) (fi.FileNr f) run_params.FileNr_Mulfac
        run_params.ForestNr_Mulfac = .ok out)
    (hfmt : run_params.OutputFormat = .sage_hdf5) :
    save_galaxies true write stack f numgals halos fi haloaux halogal run_params
      = { status := write (.save_hdf5_galaxies f numgals fi halos
            (output_order run_params stack numgals halogal haloaux).haloaux out)
          written := [.save_hdf5_galaxies f numgals fi halos
            (output_order run_params stack numgals halogal haloaux).haloaux out] } := by
  unfold save_galaxies
  simp only [hgen, hfmt, if_true]

/-- Every call of the write operation made by `save_galaxies` is one of these two, made after
the index generator returned success. -/
theorem written_cases (HDF5 : Bool) (write : WriteCall → Except Status Unit)
    (stack : Int → Int) (f numgals : Int) (halos : Int → halo_data)
    (fi : forest_info) (haloaux : Int → halo_aux_data) (halogal : Int → GALAXY)
    (run_params : params) :
    ∀ call ∈ (save_galaxies HDF5 write stack f numgals halos fi haloaux halogal
        run_params).written,
      ∃ out, generate_galaxy_indices halos
          (output_order run_params stack numgals halogal haloaux).haloaux
          (remap_merge_targets
            (output_order run_params stack numgals halogal haloaux).OutputGalOrder halogal
            numgals.toNat)
          numgals (fi.original_treenr f) (fi.FileNr f) run_params.FileNr_Mulfac
          run_params.ForestNr_Mulfac = .ok out ∧
        (call = .save_binary_galaxies f numgals
            (output_order run_params stack numgals halogal haloaux).OutputGalCount fi halos
            (output_order run_params stack numgals halogal haloaux).haloaux out
          ∨ call = .save_hdf5_galaxies f numgals fi halos
            (output_order run_params stack numgals halogal haloaux).haloaux out) := by
  intro call hc
  unfold save_galaxies at hc
  simp only at hc
  cases hgen : generate_galaxy_indices halos
      (output_order run_params stack numgals halogal haloaux).haloaux
      (remap_merge_targets
        (output_order run_params stack numgals halogal haloaux).OutputGalOrder halogal
        numgals.toNat)
      numgals (fi.original_treenr f) (fi.FileNr f) run_params.FileNr_Mulfac
      run_params.ForestNr_Mulfac with
  | error e =>
    rw [hgen] at hc
    simp at hc
  | ok out =>
    rw [hgen] at hc
    simp only at hc
    refine ⟨out, rfl, ?_⟩
    split at hc
    · simp only [List.mem_singleton] at hc
      exact Or.inl hc
    · split_ifs at hc
      · simp only [List.mem_singleton] at hc
        exact Or.inr hc
      · simp at hc
    · simp at hc

theorem remap_merge_targets_spec (order : Int → Int) (halogal : Int → GALAXY) (n : Nat)
    (g : Int) :
    remap_merge_targets order halogal n g
      = if 0 ≤ g ∧ g < n ∧ (halogal g).mergeIntoID > -1 then
          { halogal g with mergeIntoID := order (halogal g).mergeIntoID }
        else halogal g := by
  induction n generalizing g with
  | zero =>
    rw [if_neg (by push_cast; omega)]
    rfl
  | succ k ih =>
    have hk : remap_merge_targets order halogal k (k : Int) = halogal (k : Int) := by
      rw [ih, if_neg (by omega)]
    show (if (remap_merge_targets order halogal k (k : Int)).mergeIntoID > -1 then
        Function.update (remap_merge_targets order halogal k) (k : Int)
          { remap_merge_targets order halogal k (k : Int) with
            mergeIntoID :=
              order (remap_merge_targets order halogal k (k : Int)).mergeIntoID }
      else remap_merge_targets order halogal k) g = _
    rw [hk]
    by_cases hm : (halogal (k : Int)).mergeIntoID > -1
    · rw [if_pos hm]
      by_cases hg : g = (k : Int)
      · subst hg
        rw [Function.update_same, if_pos ⟨by omega, by push_cast; omega, hm⟩]
      · rw [Function.update_noteq hg, ih]
        by_cases hc : 0 ≤ g ∧ g < (k : Int) ∧ (halogal g).mergeIntoID > -1
        · rw [if_pos hc, if_pos ⟨hc.1, by push_cast; omega, hc.2.2⟩]
        · rw [if_neg hc, if_neg]
          intro hc2
          apply hc
          refine ⟨hc2.1, ?_, hc2.2.2⟩
          have := hc2.2.1
          push_cast at this
          omega
    · rw [if_neg hm, ih]
      by_cases hc : 0 ≤ g ∧ g < (k : Int) ∧ (halogal g).mergeIntoID > -1
      · rw [if_pos hc, if_pos ⟨hc.1, by push_cast; omega, hc.2.2⟩]
      · rw [if_neg hc, if_neg]
        intro hc2
        apply hc
        refine ⟨hc2.1, ?_, hc2.2.2⟩
        have h1 := hc2.2.1
        push_cast at h1
        have hne : g ≠ (k : Int) := by
          intro he
          subst he
          exact hm hc2.2.2
        omega

/-- The output snapshots of `binary_params` are pairwise distinct. -/
theorem binary_params_distinct (a b : Nat) (ha : (a : Int) < binary_params.NOUT)
    (hb : (b : Int) < binary_params.NOUT)
    (h : binary_params.ListOutputSnaps a = binary_params.ListOutputSnaps b) : a = b := by
  have hN : binary_params.NOUT = 2 := rfl
  rw [hN] at ha hb
  have ha2 : a < 2 := by omega
  have hb2 : b < 2 := by omega
  interval_cases a <;> interval_cases b <;> first | rfl | (exact absurd h (by decide))

/-! ## Claims about the ordering pass and the merge targets -/

/-- C18: in `save_galaxies`, for pairwise distinct output snapshots (and `NOUT ≤ MAXSNAPS`, the
length of the count array): when the index generator succeeds and the output format is
`sage_binary`, the one call of the writer is the call of `save_binary_galaxies` with the
count array and the auxiliary array of the ordering pass (`save_hdf5_galaxies` is handed no
count array), and every call of a writer carries the auxiliary array of the ordering pass;
for each slot `s < NOUT` the count is the number of galaxies whose
`SnapNum` is `ListOutputSnaps[s]`; such a galaxy gets as write position the number of earlier
galaxies of the same snapshot, which lies in `[0, count)`, grows strictly with the array
index and reaches every value of `[0, count)`, and gets `output_snap_n = s`; a galaxy at no
output snapshot keeps position `-1` and `output_snap_n = -1`. -/
theorem write_positions (HDF5 : Bool) (write : WriteCall → Except Status Unit)
    (stack : Int → Int) (task_forestnr numgals : Int) (halos : Int → halo_data)
    (fi : forest_info) (haloaux : Int → halo_aux_data) (halogal : Int → GALAXY)
    (run_params : params)
    (hdist : ∀ a b : Nat, (a : Int) < run_params.NOUT → (b : Int) < run_params.NOUT →
      run_params.ListOutputSnaps a = run_params.ListOutputSnaps b → a = b)
    (hmax : run_params.NOUT ≤ run_params.MAXSNAPS) :
    (∀ out, generate_galaxy_indices halos
        (output_order run_params stack numgals halogal haloaux).haloaux
        (remap_merge_targets
          (output_order run_params stack numgals halogal haloaux).OutputGalOrder halogal
          numgals.toNat)
        numgals (fi.original_treenr task_forestnr) (fi.FileNr task_forestnr)
        run_params.FileNr_Mulfac run_params.ForestNr_Mulfac = .ok out →
      run_params.OutputFormat = .sage_binary →
      (save_galaxies HDF5 write stack task_forestnr numgals halos fi haloaux halogal
          run_params).written
        = [.save_binary_galaxies task_forestnr numgals
            (output_order run_params stack numgals halogal haloaux).OutputGalCount fi halos
            (output_order run_params stack numgals halogal haloaux).haloaux out]) ∧
    (∀ call ∈ (save_galaxies HDF5 write stack task_forestnr numgals halos fi haloaux halogal
        run_params).written,
      call.haloaux = (output_order run_params stack numgals halogal haloaux).haloaux) ∧
    (∀ s : Nat, (s : Int) < run_params.NOUT →
      (output_order run_params stack numgals halogal haloaux).OutputGalCount s
        = galaxies_at halogal (run_params.ListOutputSnaps s) numgals.toNat ∧
      (∀ g : Nat, (g : Int) < numgals →
        (halogal (g : Int)).SnapNum = run_params.ListOutputSnaps s →
        (output_order run_params stack numgals halogal haloaux).OutputGalOrder g
          = galaxies_at halogal (run_params.ListOutputSnaps s) g ∧
        0 ≤ (output_order run_params stack numgals halogal haloaux).OutputGalOrder g ∧
        (output_order run_params stack numgals halogal haloaux).OutputGalOrder g
          < (output_order run_params stack numgals halogal haloaux).OutputGalCount s ∧
        ((output_order run_params stack numgals halogal haloaux).haloaux g).output_snap_n
          = s) ∧
      (∀ g g2 : Nat, g < g2 → (g2 : Int) < numgals →
        (halogal (g : Int)).SnapNum = run_params.ListOutputSnaps s →
        (halogal (g2 : Int)).SnapNum = run_params.ListOutputSnaps s →
        (output_order run_params stack numgals halogal haloaux).OutputGalOrder g
          < (output_order run_params stack numgals halogal haloaux).OutputGalOrder g2) ∧
      (∀ p : Int, 0 ≤ p →
        p < (output_order run_params stack numgals halogal haloaux).OutputGalCount s →
        ∃ g : Nat, (g : Int) < numgals ∧
          (halogal (g : Int)).SnapNum = run_params.ListOutputSnaps s ∧
          (output_order run_params stack numgals halogal haloaux).OutputGalOrder g = p)) ∧
    (∀ g : Nat, (g : Int) < numgals →
      (∀ s : Nat, (s : Int) < run_params.NOUT →
        (halogal (g : Int)).SnapNum ≠ run_params.ListOutputSnaps s) →
      (output_order run_params stack numgals halogal haloaux).OutputGalOrder g = -1 ∧
      ((output_order run_params stack numgals halogal haloaux).haloaux g).output_snap_n
        = -1) := by
  obtain ⟨c1, c2, c3⟩ := output_order_spec run_params stack numgals halogal haloaux hdist hmax
  refine ⟨?_, ?_, ?_, ?_⟩
  · intro out hgen hfmt
    rw [save_galaxies_binary HDF5 write stack task_forestnr numgals halos fi haloaux halogal
      run_params out hgen hfmt]
  · intro call hcall
    obtain ⟨out, _, hc | hc⟩ := written_cases HDF5 write stack task_forestnr numgals halos fi
      haloaux halogal run_params call hcall
    · rw [hc]
      rfl
    · rw [hc]
      rfl
  · intro s hs
    refine ⟨c1 s hs, ?_, ?_, ?_⟩
    · intro g hg hsn
      obtain ⟨p1, p2⟩ := c2 s g hs hg hsn
      have hlt := galaxies_at_lt halogal (run_params.ListOutputSnaps s) g numgals.toNat
        (by omega) hsn
      refine ⟨p1, ?_, ?_, ?_⟩
      · rw [p1]
        exact Int.natCast_nonneg _
      · rw [p1, c1 s hs]
        exact_mod_cast hlt
      · rw [p2]
    · intro g g2 hgg hg2 hsn hsn2
      rw [(c2 s g hs (by omega) hsn).1, (c2 s g2 hs hg2 hsn2).1]
      exact_mod_cast galaxies_at_lt halogal (run_params.ListOutputSnaps s) g g2 hgg hsn
    · intro p hp0 hp
      rw [c1 s hs] at hp
      obtain ⟨g, hg, hsn, hr⟩ :=
        exists_rank halogal (run_params.ListOutputSnaps s) p.toNat numgals.toNat (by omega)
      refine ⟨g, by omega, hsn, ?_⟩
      rw [(c2 s g hs (by omega) hsn).1, hr]
      omega
  · intro g hg hno
    obtain ⟨p1, p2⟩ := c3 g hg hno
    exact ⟨p1, by rw [p2]⟩

/-- C18, instantiated: five galaxies at the snapshots 10, 20, 10, 30, 10 with the output
snapshots 10 and 20; the galaxy 3 is at no output snapshot. -/
theorem write_positions_witness :
    (output_order binary_params (fun _ => 7) 5 five_galaxies haloaux_first_one).OutputGalCount
        ((0 : Nat) : Int)
      = galaxies_at five_galaxies (binary_params.ListOutputSnaps ((0 : Nat) : Int))
          (5 : Int).toNat ∧
    (output_order binary_params (fun _ => 7) 5 five_galaxies haloaux_first_one).OutputGalOrder
        ((3 : Nat) : Int) = -1 :=
  ⟨((write_positions false (fun _ => .ok ()) (fun _ => 7) 0 5 one_halo blank_info
      haloaux_first_one five_galaxies binary_params binary_params_distinct
      (by decide)).2.2.1 0 (by decide)).1,
   ((write_positions false (fun _ => .ok ()) (fun _ => 7) 0 5 one_halo blank_info
      haloaux_first_one five_galaxies binary_params binary_params_distinct
      (by decide)).2.2.2 3 (by decide)
      (fun s hs => by
        have hN : binary_params.NOUT = 2 := rfl
        rw [hN] at hs
        have hs2 : s < 2 := by omega
        interval_cases s <;> decide)).1⟩

/-- C19, counterexample: galaxy 2 of `five_galaxies` has the merge target 3, inside
`[0, 5)`; the target is at snapshot 30, which is no output snapshot, and the remapped
reference is `-1`, not a write position. -/
theorem merge_target_without_position :
    (five_galaxies 2).mergeIntoID = 3 ∧
    (remap_merge_targets
        (output_order binary_params (fun _ => 7) 5 five_galaxies
          haloaux_first_one).OutputGalOrder
        five_galaxies (5 : Int).toNat 2).mergeIntoID = -1 ∧
    ¬ (0 ≤ (remap_merge_targets
        (output_order binary_params (fun _ => 7) 5 five_galaxies
          haloaux_first_one).OutputGalOrder
        five_galaxies (5 : Int).toNat 2).mergeIntoID) := by
  refine ⟨rfl, by rfl, ?_⟩
  have h : (remap_merge_targets
        (output_order binary_params (fun _ => 7) 5 five_galaxies
          haloaux_first_one).OutputGalOrder
        five_galaxies (5 : Int).toNat 2).mergeIntoID = -1 := by rfl
  rw [h]
  decide

/-- C19, amended: for pairwise distinct output snapshots and `NOUT ≤ MAXSNAPS`, the remapping
leaves `mergeIntoID = -1` unchanged, and replaces a target `t` in `[0, numgals)` by the
write position of `t`; this is a position `p` with `0 ≤ p < OutputGalCount[s]` when the
target is at the output snapshot of slot `s`, and `-1` when the target is at no output
snapshot. -/
theorem merge_target_remap (run_params : params) (stack : Int → Int) (numgals : Int)
    (halogal : Int → GALAXY) (haloaux : Int → halo_aux_data)
    (hdist : ∀ a b : Nat, (a : Int) < run_params.NOUT → (b : Int) < run_params.NOUT →
      run_params.ListOutputSnaps a = run_params.ListOutputSnaps b → a = b)
    (hmax : run_params.NOUT ≤ run_params.MAXSNAPS)
    (g : Nat) (hg : (g : Int) < numgals) :
    ((halogal (g : Int)).mergeIntoID = -1 →
      (remap_merge_targets
        (output_order run_params stack numgals halogal haloaux).OutputGalOrder
        halogal numgals.toNat g).mergeIntoID = -1) ∧
    (∀ t : Nat, (halogal (g : Int)).mergeIntoID = t → (t : Int) < numgals →
      (remap_merge_targets
        (output_order run_params stack numgals halogal haloaux).OutputGalOrder
        halogal numgals.toNat g).mergeIntoID
        = (output_order run_params stack numgals halogal haloaux).OutputGalOrder t ∧
      (∀ s : Nat, (s : Int) < run_params.NOUT →
        (halogal (t : Int)).SnapNum = run_params.ListOutputSnaps s →
        0 ≤ (remap_merge_targets
          (output_order run_params stack numgals halogal haloaux).OutputGalOrder
          halogal numgals.toNat g).mergeIntoID ∧
        (remap_merge_targets
          (output_order run_params stack numgals halogal haloaux).OutputGalOrder
          halogal numgals.toNat g).mergeIntoID
          < (output_order run_params stack numgals halogal haloaux).OutputGalCount s) ∧
      ((∀ s : Nat, (s : Int) < run_params.NOUT →
          (halogal (t : Int)).SnapNum ≠ run_params.ListOutputSnaps s) →
        (remap_merge_targets
          (output_order run_params stack numgals halogal haloaux).OutputGalOrder
          halogal numgals.toNat g).mergeIntoID = -1)) := by
  obtain ⟨c1, c2, c3⟩ := output_order_spec run_params stack numgals halogal haloaux hdist hmax
  refine ⟨?_, ?_⟩
  · intro hm
    rw [remap_merge_targets_spec, if_neg (by omega)]
    exact hm
  · intro t ht htn
    have hnew : (remap_merge_targets
        (output_order run_params stack numgals halogal haloaux).OutputGalOrder
        halogal numgals.toNat g).mergeIntoID
        = (output_order run_params stack numgals halogal haloaux).OutputGalOrder t := by
      rw [remap_merge_targets_spec, if_pos ⟨by omega, by omega, by omega⟩, ht]
    refine ⟨hnew, ?_, ?_⟩
    · intro s hs hsn
      have hlt := galaxies_at_lt halogal (run_params.ListOutputSnaps s) t numgals.toNat
        (by omega) hsn
      rw [hnew, (c2 s t hs htn hsn).1, c1 s hs]
      exact ⟨Int.natCast_nonneg _, by exact_mod_cast hlt⟩
    · intro hno
      rw [hnew]
      exact (c3 t htn hno).1

/-- C19 amended, instantiated: galaxy 0 of `five_galaxies` merges into galaxy 2. -/
theorem merge_target_remap_witness :
    (remap_merge_targets
        (output_order binary_params (fun _ => 7) 5 five_galaxies
          haloaux_first_one).OutputGalOrder
        five_galaxies (5 : Int).toNat ((0 : Nat) : Int)).mergeIntoID
      = (output_order binary_params (fun _ => 7) 5 five_galaxies
          haloaux_first_one).OutputGalOrder ((2 : Nat) : Int) :=
  ((merge_target_remap binary_params (fun _ => 7) 5 five_galaxies haloaux_first_one
      binary_params_distinct (by decide) 0 (by decide)).2 2 rfl (by decide)).1

/-! ## The fraction of the volume a task processes -/

theorem sum_frac_volume_eq (num tot : Int → Int) :
    ∀ (n : Nat) (g0 : Int) (acc : Rat),
      sum_frac_volume num tot n g0 acc
        = acc + ∑ m in Finset.range n, (num (g0 + m) : Rat) / (tot (g0 + m) : Rat) := by
  intro n
  induction n with
  | zero =>
    intro g0 acc
    simp [sum_frac_volume]
  | succ k ih =>
    intro g0 acc
    show sum_frac_volume num tot k (g0 + 1) (acc + (num g0 : Rat) / (tot g0 : Rat)) = _
    rw [ih, Finset.sum_range_succ']
    have e : ∀ m : Nat, g0 + 1 + (m : Int) = g0 + ((m + 1 : Nat) : Int) := by
      intro m
      push_cast
      ring
    simp only [e]
    simp only [Nat.cast_zero, add_zero]
    ring

theorem owned_in_file_eq (tot : Int → Int) (f0 S E : Int) (i : Nat) :
    (owned_in_file tot f0 S E i : Int)
      = max 0 (min (forests_in_files tot f0 (i + 1)) E - max (forests_in_files tot f0 i) S) := by
  unfold owned_in_file
  rw [Finset.Ico_inter_Ico, Int.card_Ico]
  show ((min (forests_in_files tot f0 (i + 1)) E - max (forests_in_files tot f0 i) S).toNat
    : Int) = _
  omega

theorem start_forestnum_zero (T N : Int) (hN : 1 ≤ N) (hT : 0 ≤ T) :
    start_forestnum T 0 N = 0 := by
  obtain ⟨_, hr⟩ := tdiv_tmod_nonneg T N hN hT
  have hr0 : 0 ≤ T % N := Int.emod_nonneg T (by omega)
  unfold start_forestnum
  rw [hr]
  split_ifs <;> omega

theorem start_forestnum_last (T N : Int) (hN : 1 ≤ N) (hT : 0 ≤ T) :
    start_forestnum T N N = T := by
  obtain ⟨hq, hr⟩ := tdiv_tmod_nonneg T N hN hT
  have hrN : T % N < N := Int.emod_lt_of_pos T (by omega)
  have hdm : N * (T / N) + T % N = T := Int.ediv_add_emod T N
  have hc : T / N * N = N * (T / N) := mul_comm _ _
  unfold start_forestnum
  rw [hq, hr, if_neg (by omega)]
  omega

/-- A task of the run whose range starts below the total owns at least one forest. -/
theorem owns_when_start_below (T t NT : Int) (hT : 0 ≤ T) (ht0 : 0 ≤ t) (htN : t < NT)
    (hS : start_forestnum T t NT < T) : 1 ≤ nforests_this_task T t NT := by
  obtain ⟨hq, hr⟩ := tdiv_tmod_nonneg T NT (by omega) hT
  have hr0 : 0 ≤ T % NT := Int.emod_nonneg T (by omega)
  have hdm : NT * (T / NT) + T % NT = T := Int.ediv_add_emod T NT
  have hq0 : 0 ≤ T / NT := Int.ediv_nonneg hT (by omega)
  unfold start_forestnum at hS
  unfold nforests_this_task
  rw [hq, hr] at hS ⊢
  by_cases hlt : t < T % NT
  · rw [if_pos hlt]
    omega
  · rw [if_neg hlt] at hS ⊢
    by_contra hcon
    have hz : T / NT = 0 := by omega
    rw [hz] at hS hdm
    simp only [zero_mul, mul_zero, zero_add] at hS hdm
    omega

/-- What a successful setup of a task `0 ≤ t < NT` on files whose header counts are not
negative tells about the files it reads and the fraction it stores: `iF` and `iE` are the positions of `start_filenum` and `end_filenum` in
the run. -/
theorem setup_frac_facts (sz : Int) (files : Int → Option LHaloFile) (info : forest_info)
    (f0 lastfile t NT : Int) (st : forest_info) (hf0 : 0 ≤ f0) (ht0 : 0 ≤ t) (htN : t < NT)
    (hcounts : ∀ g, f0 ≤ g → g ≤ lastfile → 0 ≤ nforests_in_file files g)
    (h : setup_forests_io_lht_binary sz files info f0 lastfile t NT = .ok st) :
    ∃ iF iE : Nat, iF ≤ iE ∧ (iE : Int) < lastfile - f0 + 1 ∧
      start_test (nforests_in_file files) f0
        (start_forestnum (total_forests files f0 lastfile) t NT) iF ∧
      end_test (nforests_in_file files) f0
        (end_forestnum (total_forests files f0 lastfile) t NT) iE ∧
      st.lht.numfiles = (iE : Int) - (iF : Int) + 1 ∧
      1 ≤ nforests_this_task (total_forests files f0 lastfile) t NT ∧
      (∀ i : Nat, iF ≤ i → i ≤ iE → 1 ≤ nforests_in_file files (f0 + i)) ∧
      st.frac_volume_processed
        = .val (∑ i in Finset.Icc iF iE,
            (owned_in_file (nforests_in_file files) f0
                (start_forestnum (total_forests files f0 lastfile) t NT)
                (end_forestnum (total_forests files f0 lastfile) t NT) i : Rat)
              / (nforests_in_file files (f0 + i) : Rat)) := by
  obtain ⟨hn, hNT, tab, T, fl, hcount, hF, hE, hproc, hst⟩ :=
    setup_inv sz files info f0 lastfile t NT st h
  obtain ⟨hc1, hc2, hc3⟩ := count_forests_spec files _ _ _ _ _ _ hcount
  have hnZ : (((lastfile - f0 + 1).toNat : Nat) : Int) = lastfile - f0 + 1 :=
    Int.toNat_of_nonneg (by omega)
  have hnn : ∀ g, 0 ≤ tab g :=
    header_counts_nonneg files _ f0 tab T hcount (fun g h1 h2 => hcounts g h1 (by omega))
  have hc : ∀ i : Nat, (i : Int) ≤ lastfile - f0 + 1 →
      forests_in_files (nforests_in_file files) f0 i = forests_in_files tab f0 i := by
    intro i hi
    exact (forests_in_files_congr _ _ _ _ (fun g h1 h2 => (hc1 g h1 (by omega)).2.symm))
  have hT : T = total_forests files f0 lastfile := by
    unfold total_forests
    rw [hc3]
    simp
  rw [← hT]
  have hTc : T = forests_in_files tab f0 (lastfile - f0 + 1).toNat := by
    rw [hc3, zero_add]
    exact hc _ (by omega)
  obtain ⟨_, _, s3, s4, s5⟩ := scan_files_spec tab f0 (start_forestnum T t NT)
    (end_forestnum T t NT) (nforests_this_task T t NT) hf0 (lastfile - f0 + 1).toNat
  unfold scan_result at hF hE hproc hst
  generalize scan_files tab (start_forestnum T t NT) (end_forestnum T t NT)
    (nforests_this_task T t NT) (lastfile - f0 + 1).toNat f0 scan_init = sc
    at hF hE hproc hst s3 s4 s5
  rcases s4 with ⟨hbad, _⟩ | ⟨iF, hiF, hFeq, hFt⟩
  · exact absurd hbad hF
  rcases s5 with ⟨hbad, _⟩ | ⟨iE, hiE, hEeq, hEt⟩
  · exact absurd hbad hE
  obtain ⟨_, p2, _, _⟩ := process_files_spec sz files tab sc _ _ _ _ _ hproc
  have hFt' := hFt
  have hEt' := hEt
  unfold start_test at hFt'
  unfold end_test at hEt'
  have hN : end_forestnum T t NT = start_forestnum T t NT + nforests_this_task T t NT := rfl
  have hT0 : 0 ≤ T := by
    rw [hTc]
    exact forests_in_files_nonneg tab f0 _ (fun m _ => hnn _)
  have hSlt : start_forestnum T t NT < T := by
    have := forests_in_files_mono tab f0 hnn (iF + 1) (lastfile - f0 + 1).toNat (by omega)
    omega
  have hown := owns_when_start_below T t NT hT0 ht0 htN hSlt
  have hle : iF ≤ iE := by
    have := forests_in_files_lt tab f0 hnn iF (iE + 1) (by omega)
    omega
  have htab : ∀ i : Nat, i < (lastfile - f0 + 1).toNat →
      tab (f0 + (i : Int)) = nforests_in_file files (f0 + (i : Int)) :=
    fun i hi => (hc1 _ (by omega) (by omega)).2
  have hnum : ∀ i : Nat, iF ≤ i → i ≤ iE →
      sc.num_forests_to_process_per_file (f0 + (i : Int))
        = ((owned_in_file (nforests_in_file files) f0 (start_forestnum T t NT)
            (end_forestnum T t NT) i : Nat) : Int) := by
    intro i h1 h2
    have hsucc := forests_in_files_succ tab f0 i
    have hmono : iF < i → forests_in_files tab f0 (iF + 1) ≤ forests_in_files tab f0 i :=
      fun hlt => forests_in_files_mono tab f0 hnn _ _ (by omega)
    have hmonoE : i < iE → forests_in_files tab f0 (i + 1) ≤ forests_in_files tab f0 iE :=
      fun hlt => forests_in_files_mono tab f0 hnn _ _ (by omega)
    have hti := hnn (f0 + (i : Int))
    rw [s3 i (by omega), num_in_file_eq tab f0 _ _ _ hnn hN iF iE i hFt hEt h1 h2,
      owned_in_file_eq, hc i (by omega), hc (i + 1) (by push_cast; omega)]
    have hFi : i = iF → forests_in_files tab f0 i ≤ start_forestnum T t NT
        ∧ start_forestnum T t NT < forests_in_files tab f0 (i + 1) := by
      intro he
      rw [he]
      exact hFt'
    have hEi : i = iE → forests_in_files tab f0 i ≤ end_forestnum T t NT
        ∧ end_forestnum T t NT ≤ forests_in_files tab f0 (i + 1) := by
      intro he
      rw [he]
      exact hEt'
    by_cases hiF' : i = iF
    · have := hFi hiF'
      by_cases hiE' : i = iE
      · have := hEi hiE'
        rw [if_pos hiF', if_pos hiE']
        omega
      · rw [if_pos hiF', if_neg hiE']
        have := hmonoE (by omega)
        omega
    · by_cases hiE' : i = iE
      · have := hEi hiE'
        rw [if_neg hiF', if_pos hiE']
        have := hmono (by omega)
        omega
      · rw [if_neg hiF', if_neg hiE']
        have := hmono (by omega)
        have := hmonoE (by omega)
        omega
  refine ⟨iF, iE, hle, by omega, ?_, ?_, ?_, hown, ?_, ?_⟩
  · unfold start_test
    rw [hc iF (by omega), hc (iF + 1) (by push_cast; omega)]
    exact hFt'
  · unfold end_test
    rw [hc iE (by omega), hc (iE + 1) (by push_cast; omega)]
    exact hEt'
  · subst hst
    show sc.end_filenum - sc.start_filenum + 1 = _
    rw [hFeq, hEeq]
    omega
  · intro i h1 h2
    obtain ⟨_, _, _, hs, _⟩ := p2 (i - iF) (by rw [hFeq, hEeq]; omega)
    have hidx : sc.start_filenum + ((i - iF : Nat) : Int) = f0 + (i : Int) := by
      rw [hFeq]
      omega
    rw [hidx] at hs
    rw [← htab i (by omega)]
    omega
  · subst hst
    show CDouble.val (sum_frac_volume sc.num_forests_to_process_per_file tab
      (sc.end_filenum - sc.start_filenum + 1).toNat sc.start_filenum 0) = _
    congr 1
    have hcnt : (sc.end_filenum - sc.start_filenum + 1).toNat = iE + 1 - iF := by
      rw [hFeq, hEeq]
      omega
    rw [sum_frac_volume_eq, zero_add, hcnt, ← Nat.Ico_succ_right,
      Finset.sum_Ico_eq_sum_range, hFeq]
    refine Finset.sum_congr rfl (fun m hm => ?_)
    have hm2 : m < iE + 1 - iF := Finset.mem_range.mp hm
    have e : f0 + (iF : Int) + (m : Int) = f0 + ((iF + m : Nat) : Int) := by
      push_cast
      ring
    rw [e, hnum (iF + m) (by omega) (by omega), htab (iF + m) (by omega)]
    push_cast
    rfl

/-- The fraction a successful setup of a task `0 ≤ t < NT` stores is positive, when no header
count is negative. -/
theorem setup_frac_pos (sz : Int) (files : Int → Option LHaloFile) (info : forest_info)
    (f0 lastfile t NT : Int) (st : forest_info) (hf0 : 0 ≤ f0) (ht0 : 0 ≤ t) (htN : t < NT)
    (hcounts : ∀ g, f0 ≤ g → g ≤ lastfile → 0 ≤ nforests_in_file files g)
    (h : setup_forests_io_lht_binary sz files info f0 lastfile t NT = .ok st) :
    ∃ q : Rat, st.frac_volume_processed = .val q ∧ 0 < q := by
  obtain ⟨iF, iE, hle, _, hFt, _, _, hown, htot, hfrac⟩ :=
    setup_frac_facts sz files info f0 lastfile t NT st hf0 ht0 htN hcounts h
  refine ⟨_, hfrac, ?_⟩
  have hN : end_forestnum (total_forests files f0 lastfile) t NT
      = start_forestnum (total_forests files f0 lastfile) t NT
        + nforests_this_task (total_forests files f0 lastfile) t NT := rfl
  apply Finset.sum_pos'
  · intro i hi
    obtain ⟨h1, h2⟩ := Finset.mem_Icc.mp hi
    have := htot i h1 h2
    exact div_nonneg (Nat.cast_nonneg _)
      (by exact_mod_cast (by omega : 0 ≤ nforests_in_file files (f0 + (i : Int))))
  · refine ⟨iF, Finset.mem_Icc.mpr ⟨le_refl _, hle⟩, ?_⟩
    have h1 := htot iF (le_refl _) hle
    have h2 := owned_in_file_eq (nforests_in_file files) f0
      (start_forestnum (total_forests files f0 lastfile) t NT)
      (end_forestnum (total_forests files f0 lastfile) t NT) iF
    unfold start_test at hFt
    have h3 : 0 < owned_in_file (nforests_in_file files) f0
        (start_forestnum (total_forests files f0 lastfile) t NT)
        (end_forestnum (total_forests files f0 lastfile) t NT) iF := by omega
    exact div_pos (by exact_mod_cast h3)
      (by exact_mod_cast (by omega : 0 < nforests_in_file files (f0 + (iF : Int))))

/-- C17 (as stated, refuted). On `cancelling_files`, whose header counts are 3 and -3, the
setup of task 0 of 1 succeeds; the task reads file 0 only, processes none of its 3 forests,
and stores the fraction `0/3 = 0`, which is not strictly positive. -/
theorem zero_fraction_after_setup :
    nforests_in_file cancelling_files 0 = 3 ∧ nforests_in_file cancelling_files 1 = -3 ∧
    ∃ st, setup_forests_io_lht_binary 104 cancelling_files blank_info 0 1 0 1 = .ok st ∧
      st.lht.numfiles = 1 ∧ st.frac_volume_processed = .val 0 ∧
      ¬ st.frac_volume_processed.gt_zero := by
  have h0 : (forest_info_of
      (setup_forests_io_lht_binary 104 cancelling_files blank_info 0 1 0 1)
      blank_info).frac_volume_processed = .val 0 := by with_unfolding_all rfl
  refine ⟨by decide, by decide,
    forest_info_of (setup_forests_io_lht_binary 104 cancelling_files blank_info 0 1 0 1)
      blank_info, rfl, by decide, h0, ?_⟩
  rw [h0]
  show ¬ ((0 : Rat) < 0)
  norm_num

/-- C17 (amended). After a successful `setup_forests_io_lht_binary` on files whose header
counts are not negative and on a task `0 ≤ t < NTasks` (file numbers are not negative), with
`iF` and `iE` the positions in the run of the first file that holds the start of the task's
range and of the file `end_filenum` (the task reads `iE - iF + 1` files),
`frac_volume_processed` is the sum over the files `iF .. iE` of the number of forests of the
file inside `[start_forestnum, end_forestnum)` divided by the number of forests its header
declares, in exact rational arithmetic, and it is strictly positive. -/
theorem frac_volume_formula (sz : Int) (files : Int → Option LHaloFile) (info : forest_info)
    (f0 lastfile t NT : Int) (st : forest_info) (hf0 : 0 ≤ f0) (ht0 : 0 ≤ t) (htN : t < NT)
    (hcounts : ∀ g, f0 ≤ g → g ≤ lastfile → 0 ≤ nforests_in_file files g)
    (h : setup_forests_io_lht_binary sz files info f0 lastfile t NT = .ok st) :
    (∃ iF iE : Nat, iF ≤ iE ∧ (iE : Int) < lastfile - f0 + 1 ∧
      start_test (nforests_in_file files) f0
        (start_forestnum (total_forests files f0 lastfile) t NT) iF ∧
      end_test (nforests_in_file files) f0
        (end_forestnum (total_forests files f0 lastfile) t NT) iE ∧
      st.lht.numfiles = (iE : Int) - (iF : Int) + 1 ∧
      st.frac_volume_processed
        = .val (∑ i in Finset.Icc iF iE,
            (owned_in_file (nforests_in_file files) f0
                (start_forestnum (total_forests files f0 lastfile) t NT)
                (end_forestnum (total_forests files f0 lastfile) t NT) i : Rat)
              / (nforests_in_file files (f0 + i) : Rat))) ∧
    st.frac_volume_processed.gt_zero := by
  obtain ⟨iF, iE, hle, hiE, hFt, hEt, hnum, _, _, hfrac⟩ :=
    setup_frac_facts sz files info f0 lastfile t NT st hf0 ht0 htN hcounts h
  obtain ⟨q, hq, hpos⟩ := setup_frac_pos sz files info f0 lastfile t NT st hf0 ht0 htN hcounts h
  refine ⟨⟨iF, iE, hle, hiE, hFt, hEt, hnum, hfrac⟩, ?_⟩
  rw [hq]
  exact hpos

/-- C17 (amended), instantiated: task 0 of 2 on `two_files`. -/
theorem frac_volume_formula_witness :
    (forest_info_of (setup_forests_io_lht_binary 104 two_files blank_info 0 1 0 2)
      blank_info).frac_volume_processed.gt_zero :=
  (frac_volume_formula 104 two_files blank_info 0 1 0 2
    (forest_info_of (setup_forests_io_lht_binary 104 two_files blank_info 0 1 0 2) blank_info)
    (by decide) (by decide) (by decide) two_files_counts rfl).2

theorem steps_mono (S : Nat → Int) :
    ∀ K : Nat, (∀ t : Nat, t < K → S t ≤ S (t + 1)) → S 0 ≤ S K := by
  intro K
  induction K with
  | zero =>
    intro _
    exact le_refl _
  | succ k ih =>
    intro h
    exact le_trans (ih (fun t ht => h t (by omega))) (h k (by omega))

/-- Consecutive ranges `[S t, S (t + 1))`, `t < K`, cut a finite set of integers into pieces
whose sizes add up to the size of its part inside `[S 0, S K)`. -/
theorem tile_card (A : Finset Int) (S : Nat → Int) :
    ∀ K : Nat, (∀ t : Nat, t < K → S t ≤ S (t + 1)) →
      ∑ t in Finset.range K, (A ∩ Finset.Ico (S t) (S (t + 1))).card
        = (A ∩ Finset.Ico (S 0) (S K)).card := by
  intro K
  induction K with
  | zero =>
    intro _
    simp
  | succ k ih =>
    intro h
    have h0 := steps_mono S k (fun t ht => h t (by omega))
    have h1 := h k (by omega)
    rw [Finset.sum_range_succ, ih (fun t ht => h t (by omega)),
      ← Finset.Ico_union_Ico_eq_Ico h0 h1, Finset.inter_union_distrib_left,
      Finset.card_union_of_disjoint]
    exact Finset.disjoint_of_subset_left Finset.inter_subset_right
      (Finset.disjoint_of_subset_right Finset.inter_subset_right
        (Finset.Ico_disjoint_Ico_consecutive _ _ _))

/-- The fraction of a successful setup as a sum over all files of the run: the files outside
`start_filenum .. end_filenum` hold no forest of the task. -/
theorem setup_frac_all_files (sz : Int) (files : Int → Option LHaloFile) (info : forest_info)
    (f0 lastfile t NT : Int) (st : forest_info) (hf0 : 0 ≤ f0) (ht0 : 0 ≤ t) (htN : t < NT)
    (hcounts : ∀ g, f0 ≤ g → g ≤ lastfile → 0 ≤ nforests_in_file files g)
    (h : setup_forests_io_lht_binary sz files info f0 lastfile t NT = .ok st) :
    st.frac_volume_processed
      = .val (∑ i in Finset.range (lastfile - f0 + 1).toNat,
          (owned_in_file (nforests_in_file files) f0
              (start_forestnum (total_forests files f0 lastfile) t NT)
              (end_forestnum (total_forests files f0 lastfile) t NT) i : Rat)
            / (nforests_in_file files (f0 + i) : Rat)) := by
  obtain ⟨iF, iE, hle, hiE, hFt, hEt, _, _, _, hfrac⟩ :=
    setup_frac_facts sz files info f0 lastfile t NT st hf0 ht0 htN hcounts h
  obtain ⟨hn, _⟩ := setup_inv sz files info f0 lastfile t NT st h
  have hnZ : (((lastfile - f0 + 1).toNat : Nat) : Int) = lastfile - f0 + 1 :=
    Int.toNat_of_nonneg (by omega)
  rw [hfrac]
  congr 1
  unfold start_test at hFt
  unfold end_test at hEt
  apply Finset.sum_subset
  · intro x hx
    obtain ⟨_, h2⟩ := Finset.mem_Icc.mp hx
    exact Finset.mem_range.mpr (by omega)
  · intro x hxn hx
    have hxl : x < (lastfile - f0 + 1).toNat := Finset.mem_range.mp hxn
    have hout : x < iF ∨ iE < x := by
      by_contra hc
      exact hx (Finset.mem_Icc.mpr ⟨by omega, by omega⟩)
    have hmono := forests_in_files_mono_on (nforests_in_file files) f0
      (lastfile - f0 + 1).toNat (fun m hm => hcounts _ (by omega) (by omega))
    have hsucc := forests_in_files_succ (nforests_in_file files) f0 x
    have hx0 := hcounts (f0 + (x : Int)) (by omega) (by omega)
    have heq := owned_in_file_eq (nforests_in_file files) f0
      (start_forestnum (total_forests files f0 lastfile) t NT)
      (end_forestnum (total_forests files f0 lastfile) t NT) x
    have hz : owned_in_file (nforests_in_file files) f0
        (start_forestnum (total_forests files f0 lastfile) t NT)
        (end_forestnum (total_forests files f0 lastfile) t NT) x = 0 := by
      rcases hout with hlt | hgt
      · have := hmono (x + 1) iF (by omega) (by omega)
        omega
      · have := hmono (iE + 1) x (by omega) (by omega)
        omega
    rw [hz]
    simp

/-- C16, amended: for input files that each declare at least one forest (file numbers are not
negative) and `NT ≥ 1` tasks on all of which `setup_forests_io_lht_binary` succeeds, the
`frac_volume_processed` values of the tasks `0 .. NT-1` are finite values `q t` that, taken
as exact rationals, sum to the number of input files `lastfile - firstfile + 1`. -/
theorem frac_volume_sum (sz : Int) (files : Int → Option LHaloFile) (f0 lastfile : Int)
    (NT : Nat) (info st : Nat → forest_info) (hf0 : 0 ≤ f0) (hNT : 1 ≤ NT)
    (hfiles : ∀ g, f0 ≤ g → g ≤ lastfile → 1 ≤ nforests_in_file files g)
    (hall : ∀ t : Nat, t < NT →
      setup_forests_io_lht_binary sz files (info t) f0 lastfile t NT = .ok (st t)) :
    ∃ q : Nat → Rat, (∀ t : Nat, t < NT → (st t).frac_volume_processed = .val (q t)) ∧
      ∑ t in Finset.range NT, q t = ((lastfile - f0 + 1 : Int) : Rat) := by
  have hcounts : ∀ g, f0 ≤ g → g ≤ lastfile → 0 ≤ nforests_in_file files g :=
    fun g h1 h2 => le_trans (by decide) (hfiles g h1 h2)
  obtain ⟨hn, _⟩ := setup_inv sz files (info 0) f0 lastfile ((0 : Nat) : Int) NT (st 0)
    (hall 0 (by omega))
  have hnZ : (((lastfile - f0 + 1).toNat : Nat) : Int) = lastfile - f0 + 1 :=
    Int.toNat_of_nonneg (by omega)
  have hmono := forests_in_files_mono_on (nforests_in_file files) f0
    (lastfile - f0 + 1).toNat (fun m hm => hcounts _ (by omega) (by omega))
  have hTdef : total_forests files f0 lastfile
      = forests_in_files (nforests_in_file files) f0 (lastfile - f0 + 1).toNat := rfl
  have hT0 : 0 ≤ total_forests files f0 lastfile := by
    rw [hTdef]
    exact forests_in_files_nonneg _ _ _ (fun m hm => hcounts _ (by omega) (by omega))
  have hstep : ∀ t : Nat,
      end_forestnum (total_forests files f0 lastfile) (t : Int) (NT : Int)
        = start_forestnum (total_forests files f0 lastfile) ((t + 1 : Nat) : Int) (NT : Int) := by
    intro t
    have e : ((t + 1 : Nat) : Int) = (t : Int) + 1 := by push_cast; rfl
    rw [e, start_forestnum_succ]
    rfl
  refine ⟨fun t => ∑ i in Finset.range (lastfile - f0 + 1).toNat,
          (((Finset.Ico (forests_in_files (nforests_in_file files) f0 i)
                (forests_in_files (nforests_in_file files) f0 (i + 1))
              ∩ Finset.Ico
                (start_forestnum (total_forests files f0 lastfile) (t : Int) (NT : Int))
                (start_forestnum (total_forests files f0 lastfile) ((t + 1 : Nat) : Int)
                  (NT : Int))).card : Nat) : Rat)
            / (nforests_in_file files (f0 + i) : Rat), ?_, ?_⟩
  · intro t htN
    rw [setup_frac_all_files sz files (info t) f0 lastfile t NT (st t) hf0 (by omega)
      (by omega) hcounts (hall t htN), hstep t]
    rfl
  rw [Finset.sum_comm]
  have hfile : ∀ i ∈ Finset.range (lastfile - f0 + 1).toNat,
      ∑ t in Finset.range NT,
          (((Finset.Ico (forests_in_files (nforests_in_file files) f0 i)
                (forests_in_files (nforests_in_file files) f0 (i + 1))
              ∩ Finset.Ico
                (start_forestnum (total_forests files f0 lastfile) (t : Int) (NT : Int))
                (start_forestnum (total_forests files f0 lastfile) ((t + 1 : Nat) : Int)
                  (NT : Int))).card : Nat) : Rat)
            / (nforests_in_file files (f0 + i) : Rat) = 1 := by
    intro i hi
    have hin : i < (lastfile - f0 + 1).toNat := Finset.mem_range.mp hi
    have htile := tile_card
      (Finset.Ico (forests_in_files (nforests_in_file files) f0 i)
        (forests_in_files (nforests_in_file files) f0 (i + 1)))
      (fun t : Nat => start_forestnum (total_forests files f0 lastfile) (t : Int) (NT : Int))
      NT
      (fun t ht => by
        have hb := partition_bounds (total_forests files f0 lastfile) (t : Int) (NT : Int)
          hT0 (by omega) (by omega)
        have e : ((t + 1 : Nat) : Int) = (t : Int) + 1 := by push_cast; rfl
        show start_forestnum _ (t : Int) _ ≤ start_forestnum _ ((t + 1 : Nat) : Int) _
        rw [e, start_forestnum_succ]
        omega)
    simp only at htile
    have hz : start_forestnum (total_forests files f0 lastfile) ((0 : Nat) : Int) (NT : Int)
        = 0 := start_forestnum_zero _ _ (by omega) hT0
    have hl : start_forestnum (total_forests files f0 lastfile) (NT : Int) (NT : Int)
        = total_forests files f0 lastfile := start_forestnum_last _ _ (by omega) hT0
    rw [hz, hl] at htile
    have hown := owned_in_file_eq (nforests_in_file files) f0 0
      (total_forests files f0 lastfile) i
    unfold owned_in_file at hown
    rw [← htile] at hown
    have hsucc := forests_in_files_succ (nforests_in_file files) f0 i
    have hci := forests_in_files_nonneg (nforests_in_file files) f0 i
      (fun m hm => hcounts _ (by omega) (by omega))
    have hcn := hmono (i + 1) (lastfile - f0 + 1).toNat (by omega) (le_refl _)
    have hone := hfiles (f0 + (i : Int)) (by omega) (by omega)
    have hsum : ((∑ t in Finset.range NT,
          (Finset.Ico (forests_in_files (nforests_in_file files) f0 i)
                (forests_in_files (nforests_in_file files) f0 (i + 1))
              ∩ Finset.Ico
                (start_forestnum (total_forests files f0 lastfile) (t : Int) (NT : Int))
                (start_forestnum (total_forests files f0 lastfile) ((t + 1 : Nat) : Int)
                  (NT : Int))).card : Nat) : Int)
        = nforests_in_file files (f0 + (i : Int)) := by
      rw [hown, ← hTdef] at *
      omega
    rw [← Finset.sum_div, ← Nat.cast_sum]
    have hq : ((∑ t in Finset.range NT,
          (Finset.Ico (forests_in_files (nforests_in_file files) f0 i)
                (forests_in_files (nforests_in_file files) f0 (i + 1))
              ∩ Finset.Ico
                (start_forestnum (total_forests files f0 lastfile) (t : Int) (NT : Int))
                (start_forestnum (total_forests files f0 lastfile) ((t + 1 : Nat) : Int)
                  (NT : Int))).card : Nat) : Rat)
        = (nforests_in_file files (f0 + (i : Int)) : Rat) := by
      exact_mod_cast hsum
    rw [hq]
    exact div_self (by exact_mod_cast (by omega : nforests_in_file files (f0 + (i : Int)) ≠ 0))
  rw [Finset.sum_congr rfl hfile, Finset.sum_const, Finset.card_range, nsmul_eq_mul, mul_one]
  exact_mod_cast hnZ

/-- C16 amended, instantiated: the two tasks of a run over `two_files`. -/
theorem frac_volume_sum_witness :
    ∃ q : Nat → Rat,
      (∀ t : Nat, t < 2 →
        (forest_info_of
          (setup_forests_io_lht_binary 104 two_files blank_info 0 1 ((t : Nat) : Int)
            ((2 : Nat) : Int)) blank_info).frac_volume_processed = .val (q t)) ∧
      ∑ t in Finset.range 2, q t = (((1 : Int) - 0 + 1 : Int) : Rat) :=
  frac_volume_sum 104 two_files 0 1 2 (fun _ => blank_info)
    (fun t => forest_info_of
      (setup_forests_io_lht_binary 104 two_files blank_info 0 1 ((t : Nat) : Int)
        ((2 : Nat) : Int)) blank_info)
    (by decide) (by decide)
    (fun g h0 h1 => by
      have hg : g = 0 ∨ g = 1 := by omega
      rcases hg with rfl | rfl <;> decide)
    (fun t ht => by
      interval_cases t <;> rfl)

/-- C16, counterexample: `two_files` (5 and 3 forests) on 2 tasks.  Both setups succeed; task
0 owns the forests 0 to 3 and stores `4/5`, task 1 owns the forests 4 to 7 and stores
`1/5 + 3/3 = 6/5`; the two fractions sum to 2, not to 1. -/
theorem fractions_sum_to_two :
    ∃ st0 st1 : forest_info,
      setup_forests_io_lht_binary 104 two_files blank_info 0 1 0 2 = .ok st0 ∧
      setup_forests_io_lht_binary 104 two_files blank_info 0 1 1 2 = .ok st1 ∧
      nforests_in_file two_files 0 = 5 ∧ nforests_in_file two_files 1 = 3 ∧
      st0.frac_volume_processed = .val (4 / 5) ∧ st1.frac_volume_processed = .val (6 / 5) ∧
      (4 / 5 : Rat) + 6 / 5 = 2 ∧ (4 / 5 : Rat) + 6 / 5 ≠ 1 := by
  have h0 : (forest_info_of (setup_forests_io_lht_binary 104 two_files blank_info 0 1 0 2)
      blank_info).frac_volume_processed = .val (4 / 5) := by with_unfolding_all rfl
  have h1 : (forest_info_of (setup_forests_io_lht_binary 104 two_files blank_info 0 1 1 2)
      blank_info).frac_volume_processed = .val (6 / 5) := by with_unfolding_all rfl
  refine ⟨forest_info_of (setup_forests_io_lht_binary 104 two_files blank_info 0 1 0 2)
      blank_info,
    forest_info_of (setup_forests_io_lht_binary 104 two_files blank_info 0 1 1 2) blank_info,
    rfl, rfl, by decide, by decide, h0, h1, ?_, ?_⟩
  · norm_num
  · norm_num

/-! ## The multipliers after the binary setup -/

/-- C13 (the code): for the tree type `lhalo_binary`, on a task `0 ≤ t < NTasks` with file
numbers that are not negative, whenever the binary setup called from `setup_forests_io`
succeeds, the fraction it stored is positive (for header counts that are not negative), but
the multipliers the router then tests are the `-1` of the reset, and `setup_forests_io`
returns `EXIT_FAILURE`. -/
theorem multipliers_not_fixed (HDF5 : Bool) (readers : TreeReaders) (sz : Int)
    (files : Int → Option LHaloFile) (run_params : params) (info : forest_info)
    (t NT : Int) (st : forest_info)
    (htype : run_params.TreeType = .lhalo_binary) (hf0 : 0 ≤ run_params.FirstFile)
    (ht0 : 0 ≤ t) (htN : t < NT)
    (h : setup_forests_io_lht_binary sz files (reset_fraction info) run_params.FirstFile
      run_params.LastFile t NT = .ok st) :
    dispatch_setup HDF5 readers sz files (reset_multipliers run_params) (reset_fraction info)
        run_params.FirstFile run_params.LastFile t NT
      = some (.ok (st, reset_multipliers run_params)) ∧
    (reset_multipliers run_params).FileNr_Mulfac = -1 ∧
    (reset_multipliers run_params).ForestNr_Mulfac = -1 ∧
    ((∀ g, run_params.FirstFile ≤ g → g ≤ run_params.LastFile →
        0 ≤ nforests_in_file files g) → st.frac_volume_processed.gt_zero) ∧
    setup_forests_io HDF5 readers sz files run_params info t NT = .error .EXIT_FAILURE := by
  have hd : dispatch_setup HDF5 readers sz files (reset_multipliers run_params)
      (reset_fraction info) run_params.FirstFile run_params.LastFile t NT
      = some (.ok (st, reset_multipliers run_params)) := by
    have ht2 : (reset_multipliers run_params).TreeType = .lhalo_binary := htype
    unfold dispatch_setup
    rw [ht2]
    simp only [h]
  refine ⟨hd, rfl, rfl, ?_, ?_⟩
  · intro hcounts
    obtain ⟨q, hq, hpos⟩ := setup_frac_pos sz files (reset_fraction info)
      run_params.FirstFile run_params.LastFile t NT st hf0 ht0 htN hcounts h
    rw [hq]
    exact hpos
  unfold setup_forests_io
  simp only [hd]
  have hneg : (reset_multipliers run_params).FileNr_Mulfac < 0 := by
    show (-1 : Int) < 0
    decide
  rw [if_pos (Or.inl hneg)]

/-- C13 (the code), instantiated: task 0 of 2 on `two_files` with `binary_params`. -/
theorem multipliers_not_fixed_witness :
    setup_forests_io false failing_readers 104 two_files binary_params blank_info 0 2
      = .error .EXIT_FAILURE :=
  (multipliers_not_fixed false failing_readers 104 two_files binary_params blank_info 0 2
    (forest_info_of
      (setup_forests_io_lht_binary 104 two_files (reset_fraction blank_info) 0 1 0 2)
      blank_info)
    rfl (by decide) (by decide) (by decide) rfl).2.2.2.2

/-! ## The router on the binary tree type, idle tasks, zero multipliers -/

/-- C24. For the tree type `lhalo_binary`, `setup_forests_io` never returns success, whatever
the files, `ThisTask` and `NTasks` are: the reader is called with both multipliers reset to
`-1` and hands them back unchanged, so a failure of the reader is returned as it is and a
success of the reader ends in the `EXIT_FAILURE` of the multiplier check. -/
theorem binary_never_succeeds (HDF5 : Bool) (readers : TreeReaders) (sz : Int)
    (files : Int → Option LHaloFile) (run_params : params) (info : forest_info) (t NT : Int)
    (htype : run_params.TreeType = .lhalo_binary) :
    (∀ out, setup_forests_io HDF5 readers sz files run_params info t NT ≠ .ok out) ∧
    (∀ st, setup_forests_io_lht_binary sz files (reset_fraction info) run_params.FirstFile
        run_params.LastFile t NT = .ok st →
      dispatch_setup HDF5 readers sz files (reset_multipliers run_params) (reset_fraction info)
          run_params.FirstFile run_params.LastFile t NT
        = some (.ok (st, reset_multipliers run_params)) ∧
      (reset_multipliers run_params).FileNr_Mulfac = -1 ∧
      (reset_multipliers run_params).ForestNr_Mulfac = -1 ∧
      setup_forests_io HDF5 readers sz files run_params info t NT = .error .EXIT_FAILURE) ∧
    (∀ e, setup_forests_io_lht_binary sz files (reset_fraction info) run_params.FirstFile
        run_params.LastFile t NT = .error e →
      setup_forests_io HDF5 readers sz files run_params info t NT = .error e) := by
  have ht2 : (reset_multipliers run_params).TreeType = .lhalo_binary := htype
  have hneg : (reset_multipliers run_params).FileNr_Mulfac < 0 := by
    show (-1 : Int) < 0
    decide
  have hok : ∀ st, setup_forests_io_lht_binary sz files (reset_fraction info)
      run_params.FirstFile run_params.LastFile t NT = .ok st →
      dispatch_setup HDF5 readers sz files (reset_multipliers run_params) (reset_fraction info)
          run_params.FirstFile run_params.LastFile t NT
        = some (.ok (st, reset_multipliers run_params)) := by
    intro st h
    unfold dispatch_setup
    rw [ht2]
    simp only [h]
  have herr : ∀ e, setup_forests_io_lht_binary sz files (reset_fraction info)
      run_params.FirstFile run_params.LastFile t NT = .error e →
      dispatch_setup HDF5 readers sz files (reset_multipliers run_params) (reset_fraction info)
          run_params.FirstFile run_params.LastFile t NT = some (.error e) := by
    intro e h
    unfold dispatch_setup
    rw [ht2]
    simp only [h]
  have hfail : ∀ st, setup_forests_io_lht_binary sz files (reset_fraction info)
      run_params.FirstFile run_params.LastFile t NT = .ok st →
      setup_forests_io HDF5 readers sz files run_params info t NT = .error .EXIT_FAILURE := by
    intro st h
    unfold setup_forests_io
    simp only [hok st h]
    rw [if_pos (Or.inl hneg)]
  have hpass : ∀ e, setup_forests_io_lht_binary sz files (reset_fraction info)
      run_params.FirstFile run_params.LastFile t NT = .error e →
      setup_forests_io HDF5 readers sz files run_params info t NT = .error e := by
    intro e h
    unfold setup_forests_io
    simp only [herr e h]
  refine ⟨?_, fun st h => ⟨hok st h, rfl, rfl, hfail st h⟩, hpass⟩
  intro out hout
  cases hb : setup_forests_io_lht_binary sz files (reset_fraction info) run_params.FirstFile
      run_params.LastFile t NT with
  | ok st =>
    rw [hfail st hb] at hout
    cases hout
  | error e =>
    rw [hpass e hb] at hout
    cases hout

/-- C24, instantiated: task 1 of 2 on `two_files` with `binary_params`. -/
theorem binary_never_succeeds_witness :
    setup_forests_io false failing_readers 104 two_files binary_params blank_info 1 2
      = .error .EXIT_FAILURE :=
  ((binary_never_succeeds false failing_readers 104 two_files binary_params blank_info 1 2
    rfl).2.1
    (forest_info_of
      (setup_forests_io_lht_binary 104 two_files (reset_fraction blank_info) 0 1 1 2)
      blank_info) rfl).2.2.2

/-- With more tasks than forests, a task `t ≥ T` starts at `T` and owns nothing. -/
theorem idle_task_partition (T t NT : Int) (hT0 : 0 ≤ T) (hNT : T < NT) (ht : T ≤ t) :
    start_forestnum T t NT = T ∧ nforests_this_task T t NT = 0 := by
  obtain ⟨hq, hr⟩ := tdiv_tmod_nonneg T NT (by omega) hT0
  have hq0 : T / NT = 0 := Int.ediv_eq_zero_of_lt hT0 hNT
  have hr0 : T % NT = T := Int.emod_eq_of_lt hT0 hNT
  unfold start_forestnum nforests_this_task
  have hlt : ¬ t < T := by omega
  rw [hq, hr, hq0, hr0, if_neg hlt, if_neg hlt]
  exact ⟨by simp, rfl⟩

/-- C25 (as stated, refuted). The headers of `cancelling_files` declare 3 and -3 forests, so
`totnforests = 0`; with `NTasks = 2 > 0` the task 1 has `ThisTask ≥ totnforests`, gets
`start_forestnum = 0 = totnforests` and no forest, and yet file 0 passes the start-file test
of line 108 (`0 ≤ 0 < 0 + 3`) and `setup_forests_io_lht_binary` returns success. -/
theorem idle_task_completes_setup :
    nforests_in_file cancelling_files 0 = 3 ∧ nforests_in_file cancelling_files 1 = -3 ∧
    total_forests cancelling_files 0 1 = 0 ∧
    start_forestnum (total_forests cancelling_files 0 1) 1 2
      = total_forests cancelling_files 0 1 ∧
    nforests_this_task (total_forests cancelling_files 0 1) 1 2 = 0 ∧
    start_test (nforests_in_file cancelling_files) 0
      (start_forestnum (total_forests cancelling_files 0 1) 1 2) 0 ∧
    ∃ st, setup_forests_io_lht_binary 104 cancelling_files blank_info 0 1 1 2 = .ok st ∧
      st.nforests_this_task = 0 ∧ st.lht.numfiles = 1 := by
  refine ⟨by decide, by decide, by decide, by decide, by decide, by decide,
    forest_info_of (setup_forests_io_lht_binary 104 cancelling_files blank_info 0 1 1 2)
      blank_info, rfl, by decide, by decide⟩

/-- C25 (amended). When all headers of the files `firstfile .. lastfile` can be read (file
numbers are not negative), no header count is negative and there are more tasks than forests,
`NTasks > totnforests`, every task with `ThisTask ≥ totnforests` gets
`start_forestnum = totnforests` and no forest, no file passes the start-file test of line
108, the scan leaves `start_filenum = -1`, and `setup_forests_io_lht_binary` returns `-1`. -/
theorem idle_task_fails (sz : Int) (files : Int → Option LHaloFile) (info : forest_info)
    (f0 lastfile t NT : Int) (hf0 : 0 ≤ f0)
    (hfiles : ∀ g, f0 ≤ g → g ≤ lastfile → ∃ f, files g = some f)
    (hcounts : ∀ g, f0 ≤ g → g ≤ lastfile → 0 ≤ nforests_in_file files g)
    (hNT : total_forests files f0 lastfile < NT) (ht : total_forests files f0 lastfile ≤ t) :
    start_forestnum (total_forests files f0 lastfile) t NT = total_forests files f0 lastfile ∧
    nforests_this_task (total_forests files f0 lastfile) t NT = 0 ∧
    (∀ i : Nat, (i : Int) < lastfile - f0 + 1 →
      ¬ start_test (nforests_in_file files) f0
        (start_forestnum (total_forests files f0 lastfile) t NT) i) ∧
    (∀ (tab : Int → Int) (T : Int),
      count_forests files (lastfile - f0 + 1).toNat f0 (fun _ => 0) 0 = .ok (tab, T) →
      (scan_result tab T t NT (lastfile - f0 + 1).toNat f0).start_filenum = -1) ∧
    setup_forests_io_lht_binary sz files info f0 lastfile t NT = .error .MINUS_ONE := by
  have hTdef : total_forests files f0 lastfile
      = forests_in_files (nforests_in_file files) f0 (lastfile - f0 + 1).toNat := rfl
  have hcm : ∀ m : Nat, m < (lastfile - f0 + 1).toNat →
      0 ≤ nforests_in_file files (f0 + (m : Int)) :=
    fun m hm => hcounts _ (by omega) (by omega)
  have hT0 : 0 ≤ total_forests files f0 lastfile := by
    rw [hTdef]
    exact forests_in_files_nonneg _ _ _ hcm
  obtain ⟨hS, hN⟩ := idle_task_partition (total_forests files f0 lastfile) t NT hT0 hNT ht
  have hmono := forests_in_files_mono_on (nforests_in_file files) f0
    (lastfile - f0 + 1).toNat hcm
  have hno : ∀ i : Nat, (i : Int) < lastfile - f0 + 1 →
      ¬ start_test (nforests_in_file files) f0
        (start_forestnum (total_forests files f0 lastfile) t NT) i := by
    intro i hi hst
    unfold start_test at hst
    have := hmono (i + 1) (lastfile - f0 + 1).toNat (by omega) (le_refl _)
    omega
  have hscan : ∀ (tab : Int → Int) (T : Int),
      count_forests files (lastfile - f0 + 1).toNat f0 (fun _ => 0) 0 = .ok (tab, T) →
      (scan_result tab T t NT (lastfile - f0 + 1).toNat f0).start_filenum = -1 := by
    intro tab T hcount
    obtain ⟨hc1, _, hc3⟩ := count_forests_spec files _ _ _ _ _ _ hcount
    have hT : T = total_forests files f0 lastfile := by
      rw [hc3, zero_add, hTdef]
    obtain ⟨_, _, _, s4, _⟩ := scan_files_spec tab f0 (start_forestnum T t NT)
      (end_forestnum T t NT) (nforests_this_task T t NT) hf0 (lastfile - f0 + 1).toNat
    rcases s4 with ⟨h, _⟩ | ⟨i, hi, _, hst⟩
    · exact h
    · exfalso
      apply hno i (by omega)
      unfold start_test at hst ⊢
      rw [forests_in_files_congr (nforests_in_file files) tab f0 i
          (fun g h1 h2 => ((hc1 g h1 (by omega)).2).symm),
        forests_in_files_congr (nforests_in_file files) tab f0 (i + 1)
          (fun g h1 h2 => ((hc1 g h1 (by push_cast at h2; omega)).2).symm), ← hT]
      exact hst
  refine ⟨hS, hN, hno, hscan, ?_⟩
  unfold setup_forests_io_lht_binary
  simp only
  by_cases hn : lastfile - f0 + 1 ≤ 0
  · rw [if_pos hn]
  · rw [if_neg hn]
    obtain ⟨tab, T, hcount⟩ := count_forests_ok files (lastfile - f0 + 1).toNat f0
      (fun _ => 0) 0 (fun g h1 h2 => hfiles g h1 (by omega))
    have hs := hscan tab T hcount
    unfold scan_result scan_init at hs
    rw [hcount]
    simp only
    rw [if_neg (by omega), if_pos (Or.inl hs)]

/-- C25 (amended), instantiated: `two_files` hold 8 forests; task 8 of 9 owns nothing. -/
theorem idle_task_fails_witness :
    setup_forests_io_lht_binary 104 two_files blank_info 0 1 8 9 = .error .MINUS_ONE :=
  (idle_task_fails 104 two_files blank_info 0 1 8 9 (by decide)
    (fun g h0 h1 => by
      have hg : g = 0 ∨ g = 1 := by omega
      rcases hg with rfl | rfl
      · exact ⟨_, rfl⟩
      · exact ⟨_, rfl⟩)
    two_files_counts (by decide) (by decide)).2.2.2.2

/-- C26 (the code): with a multiplier pair that passes the test of `setup_forests_io` (both
`≥ 0`) and at least one galaxy, `generate_galaxy_indices` divides by zero at line 222 when
`forestnr_mulfac = 0`, the forest number is positive and the first galaxy has `GalaxyNr = 0`,
and at line 223 when `filenr_mulfac = 0`, the file number is positive, the forest number is
not, and the first galaxy passes the range test. -/
theorem zero_multiplier_divides (halos : Int → halo_data) (haloaux : Int → halo_aux_data)
    (halogal : Int → GALAXY) (numgals forestnr filenr flm fm : Int)
    (hrouter : ¬ (flm < 0 ∨ fm < 0)) (hnum : 1 ≤ numgals) :
    (fm = 0 → 0 < forestnr → GalaxyNr_of halogal 0 = 0 →
      generate_galaxy_indices halos haloaux halogal numgals forestnr filenr flm fm
        = .error .SIGFPE) ∧
    (flm = 0 → forestnr ≤ 0 → 0 < filenr → GalaxyNr_of halogal 0 ≤ fm →
      generate_galaxy_indices halos haloaux halogal numgals forestnr filenr flm fm
        = .error .SIGFPE) := by
  obtain ⟨k, hk⟩ : ∃ k, numgals.toNat = k + 1 := ⟨numgals.toNat - 1, by omega⟩
  have hw : wrap64 0 = 0 := by decide
  have ht : toInt64 0 = 0 := by decide
  refine ⟨?_, ?_⟩
  · intro hfm hf hg
    subst hfm
    have hidx : generate_galaxy_index halos haloaux forestnr filenr flm 0 halogal 0
        = .error .SIGFPE := by
      unfold generate_galaxy_index
      simp only
      rw [if_neg (by rw [hg, mul_zero, ht]; omega), if_pos ⟨hf, hw⟩]
    unfold generate_galaxy_indices
    rw [hk]
    simp only [generate_galaxy_indices_loop, hidx]
  · intro hflm hf hfile hg
    subst hflm
    have hidx : generate_galaxy_index halos haloaux forestnr filenr 0 fm halogal 0
        = .error .SIGFPE := by
      unfold generate_galaxy_index
      simp only
      rw [if_neg (by omega), if_neg (by omega), if_neg (by omega), if_pos ⟨hfile, hw⟩]
    unfold generate_galaxy_indices
    rw [hk]
    simp only [generate_galaxy_indices_loop, hidx]

/-- C26 (the code), instantiated: both multipliers 0, forest number 1, one galaxy with
`GalaxyNr = 0`. -/
theorem zero_multiplier_divides_witness :
    generate_galaxy_indices one_halo one_haloaux (galaxies_nr 0) 1 1 0 0 0 = .error .SIGFPE :=
  (zero_multiplier_divides one_halo one_haloaux (galaxies_nr 0) 1 1 0 0 0 (by decide)
    (by decide)).1 rfl (by decide) (by decide)

/-! ## The coordinates `save_galaxies` hands to the index generator -/

/-- C21. Whenever `generate_galaxy_indices`, run on the coordinates `original_treenr[f]` and
`FileNr[f]` looked up in `forest_info` and on the multipliers of the run, returns the galaxy
array `out`, `save_galaxies` for the task-local forest `f` makes exactly one call of the
writer of the configured format (binary, or HDF5 when compiled in) and hands it `out`; the
galaxy array of every call of the writer is that result; and a call for another task-local
forest (and another `forest_info`) with the same looked-up coordinates, galaxies and
multipliers hands the writer the same galaxy array, hence the same `GalaxyIndex` and
`CentralGalaxyIndex` for every galaxy. -/
theorem index_from_original_coordinates (HDF5 : Bool) (write : WriteCall → Except Status Unit)
    (stack : Int → Int) (f numgals : Int) (halos : Int → halo_data) (fi : forest_info)
    (haloaux : Int → halo_aux_data) (halogal : Int → GALAXY) (run_params : params) :
    (∀ out, generate_galaxy_indices halos
          (output_order run_params stack numgals halogal haloaux).haloaux
          (remap_merge_targets
            (output_order run_params stack numgals halogal haloaux).OutputGalOrder halogal
            numgals.toNat)
          numgals (fi.original_treenr f) (fi.FileNr f) run_params.FileNr_Mulfac
          run_params.ForestNr_Mulfac = .ok out →
      (run_params.OutputFormat = .sage_binary →
        (save_galaxies HDF5 write stack f numgals halos fi haloaux halogal run_params).written
          = [.save_binary_galaxies f numgals
              (output_order run_params stack numgals halogal haloaux).OutputGalCount fi halos
              (output_order run_params stack numgals halogal haloaux).haloaux out]) ∧
      (run_params.OutputFormat = .sage_hdf5 → HDF5 = true →
        (save_galaxies HDF5 write stack f numgals halos fi haloaux halogal run_params).written
          = [.save_hdf5_galaxies f numgals fi halos
              (output_order run_params stack numgals halogal haloaux).haloaux out])) ∧
    (∀ call ∈ (save_galaxies HDF5 write stack f numgals halos fi haloaux halogal
        run_params).written,
      generate_galaxy_indices halos
          (output_order run_params stack numgals halogal haloaux).haloaux
          (remap_merge_targets
            (output_order run_params stack numgals halogal haloaux).OutputGalOrder halogal
            numgals.toNat)
          numgals (fi.original_treenr f) (fi.FileNr f) run_params.FileNr_Mulfac
          run_params.ForestNr_Mulfac = .ok call.halogal) ∧
    (∀ (write2 : WriteCall → Except Status Unit) (f2 : Int) (fi2 : forest_info),
      fi2.original_treenr f2 = fi.original_treenr f → fi2.FileNr f2 = fi.FileNr f →
      (save_galaxies HDF5 write2 stack f2 numgals halos fi2 haloaux halogal
          run_params).written.map WriteCall.halogal
        = (save_galaxies HDF5 write stack f numgals halos fi haloaux halogal
            run_params).written.map WriteCall.halogal) := by
  refine ⟨?_, ?_, ?_⟩
  · intro out hgen
    refine ⟨fun hfmt => ?_, fun hfmt hH => ?_⟩
    · rw [save_galaxies_binary HDF5 write stack f numgals halos fi haloaux halogal run_params
        out hgen hfmt]
    · subst hH
      rw [save_galaxies_hdf5 write stack f numgals halos fi haloaux halogal run_params
        out hgen hfmt]
  · intro call hc
    unfold save_galaxies at hc
    simp only at hc
    cases hgen : generate_galaxy_indices halos
        (output_order run_params stack numgals halogal haloaux).haloaux
        (remap_merge_targets
          (output_order run_params stack numgals halogal haloaux).OutputGalOrder halogal
          numgals.toNat)
        numgals (fi.original_treenr f) (fi.FileNr f) run_params.FileNr_Mulfac
        run_params.ForestNr_Mulfac with
    | error e =>
      rw [hgen] at hc
      simp at hc
    | ok out =>
      rw [hgen] at hc
      simp only at hc
      split at hc
      · simp only [List.mem_singleton] at hc
        subst hc
        rfl
      · split_ifs at hc
        · simp only [List.mem_singleton] at hc
          subst hc
          rfl
        · simp at hc
      · simp at hc
  · intro write2 f2 fi2 h1 h2
    unfold save_galaxies
    simp only
    rw [h1, h2]
    cases generate_galaxy_indices halos
        (output_order run_params stack numgals halogal haloaux).haloaux
        (remap_merge_targets
          (output_order run_params stack numgals halogal haloaux).OutputGalOrder halogal
          numgals.toNat)
        numgals (fi.original_treenr f) (fi.FileNr f) run_params.FileNr_Mulfac
        run_params.ForestNr_Mulfac with
    | error e => rfl
    | ok out =>
      simp only
      cases run_params.OutputFormat with
      | sage_binary => rfl
      | sage_hdf5 =>
        simp only
        cases HDF5 <;> rfl
      | other_format => rfl

/-- C21, instantiated: the task-local forests 1 and 0 of `uniform_info`, whose looked-up
coordinates are equal; the call for forest 0 makes one call of the binary writer. -/
theorem index_from_original_coordinates_witness :
    (save_galaxies false (fun _ => .ok ()) (fun _ => 0) 0 1 one_halo uniform_info
        one_haloaux (galaxies_nr 0) binary_params).written
      = [.save_binary_galaxies 0 1
          (output_order binary_params (fun _ => 0) 1 (galaxies_nr 0) one_haloaux).OutputGalCount
          uniform_info one_halo
          (output_order binary_params (fun _ => 0) 1 (galaxies_nr 0) one_haloaux).haloaux
          (galaxies_of
            (generate_galaxy_indices one_halo
              (output_order binary_params (fun _ => 0) 1 (galaxies_nr 0) one_haloaux).haloaux
              (remap_merge_targets
                (output_order binary_params (fun _ => 0) 1 (galaxies_nr 0)
                  one_haloaux).OutputGalOrder (galaxies_nr 0) (1 : Int).toNat)
              1 (uniform_info.original_treenr 0) (uniform_info.FileNr 0)
              binary_params.FileNr_Mulfac binary_params.ForestNr_Mulfac)
            (galaxies_nr 0))] ∧
    (save_galaxies false (fun _ => .ok ()) (fun _ => 0) 1 1 one_halo uniform_info one_haloaux
        (galaxies_nr 0) binary_params).written.map WriteCall.halogal
      = (save_galaxies false (fun _ => .ok ()) (fun _ => 0) 0 1 one_halo uniform_info
          one_haloaux (galaxies_nr 0) binary_params).written.map WriteCall.halogal :=
  ⟨((index_from_original_coordinates false (fun _ => .ok ()) (fun _ => 0) 0 1 one_halo
      uniform_info one_haloaux (galaxies_nr 0) binary_params).1 _ rfl).1 rfl,
   (index_from_original_coordinates false (fun _ => .ok ()) (fun _ => 0) 0 1 one_halo
      uniform_info one_haloaux (galaxies_nr 0) binary_params).2.2 (fun _ => .ok ()) 1
      uniform_info rfl rfl⟩

/-! ## The files a task opens -/

/-- On a successful setup of a task `0 ≤ t < NT` on files whose header counts are not
negative, with `iF` and `iE` the positions of `start_filenum` and `end_filenum` in the run:
every file of the run that holds a forest of the range
`[start_forestnum, end_forestnum)` lies in `iF .. iE`, every file of `iF .. iE` before the
last holds one, and the last holds none exactly when the range ends where that file
begins. -/
theorem opened_files_overlap (sz : Int) (files : Int → Option LHaloFile) (info : forest_info)
    (f0 lastfile t NT : Int) (st : forest_info) (hf0 : 0 ≤ f0) (ht0 : 0 ≤ t) (htN : t < NT)
    (hcounts : ∀ g, f0 ≤ g → g ≤ lastfile → 0 ≤ nforests_in_file files g)
    (h : setup_forests_io_lht_binary sz files info f0 lastfile t NT = .ok st) :
    ∃ iF iE : Nat, iF ≤ iE ∧ (iE : Int) < lastfile - f0 + 1 ∧
      start_test (nforests_in_file files) f0
        (start_forestnum (total_forests files f0 lastfile) t NT) iF ∧
      end_test (nforests_in_file files) f0
        (end_forestnum (total_forests files f0 lastfile) t NT) iE ∧
      st.lht.numfiles = (iE : Int) - (iF : Int) + 1 ∧
      (∀ i : Nat, (i : Int) < lastfile - f0 + 1 → 1 ≤ owned_in_file (nforests_in_file files) f0
          (start_forestnum (total_forests files f0 lastfile) t NT)
          (end_forestnum (total_forests files f0 lastfile) t NT) i → iF ≤ i ∧ i ≤ iE) ∧
      (∀ i : Nat, iF ≤ i → i < iE →
        1 ≤ owned_in_file (nforests_in_file files) f0
          (start_forestnum (total_forests files f0 lastfile) t NT)
          (end_forestnum (total_forests files f0 lastfile) t NT) i) ∧
      (owned_in_file (nforests_in_file files) f0
          (start_forestnum (total_forests files f0 lastfile) t NT)
          (end_forestnum (total_forests files f0 lastfile) t NT) iE = 0
        ↔ end_forestnum (total_forests files f0 lastfile) t NT
            = forests_in_files (nforests_in_file files) f0 iE) := by
  obtain ⟨iF, iE, hle, hiE, hFt, hEt, hnum, hown, htot, _⟩ :=
    setup_frac_facts sz files info f0 lastfile t NT st hf0 ht0 htN hcounts h
  obtain ⟨hn, _⟩ := setup_inv sz files info f0 lastfile t NT st h
  have hnZ : (((lastfile - f0 + 1).toNat : Nat) : Int) = lastfile - f0 + 1 :=
    Int.toNat_of_nonneg (by omega)
  have hN : end_forestnum (total_forests files f0 lastfile) t NT
      = start_forestnum (total_forests files f0 lastfile) t NT
        + nforests_this_task (total_forests files f0 lastfile) t NT := rfl
  have hmono := forests_in_files_mono_on (nforests_in_file files) f0
    (lastfile - f0 + 1).toNat (fun m hm => hcounts _ (by omega) (by omega))
  have hFt' := hFt
  have hEt' := hEt
  unfold start_test at hFt'
  unfold end_test at hEt'
  refine ⟨iF, iE, hle, hiE, hFt, hEt, hnum, ?_, ?_, ?_⟩
  · intro i hin hi
    have heq := owned_in_file_eq (nforests_in_file files) f0
      (start_forestnum (total_forests files f0 lastfile) t NT)
      (end_forestnum (total_forests files f0 lastfile) t NT) i
    refine ⟨?_, ?_⟩
    · by_contra hc
      have := hmono (i + 1) iF (by omega) (by omega)
      omega
    · by_contra hc
      have := hmono (iE + 1) i (by omega) (by omega)
      omega
  · intro i h1 h2
    have heq := owned_in_file_eq (nforests_in_file files) f0
      (start_forestnum (total_forests files f0 lastfile) t NT)
      (end_forestnum (total_forests files f0 lastfile) t NT) i
    have hsucc := forests_in_files_succ (nforests_in_file files) f0 i
    have hti := htot i h1 (by omega)
    have hE := hmono (i + 1) iE (by omega) (by omega)
    by_cases hi : i = iF
    · have hFi : forests_in_files (nforests_in_file files) f0 i
          ≤ start_forestnum (total_forests files f0 lastfile) t NT
          ∧ start_forestnum (total_forests files f0 lastfile) t NT
            < forests_in_files (nforests_in_file files) f0 (i + 1) := by
        rw [hi]
        exact hFt'
      omega
    · have := hmono (iF + 1) i (by omega) (by omega)
      omega
  · have heq := owned_in_file_eq (nforests_in_file files) f0
      (start_forestnum (total_forests files f0 lastfile) t NT)
      (end_forestnum (total_forests files f0 lastfile) t NT) iE
    constructor
    · intro hz
      omega
    · intro he
      omega

/-- C23 (the code at the failing input). Two files of 4 forests each, task 0 of 2: the range
of the task is `[0, 4)`, all of it in file 0, and it ends where file 1 begins (the first
forest of file 1 is the global forest 4).  The setup succeeds with `end_filenum = 1`: it
stores `lht->numfiles = 2` and opens file 1 (descriptor 4 in `open_fds[1]`), which holds no
forest of the range. -/
theorem boundary_opens_next_file :
    ∃ st, setup_forests_io_lht_binary 104 even_files blank_info 0 1 0 2 = .ok st ∧
      st.totnforests = 8 ∧
      start_forestnum 8 0 2 = 0 ∧ end_forestnum 8 0 2 = 4 ∧
      forests_in_files (nforests_in_file even_files) 0 1 = 4 ∧
      st.lht.numfiles = 2 ∧ st.lht.open_fds 0 = 3 ∧ st.lht.open_fds 1 = 4 ∧
      owned_in_file (nforests_in_file even_files) 0 0 4 0 = 4 ∧
      owned_in_file (nforests_in_file even_files) 0 0 4 1 = 0 :=
  ⟨forest_info_of (setup_forests_io_lht_binary 104 even_files blank_info 0 1 0 2) blank_info,
    rfl, by decide, by decide, by decide, by decide, by decide, by decide, by decide,
    by decide, by decide⟩

/-! ## The stores of the per-file pass -/

/-- Two consecutive runs of indices make one run. -/
theorem range_map_append (b a c : Int) (ha : 0 ≤ a) (hc : 0 ≤ c) :
    (List.range a.toNat).map (fun i : Nat => b + (i : Int))
        ++ (List.range c.toNat).map (fun i : Nat => b + a + (i : Int))
      = (List.range (a + c).toNat).map (fun i : Nat => b + (i : Int)) := by
  rw [Int.toNat_add ha hc, List.range_add, List.map_append, List.map_map]
  congr 1
  apply List.map_congr_left
  intro i _
  simp only [Function.comp_apply]
  push_cast
  omega

/-- How often an index occurs in the run `0, 1, .., N - 1`. -/
theorem range_map_count (N k : Int) :
    ((List.range N.toNat).map (fun i : Nat => (i : Int))).count k
      = if 0 ≤ k ∧ k < N then 1 else 0 := by
  have hnd : ((List.range N.toNat).map (fun i : Nat => (i : Int))).Nodup :=
    (List.nodup_range _).map (fun a b hab => by exact_mod_cast hab)
  by_cases hk : 0 ≤ k ∧ k < N
  · rw [if_pos hk]
    apply List.count_eq_one_of_mem hnd
    exact List.mem_map.mpr ⟨k.toNat, List.mem_range.mpr (by omega), by omega⟩
  · rw [if_neg hk]
    apply List.count_eq_zero_of_not_mem
    intro hmem
    obtain ⟨i, hi, he⟩ := List.mem_map.mp hmem
    have := List.mem_range.mp hi
    exact hk ⟨by omega, by omega⟩

/-- The indices the per-file pass stores to, in the order of the stores: each of the three
arrays is stored to at the `forests_in_files num g0 n` indices that follow the write pointer
found on entry. -/
theorem process_files_stores (sz : Int) (files : Int → Option LHaloFile) (tot : Int → Int)
    (scan : FileScan) (L : Int) :
    ∀ (n : Nat) (g0 : Int) (s s2 : FileLoop),
      process_files sz files tot scan L n g0 s = .ok s2 →
      s2.nhalos_stores = s.nhalos_stores
        ++ (List.range (forests_in_files scan.num_forests_to_process_per_file g0 n).toNat).map
            (fun i : Nat => s.forestnhalos + (i : Int)) ∧
      s2.offset_stores = s.offset_stores
        ++ (List.range (forests_in_files scan.num_forests_to_process_per_file g0 n).toNat).map
            (fun i : Nat => s.forestnhalos + (i : Int)) ∧
      s2.fd_stores = s.fd_stores
        ++ (List.range (forests_in_files scan.num_forests_to_process_per_file g0 n).toNat).map
            (fun i : Nat => s.forestnhalos + (i : Int)) := by
  intro n
  induction n with
  | zero =>
    intro g0 s s2 h
    simp only [process_files, Except.ok.injEq] at h
    subst h
    simp [forests_in_files]
  | succ m ih =>
    intro g0 s s2 h
    unfold process_files at h
    cases h1 : process_file sz files tot scan L s g0 with
    | error e =>
      rw [h1] at h
      cases h
    | ok s1 =>
      rw [h1] at h
      simp only at h
      obtain ⟨_, _, _, _, hn0, _, hfh, _, _, _, l1, l2, l3⟩ :=
        process_file_spec sz files tot scan L s g0 s1 h1
      obtain ⟨_, ptail, _, _⟩ := process_files_spec sz files tot scan L m (g0 + 1) s1 s2 h
      have hsum : 0 ≤ forests_in_files scan.num_forests_to_process_per_file (g0 + 1) m :=
        forests_in_files_nonneg _ _ _ (fun j hj => by
          obtain ⟨_, _, _, _, hj0, _⟩ := ptail j hj
          exact hj0.1)
      obtain ⟨a1, a2, a3⟩ := ih (g0 + 1) s1 s2 h
      have hsplit := range_map_append s.forestnhalos
        (scan.num_forests_to_process_per_file g0)
        (forests_in_files scan.num_forests_to_process_per_file (g0 + 1) m) hn0.1 hsum
      rw [forests_in_files_front, ← hsplit, ← List.append_assoc, ← List.append_assoc,
        ← List.append_assoc, ← l1, ← l2, ← l3, ← hfh]
      exact ⟨a1, a2, a3⟩

/-- The per-file counts of the files `iF .. iE` add up to the size of the range. -/
theorem processed_total (tot num : Int → Int) (f0 S E N : Int) (hnn : ∀ g, 0 ≤ tot g)
    (hN : E = S + N) (iF iE : Nat) (hle : iF ≤ iE)
    (hF : start_test tot f0 S iF) (hE : end_test tot f0 E iE)
    (hnum : ∀ i : Nat, i ≤ iE → num (f0 + i) = num_in_file tot f0 S E N i) :
    forests_in_files num (f0 + iF) (iE - iF + 1) = N := by
  have hpb := processed_before tot num f0 S E N hnn hN iF iE hF hE hnum (iE - iF) (by omega)
  have hlast := num_in_file_eq tot f0 S E N hnn hN iF iE iE hF hE hle (le_refl _)
  have e : f0 + (iF : Int) + ((iE - iF : Nat) : Int) = f0 + (iE : Int) := by omega
  have e2 : iF + (iE - iF) = iE := by omega
  rw [forests_in_files_succ, hpb, e, hnum iE (le_refl _), hlast, if_pos rfl, e2]
  by_cases h0 : iE - iF = 0
  · rw [if_pos h0, if_pos (by omega)]
    omega
  · rw [if_neg h0, if_neg (by omega)]
    omega

/-- The per-file pass leaves every entry outside the indices it stores to as it was. -/
theorem process_files_frame (sz : Int) (files : Int → Option LHaloFile) (tot : Int → Int)
    (scan : FileScan) (L : Int) :
    ∀ (n : Nat) (g0 : Int) (s s2 : FileLoop),
      process_files sz files tot scan L n g0 s = .ok s2 →
      ∀ k, (k < s.forestnhalos
          ∨ s.forestnhalos + forests_in_files scan.num_forests_to_process_per_file g0 n ≤ k) →
        s2.nhalos_per_forest k = s.nhalos_per_forest k
          ∧ s2.bytes_offset_for_forest k = s.bytes_offset_for_forest k
          ∧ s2.fd k = s.fd k := by
  intro n
  induction n with
  | zero =>
    intro g0 s s2 h k _
    simp only [process_files, Except.ok.injEq] at h
    subst h
    exact ⟨rfl, rfl, rfl⟩
  | succ m ih =>
    intro g0 s s2 h k hk
    unfold process_files at h
    cases h1 : process_file sz files tot scan L s g0 with
    | error e =>
      rw [h1] at h
      cases h
    | ok s1 =>
      rw [h1] at h
      simp only at h
      obtain ⟨_, _, _, _, hn0, _, hfh, _, _, hframe, _⟩ :=
        process_file_spec sz files tot scan L s g0 s1 h1
      obtain ⟨_, ptail, _, _⟩ := process_files_spec sz files tot scan L m (g0 + 1) s1 s2 h
      have hsum : 0 ≤ forests_in_files scan.num_forests_to_process_per_file (g0 + 1) m :=
        forests_in_files_nonneg _ _ _ (fun j hj => by
          obtain ⟨_, _, _, _, hj0, _⟩ := ptail j hj
          exact hj0.1)
      have hfront := forests_in_files_front scan.num_forests_to_process_per_file g0 m
      obtain ⟨a1, a2, a3⟩ := ih (g0 + 1) s1 s2 h k (by rw [hfh]; omega)
      obtain ⟨b1, b2, b3⟩ := hframe k (by omega)
      exact ⟨a1.trans b1, a2.trans b2, a3.trans b3⟩

/-- C22. For files that can all be opened and declare at least one forest each (file numbers
are not negative) and a task `0 ≤ t < NTasks` that owns at least one forest,
`setup_forests_io_lht_binary` succeeds, so no `XASSERT` of the per-file pass fails; the
per-file counts over `start_filenum .. end_filenum` sum to `nforests_this_task`; the per-file
pass that the setup runs (`process_files` on the header counts `tab` and the result of the
scan), whose arrays are the ones the setup returns, stores to the indices
`0, 1, .., nforests_this_task - 1` of `nhalos_per_forest`, `bytes_offset_for_forest` and
`fd`, in this order: to every index of `[0, nforests_this_task)` once and to no other index;
the three arrays keep outside `[0, nforests_this_task)` what they held before the call; and
at every index `k` of `[0, nforests_this_task)` they hold the halo count, the byte offset and
the descriptor of the forest with the global number `start_forestnum + k`, the one at
position `j` of the `i`-th file. -/
theorem per_file_counts_sum (sz : Int) (files : Int → Option LHaloFile) (info : forest_info)
    (f0 lastfile t NT : Int) (hf0 : 0 ≤ f0) (hlast : f0 ≤ lastfile)
    (hfiles : ∀ g, f0 ≤ g → g ≤ lastfile →
      ∃ f, files g = some f ∧ 0 ≤ f.fd ∧ 1 ≤ f.totnforests)
    (ht0 : 0 ≤ t) (htN : t < NT)
    (hown : 1 ≤ nforests_this_task (total_forests files f0 lastfile) t NT) :
    ∃ (st : forest_info) (tab : Int → Int) (T : Int) (fl : FileLoop),
      setup_forests_io_lht_binary sz files info f0 lastfile t NT = .ok st ∧
      count_forests files (lastfile - f0 + 1).toNat f0 (fun _ => 0) 0 = .ok (tab, T) ∧
      T = total_forests files f0 lastfile ∧
      process_files sz files tab (scan_result tab T t NT (lastfile - f0 + 1).toNat f0)
          (nforests_this_task T t NT)
          ((scan_result tab T t NT (lastfile - f0 + 1).toNat f0).end_filenum
            - (scan_result tab T t NT (lastfile - f0 + 1).toNat f0).start_filenum + 1).toNat
          (scan_result tab T t NT (lastfile - f0 + 1).toNat f0).start_filenum
          { nhalos_per_forest := info.lht.nhalos_per_forest
            bytes_offset_for_forest := info.lht.bytes_offset_for_forest
            fd := info.lht.fd
            open_fds := info.lht.open_fds
            forestnhalos := 0
            nhalos_stores := []
            offset_stores := []
            fd_stores := [] } = .ok fl ∧
      st.lht.nhalos_per_forest = fl.nhalos_per_forest ∧
      st.lht.bytes_offset_for_forest = fl.bytes_offset_for_forest ∧
      st.lht.fd = fl.fd ∧
      st.lht.nforests = nforests_this_task (total_forests files f0 lastfile) t NT ∧
      forests_in_files
          (scan_result tab T t NT (lastfile - f0 + 1).toNat f0).num_forests_to_process_per_file
          (scan_result tab T t NT (lastfile - f0 + 1).toNat f0).start_filenum
          ((scan_result tab T t NT (lastfile - f0 + 1).toNat f0).end_filenum
            - (scan_result tab T t NT (lastfile - f0 + 1).toNat f0).start_filenum
            + 1).toNat
        = nforests_this_task (total_forests files f0 lastfile) t NT ∧
      fl.nhalos_stores
        = (List.range (nforests_this_task (total_forests files f0 lastfile) t NT).toNat).map
            (fun i : Nat => (i : Int)) ∧
      fl.offset_stores
        = (List.range (nforests_this_task (total_forests files f0 lastfile) t NT).toNat).map
            (fun i : Nat => (i : Int)) ∧
      fl.fd_stores
        = (List.range (nforests_this_task (total_forests files f0 lastfile) t NT).toNat).map
            (fun i : Nat => (i : Int)) ∧
      (∀ k : Int,
        fl.nhalos_stores.count k
            = (if 0 ≤ k ∧ k < nforests_this_task (total_forests files f0 lastfile) t NT
                then 1 else 0) ∧
        fl.offset_stores.count k
            = (if 0 ≤ k ∧ k < nforests_this_task (total_forests files f0 lastfile) t NT
                then 1 else 0) ∧
        fl.fd_stores.count k
            = (if 0 ≤ k ∧ k < nforests_this_task (total_forests files f0 lastfile) t NT
                then 1 else 0)) ∧
      (∀ k, ¬ (0 ≤ k ∧ k < nforests_this_task (total_forests files f0 lastfile) t NT) →
        st.lht.nhalos_per_forest k = info.lht.nhalos_per_forest k ∧
        st.lht.bytes_offset_for_forest k = info.lht.bytes_offset_for_forest k ∧
        st.lht.fd k = info.lht.fd k) ∧
      (∀ k : Int, 0 ≤ k → k < nforests_this_task (total_forests files f0 lastfile) t NT →
        ∃ (i : Nat) (f : LHaloFile) (j : Nat),
          (i : Int) < lastfile - f0 + 1 ∧ files (f0 + i) = some f ∧
          (j : Int) < f.totnforests ∧
          forests_in_files (nforests_in_file files) f0 i + j
            = start_forestnum (total_forests files f0 lastfile) t NT + k ∧
          st.lht.nhalos_per_forest k = f.nhalos_per_forest.getD j 0 ∧
          st.lht.bytes_offset_for_forest k
            = stored_offset sz f.totnforests f.nhalos_per_forest j ∧
          st.lht.fd k = f.fd) := by
  obtain ⟨st, h⟩ := setup_ok sz files info f0 lastfile t NT hf0 hlast hfiles ht0 htN hown
  obtain ⟨hn, hNT, tab, T, fl, hcount, hF, hE, hproc, hst⟩ :=
    setup_inv sz files info f0 lastfile t NT st h
  obtain ⟨hc1, hc2, hc3⟩ := count_forests_spec files _ _ _ _ _ _ hcount
  have hnZ : (((lastfile - f0 + 1).toNat : Nat) : Int) = lastfile - f0 + 1 :=
    Int.toNat_of_nonneg (by omega)
  have hT : T = total_forests files f0 lastfile := by
    unfold total_forests
    rw [hc3]
    simp
  have hcounts : ∀ g, f0 ≤ g → g ≤ lastfile → 0 ≤ nforests_in_file files g := by
    intro g h1 h2
    obtain ⟨f, hf, _, hf1⟩ := hfiles g h1 h2
    unfold nforests_in_file
    rw [hf]
    show 0 ≤ f.totnforests
    omega
  have hnn : ∀ g, 0 ≤ tab g :=
    header_counts_nonneg files _ f0 tab T hcount (fun g h1 h2 => hcounts g h1 (by omega))
  have hcontent : ∀ k : Int, 0 ≤ k →
      k < nforests_this_task (total_forests files f0 lastfile) t NT →
      ∃ (i : Nat) (f : LHaloFile) (j : Nat),
        (i : Int) < lastfile - f0 + 1 ∧ files (f0 + i) = some f ∧
        (j : Int) < f.totnforests ∧
        forests_in_files (nforests_in_file files) f0 i + j
          = start_forestnum (total_forests files f0 lastfile) t NT + k ∧
        st.lht.nhalos_per_forest k = f.nhalos_per_forest.getD j 0 ∧
        st.lht.bytes_offset_for_forest k
          = stored_offset sz f.totnforests f.nhalos_per_forest j ∧
        st.lht.fd k = f.fd := by
    intro k hk0 hk
    obtain ⟨_, _, _, a4⟩ := setup_spec sz files info f0 lastfile t NT st hf0 hcounts h
    have hcn : ∀ m : Nat, m < (lastfile - f0 + 1).toNat →
        0 ≤ nforests_in_file files (f0 + m) :=
      fun m hm => hcounts _ (by omega) (by omega)
    have hT0 : 0 ≤ total_forests files f0 lastfile := forests_in_files_nonneg _ _ _ hcn
    obtain ⟨hS0, _, hET⟩ := partition_bounds (total_forests files f0 lastfile) t NT hT0 ht0 htN
    have hE : end_forestnum (total_forests files f0 lastfile) t NT
        = start_forestnum (total_forests files f0 lastfile) t NT
          + nforests_this_task (total_forests files f0 lastfile) t NT := rfl
    have hg : (((start_forestnum (total_forests files f0 lastfile) t NT + k).toNat : Nat) : Int)
        = start_forestnum (total_forests files f0 lastfile) t NT + k :=
      Int.toNat_of_nonneg (by omega)
    obtain ⟨i, f, j, hi, hf, hj, hsum, _⟩ := locate_forest files f0
      (lastfile - f0 + 1).toNat
      (start_forestnum (total_forests files f0 lastfile) t NT + k).toNat hcn
      (by
        rw [hg]
        have hTdef : total_forests files f0 lastfile
            = forests_in_files (nforests_in_file files) f0 (lastfile - f0 + 1).toNat := rfl
        omega)
    rw [hg] at hsum
    obtain ⟨v1, v2, v3⟩ := a4 i f j (by omega) hf hj (by omega) (by omega)
    have e1 : forests_in_files (nforests_in_file files) f0 i + (j : Int)
        - start_forestnum (total_forests files f0 lastfile) t NT = k := by omega
    rw [e1] at v1 v2 v3
    exact ⟨i, f, j, by omega, hf, hj, hsum, v1, v2, v3⟩
  refine ⟨st, tab, T, fl, h, hcount, hT, hproc, by rw [hst], by rw [hst], by rw [hst], ?_, ?_⟩
  · rw [hst, hT]
  rw [← hT] at hown hcontent ⊢
  have hN : end_forestnum T t NT = start_forestnum T t NT + nforests_this_task T t NT := rfl
  obtain ⟨_, _, s3, s4, s5⟩ := scan_files_spec tab f0 (start_forestnum T t NT)
    (end_forestnum T t NT) (nforests_this_task T t NT) hf0 (lastfile - f0 + 1).toNat
  obtain ⟨l1, l2, l3⟩ := process_files_stores sz files tab _ _ _ _ _ _ hproc
  have hframe := process_files_frame sz files tab _ _ _ _ _ _ hproc
  unfold scan_result at hF hE hproc hst hframe l1 l2 l3 ⊢
  have key : ∀ sc : FileScan,
      sc = scan_files tab (start_forestnum T t NT) (end_forestnum T t NT)
        (nforests_this_task T t NT) (lastfile - f0 + 1).toNat f0 scan_init →
      forests_in_files sc.num_forests_to_process_per_file sc.start_filenum
          (sc.end_filenum - sc.start_filenum + 1).toNat = nforests_this_task T t NT := by
    intro sc hsc
    subst hsc
    generalize scan_files tab (start_forestnum T t NT) (end_forestnum T t NT)
      (nforests_this_task T t NT) (lastfile - f0 + 1).toNat f0 scan_init = sc
      at hF hE s3 s4 s5
    rcases s4 with ⟨hbad, _⟩ | ⟨iF, hiF, hFeq, hFt⟩
    · exact absurd hbad hF
    rcases s5 with ⟨hbad, _⟩ | ⟨iE, hiE, hEeq, hEt⟩
    · exact absurd hbad hE
    have hFt' := hFt
    have hEt' := hEt
    unfold start_test at hFt'
    unfold end_test at hEt'
    have hle : iF ≤ iE := by
      have := forests_in_files_lt tab f0 hnn iF (iE + 1) (by omega)
      omega
    have hcnt : (sc.end_filenum - sc.start_filenum + 1).toNat = iE - iF + 1 := by
      rw [hFeq, hEeq]
      omega
    have hsum := processed_total tab sc.num_forests_to_process_per_file f0
      (start_forestnum T t NT) (end_forestnum T t NT) (nforests_this_task T t NT) hnn hN iF iE
      hle hFt hEt (fun i hi => s3 i (by omega))
    rw [hcnt, hFeq]
    exact hsum
  have hsum := key _ rfl
  have hmap : ∀ N : Int, (List.range N.toNat).map (fun i : Nat => (0 : Int) + (i : Int))
      = (List.range N.toNat).map (fun i : Nat => (i : Int)) := by
    intro N
    apply List.map_congr_left
    intro i _
    omega
  have e1 : fl.nhalos_stores
      = (List.range (nforests_this_task T t NT).toNat).map (fun i : Nat => (i : Int)) := by
    rw [l1, List.nil_append]
    show (List.range (forests_in_files _ _ _).toNat).map (fun i : Nat => (0 : Int) + (i : Int))
      = _
    rw [hsum, hmap]
  have e2 : fl.offset_stores
      = (List.range (nforests_this_task T t NT).toNat).map (fun i : Nat => (i : Int)) := by
    rw [l2, List.nil_append]
    show (List.range (forests_in_files _ _ _).toNat).map (fun i : Nat => (0 : Int) + (i : Int))
      = _
    rw [hsum, hmap]
  have e3 : fl.fd_stores
      = (List.range (nforests_this_task T t NT).toNat).map (fun i : Nat => (i : Int)) := by
    rw [l3, List.nil_append]
    show (List.range (forests_in_files _ _ _).toNat).map (fun i : Nat => (0 : Int) + (i : Int))
      = _
    rw [hsum, hmap]
  refine ⟨hsum, e1, e2, e3, ?_, ?_, hcontent⟩
  · intro k
    rw [e1, e2, e3]
    exact ⟨range_map_count _ k, range_map_count _ k, range_map_count _ k⟩
  · intro k hk
    obtain ⟨a1, a2, a3⟩ := hframe k (by
      show k < 0 ∨ (0 : Int) + forests_in_files _ _ _ ≤ k
      rw [hsum]
      omega)
    subst hst
    exact ⟨a1, a2, a3⟩

/-- C22, instantiated: task 1 of 2 on `two_files`, which owns the forests 4 to 7. -/
theorem per_file_counts_sum_witness :
    ∃ (st : forest_info) (fl : FileLoop),
      setup_forests_io_lht_binary 104 two_files blank_info 0 1 1 2 = .ok st ∧
      st.lht.nhalos_per_forest = fl.nhalos_per_forest ∧
      fl.nhalos_stores
        = (List.range (nforests_this_task (total_forests two_files 0 1) 1 2).toNat).map
            (fun i : Nat => (i : Int)) ∧
      fl.offset_stores
        = (List.range (nforests_this_task (total_forests two_files 0 1) 1 2).toNat).map
            (fun i : Nat => (i : Int)) ∧
      fl.fd_stores
        = (List.range (nforests_this_task (total_forests two_files 0 1) 1 2).toNat).map
            (fun i : Nat => (i : Int)) := by
  obtain ⟨st, _, _, fl, h, _, _, _, a1, _, _, _, _, e1, e2, e3, _⟩ :=
    per_file_counts_sum 104 two_files blank_info 0 1 1 2 (by decide) (by decide)
      (fun g h0 h1 => by
        have hg : g = 0 ∨ g = 1 := by omega
        rcases hg with rfl | rfl
        · exact ⟨_, rfl, by decide, by decide⟩
        · exact ⟨_, rfl, by decide, by decide⟩)
      (by decide) (by decide) (by decide)
  exact ⟨st, fl, h, a1, e1, e2, e3⟩

end Sage
